import Mathlib

/-!
ARM DAG-to-DAG instruction selection: addressing-mode matchers and bespoke rules.

A shallow embedding of `lib/Target/ARM/ARMISelDAGToDAG.cpp`.

* A selection-DAG value (`SDOperand`) is a reference to result `ResNo` of a node
  with a given kind and operand list.  Leaf nodes created through the graph
  (`getRegister`, `getTargetConstant`, `getTargetFrameIndex`, ...) are interned
  by the graph, so structural equality of terms is node identity.
* The C++ matchers return `bool` and assign reference parameters; here a matcher
  returns `Option (MatchResult out)`: `none` is a failed assertion inside
  `getOperand` or `cast<>` (a malformed node), `some .declined` is `return false`
  and `some (.matched out)` is `return true` with the assigned outputs.
* The bit-level encoders of `ARMAddressingModes.h` live in another header; they
  are taken as parameters, bundled in `ARM_AM`.
-/

namespace ARMISel

/-! ## Enumerations -/

/-- `ARM_AM::AddrOpc`. -/
inductive AddrOpc where
  | add
  | sub
deriving DecidableEq, Repr

/-- `ARM_AM::ShiftOpc`. -/
inductive ShiftOpc where
  | no_shift
  | asr
  | lsl
  | lsr
  | ror
  | rrx
deriving DecidableEq, Repr

/-- `ISD::MemIndexedMode`. -/
inductive MemIndexedMode where
  | UNINDEXED
  | PRE_INC
  | PRE_DEC
  | POST_INC
  | POST_DEC
deriving DecidableEq, Repr

/-- `ISD::LoadExtType`. -/
inductive LoadExtType where
  | NON_EXTLOAD
  | EXTLOAD
  | SEXTLOAD
  | ZEXTLOAD
deriving DecidableEq, Repr

/-- `MVT::ValueType`, the simple value types a load can produce. -/
inductive ValueType where
  | i1
  | i8
  | i16
  | i32
  | i64
  | f32
  | f64
  | Other
deriving DecidableEq, Repr

/-- Machine instruction opcodes (`ARM::...`) named in the selector. -/
inductive ARMInstr where
  | LDR
  | ADDri
  | tADDrSPi
  | ADDrs
  | RSBrs
  | tMOVri8
  | FMRRD
  | UMULL
  | SMULL
  | LDR_PRE
  | LDR_POST
  | LDRH_PRE
  | LDRH_POST
  | LDRSH_PRE
  | LDRSH_POST
  | LDRB_PRE
  | LDRB_POST
  | LDRSB_PRE
  | LDRSB_POST
  | OtherInstr (n : Nat)
deriving DecidableEq, Repr

/-- Node opcode together with the data the node subclass carries.

The three opcode ranges of the source are three groups of constructors:
target-independent opcodes (below `ISD::BUILTIN_OP_END`), machine instructions
(`Machine`, the range `[ISD::BUILTIN_OP_END, ARMISD::FIRST_NUMBER)`), and the
ARM-specific DAG nodes (`ARMISD_*`, from `ARMISD::FIRST_NUMBER` on). -/
inductive NodeKind where
  | EntryToken
  | Constant (value : Nat)
  | TargetConstant (value : Nat)
  | FrameIndex (FI : Int)
  | TargetFrameIndex (FI : Int)
  | TargetConstantPool (value : Nat)
  | Register (reg : Nat)
  | ADD
  | SUB
  | MUL
  | SHL
  | SRA
  | SRL
  | ROTL
  | ROTR
  | LOAD (AM : MemIndexedMode) (LoadedVT : ValueType) (Ext : LoadExtType)
  | STORE (AM : MemIndexedMode)
  | OtherISD (n : Nat)
  | Machine (opc : ARMInstr)
  | ARMISD_Wrapper
  | ARMISD_PIC_ADD
  | ARMISD_FMRRD
  | ARMISD_MULHILOU
  | ARMISD_MULHILOS
  | OtherARMISD (n : Nat)
deriving DecidableEq, Repr

/-! ## Graph values -/

/-- A use of result `ResNo` of the node with the given kind and operands. -/
inductive SDOperand where
  | mk (kind : NodeKind) (ops : List SDOperand) (ResNo : Nat)

namespace SDOperand

/-- `SDOperand::getOpcode`. -/
def getOpcode : SDOperand → NodeKind
  | mk k _ _ => k

/-- Operand list of the node behind the value. -/
def operands : SDOperand → List SDOperand
  | mk _ ops _ => ops

/-- Result number of the value. -/
def resNo : SDOperand → Nat
  | mk _ _ r => r

/-- `SDOperand::getOperand`; `none` is the failed bounds assertion. -/
def getOperand (N : SDOperand) (i : Nat) : Option SDOperand :=
  N.operands[i]?

mutual
/-- Decision procedure for equality of values. -/
def decEq : (x y : SDOperand) → Decidable (x = y)
  | mk k1 o1 r1, mk k2 o2 r2 =>
    if hk : k1 = k2 then
      if hr : r1 = r2 then
        match decEqList o1 o2 with
        | isTrue h => isTrue (by rw [hk, hr, h])
        | isFalse h => isFalse (by intro e; cases e; exact h rfl)
      else isFalse (by intro e; cases e; exact hr rfl)
    else isFalse (by intro e; cases e; exact hk rfl)
/-- Decision procedure for equality of operand lists. -/
def decEqList : (xs ys : List SDOperand) → Decidable (xs = ys)
  | [], [] => isTrue rfl
  | [], _ :: _ => isFalse (by intro e; cases e)
  | _ :: _, [] => isFalse (by intro e; cases e)
  | x :: xs, y :: ys =>
    match decEq x y with
    | isTrue h =>
      match decEqList xs ys with
      | isTrue h2 => isTrue (by rw [h, h2])
      | isFalse h2 => isFalse (by intro e; cases e; exact h2 rfl)
    | isFalse h => isFalse (by intro e; cases e; exact h rfl)
end

instance : DecidableEq SDOperand := decEq

end SDOperand

/-- A node: what `SDOperand::Val` points to. -/
structure SDNode where
  kind : NodeKind
  ops : List SDOperand
deriving DecidableEq

/-- The node behind a value (`Op.Val`). -/
def SDOperand.Val (V : SDOperand) : SDNode := ⟨V.getOpcode, V.operands⟩

/-- The value `SDOperand(N, ResNo)`. -/
def SDNode.result (N : SDNode) (ResNo : Nat) : SDOperand := .mk N.kind N.ops ResNo

/-- Modelled from the spec: the program graph substrate (class `SelectionDAG`,
declared outside this file).  The spec gives each node "a use-count (number of
other nodes referencing each result)"; the graph is the list of its nodes, and a
use of a value is an operand slot of one of them that holds the value. -/
structure SelectionDAG where
  AllNodes : List SDNode

/-- Modelled from the spec: the substrate's use-count query, the number of operand
slots of nodes of the graph that reference the value. -/
def SelectionDAG.useCount (G : SelectionDAG) (V : SDOperand) : Nat :=
  (G.AllNodes.map (fun n => n.ops.count V)).sum

/-- `SDOperand::hasOneUse`, asked of the graph holding the value. -/
def SelectionDAG.hasOneUse (G : SelectionDAG) (V : SDOperand) : Bool :=
  G.useCount V = 1

/-- `dyn_cast<ConstantSDNode>(N)` followed by `getValue()`: the node is a
`ConstantSDNode` when its opcode is `Constant` or `TargetConstant`. -/
def dynCastConstant (N : SDOperand) : Option Nat :=
  match N.getOpcode with
  | .Constant v => some v
  | .TargetConstant v => some v
  | _ => none

/-- `CurDAG->getRegister(reg, MVT::i32)`. -/
def getRegister (reg : Nat) : SDOperand := .mk (.Register reg) [] 0

/-- `CurDAG->getTargetConstant(v, MVT::i32)`. -/
def getTargetConstant (v : Nat) : SDOperand := .mk (.TargetConstant v) [] 0

/-- `CurDAG->getTargetFrameIndex(FI, TLI.getPointerTy())`. -/
def getTargetFrameIndex (FI : Int) : SDOperand := .mk (.TargetFrameIndex FI) [] 0

/-! ## Machine integers -/

/-- The C++ conversion `(int)x` of an unsigned 64-bit value: keep the low 32 bits,
read as two's complement. -/
def toInt32 (v : Nat) : Int :=
  if v % 2 ^ 32 < 2 ^ 31 then (v % 2 ^ 32 : Nat) else (v % 2 ^ 32 : Nat) - 2 ^ 32

/-- Conversion of an `int` to `unsigned` (32 bits). -/
def toUInt32 (i : Int) : Nat := (i % 2 ^ 32).toNat

/-! ## Encoders of `ARMAddressingModes.h`, taken as parameters -/

/-- The functions of namespace `ARM_AM` the selector calls. -/
structure ARM_AM where
  getShiftOpcForNode : SDOperand → ShiftOpc
  getAM2Opc : AddrOpc → Nat → ShiftOpc → Nat
  getAM3Opc : AddrOpc → Nat → Nat
  getAM5Opc : AddrOpc → Nat → Nat
  getSORegOpc : ShiftOpc → Nat → Nat
  getSOImmVal : Nat → Int
  isSOImmTwoPartVal : Nat → Bool
  isThumbImmShiftedVal : Nat → Bool

/-! ## Matcher results -/

/-- Outcome of a matcher that did not hit an assertion. -/
inductive MatchResult (α : Type) where
  | matched (out : α)
  | declined
deriving DecidableEq

/-- Outputs `Base`, `Offset`, `Opc` of addressing modes 2 and 3. -/
structure BaseOffsetOpc where
  Base : SDOperand
  Offset : SDOperand
  Opc : SDOperand
deriving DecidableEq

/-- Outputs `Base`, `Offset` of addressing mode 5 and of the Thumb reg+reg mode. -/
structure BaseOffset where
  Base : SDOperand
  Offset : SDOperand
deriving DecidableEq

/-! ## Family A: `SelectAddrMode2` -/

/-- Lines 121-140 of `SelectAddrMode2`: the `R ± imm12` forms of an `ADD` whose
operands are `N0` and `N1`; `none` when control falls through. -/
def SelectAddrMode2.imm12 (AM : ARM_AM) (N0 N1 : SDOperand) : Option BaseOffsetOpc :=
  match dynCastConstant N1 with
  | some v =>
    let RHSC := toInt32 v
    if RHSC ≥ 0 ∧ RHSC < 0x1000 then
      some ⟨N0, getRegister 0,
        getTargetConstant (AM.getAM2Opc .add (toUInt32 RHSC) .no_shift)⟩
    else if RHSC < 0 ∧ RHSC > -0x1000 then
      some ⟨N0, getRegister 0,
        getTargetConstant (AM.getAM2Opc .sub (toUInt32 (-RHSC)) .no_shift)⟩
    else none
  | none => none

/-- The arguments of the final `getAM2Opc` call in `SelectAddrMode2` together with
the `Base` and `Offset` chosen by lines 142-177. -/
structure AM2RegForm where
  Base : SDOperand
  Offset : SDOperand
  AddSub : AddrOpc
  ShAmt : Nat
  ShOpcVal : ShiftOpc
deriving DecidableEq

/-- Lines 142-160 of `SelectAddrMode2`: the register form with a shift on the
right operand folded when its amount is a constant. -/
def SelectAddrMode2.foldRHS (AM : ARM_AM) (N N0 N1 : SDOperand) : Option AM2RegForm :=
  let AddSub := if N.getOpcode = .ADD then AddrOpc.add else AddrOpc.sub
  let ShOpcVal := AM.getShiftOpcForNode N1
  -- ShAmt = 0; Base = N.getOperand(0); Offset = N.getOperand(1);
  if ShOpcVal ≠ .no_shift then do
    -- Check to see if the RHS of the shift is a constant, if not, we cannot fold it.
    let Sh ← N1.getOperand 1
    match dynCastConstant Sh with
    | some v =>
      let Off ← N1.getOperand 0
      pure ⟨N0, Off, AddSub, v % 2 ^ 32, ShOpcVal⟩
    | none => pure ⟨N0, N1, AddSub, 0, .no_shift⟩
  else pure ⟨N0, N1, AddSub, 0, ShOpcVal⟩

/-- Lines 162-177 of `SelectAddrMode2`: try matching `(R shl C) + (R)`, starting
from the state `s` left by the right-operand step. -/
def SelectAddrMode2.foldLHS (AM : ARM_AM) (N N0 N1 : SDOperand) (s : AM2RegForm) :
    Option AM2RegForm :=
  if N.getOpcode = .ADD ∧ s.ShOpcVal = .no_shift then
    let ShOpcVal := AM.getShiftOpcForNode N0
    if ShOpcVal ≠ .no_shift then do
      -- Check to see if the RHS of the shift is a constant, if not, we cannot fold it.
      let Sh ← N0.getOperand 1
      match dynCastConstant Sh with
      | some v =>
        let Off ← N0.getOperand 0
        pure { s with Base := N1, Offset := Off, ShAmt := v % 2 ^ 32, ShOpcVal := ShOpcVal }
      | none => pure { s with ShOpcVal := .no_shift }
    else pure { s with ShOpcVal := ShOpcVal }
  else pure s

/-- Lines 142-177 of `SelectAddrMode2`: `R ± [possibly shifted] R`. -/
def SelectAddrMode2.regForm (AM : ARM_AM) (N N0 N1 : SDOperand) : Option AM2RegForm :=
  (SelectAddrMode2.foldRHS AM N N0 N1).bind (SelectAddrMode2.foldLHS AM N N0 N1)

/-- `ARMDAGToDAGISel::SelectAddrMode2`. -/
def SelectAddrMode2 (AM : ARM_AM) (_Op N : SDOperand) :
    Option (MatchResult BaseOffsetOpc) :=
  if N.getOpcode ≠ .ADD ∧ N.getOpcode ≠ .SUB then do
    let Base ←
      match N.getOpcode with
      | .FrameIndex FI => some (getTargetFrameIndex FI)
      | .ARMISD_Wrapper => N.getOperand 0
      | _ => some N
    pure (.matched ⟨Base, getRegister 0,
      getTargetConstant (AM.getAM2Opc .add 0 .no_shift)⟩)
  else do
    let N1 ← N.getOperand 1
    let N0 ← N.getOperand 0
    -- Match simple R ± imm12 operands.
    match (if N.getOpcode = .ADD then SelectAddrMode2.imm12 AM N0 N1 else none) with
    | some r => pure (.matched r)
    | none =>
      -- Otherwise this is R ± [possibly shifted] R
      let s ← SelectAddrMode2.regForm AM N N0 N1
      pure (.matched ⟨s.Base, s.Offset,
        getTargetConstant (AM.getAM2Opc s.AddSub s.ShAmt s.ShOpcVal)⟩)

/-! ## Family A, offset-only: `SelectAddrMode2Offset` -/

/-- Outputs `Offset`, `Opc` of the offset-only matchers. -/
structure OffsetOpc where
  Offset : SDOperand
  Opc : SDOperand
deriving DecidableEq

/-- The addressing mode of an indexed memory operation:
`cast<LoadSDNode>(Op)->getAddressingMode()` when `Op` is a load, otherwise
`cast<StoreSDNode>(Op)->getAddressingMode()`, whose cast asserts on any other node. -/
def getAddressingMode (Op : SDOperand) : Option MemIndexedMode :=
  match Op.getOpcode with
  | .LOAD AM _ _ => some AM
  | .STORE AM => some AM
  | _ => none

/-- Direction chosen from the addressing mode of the memory operation. -/
def addSubOfMode (AM : MemIndexedMode) : AddrOpc :=
  if AM = .PRE_INC ∨ AM = .POST_INC then .add else .sub

/-- `ARMDAGToDAGISel::SelectAddrMode2Offset`. -/
def SelectAddrMode2Offset (AM : ARM_AM) (Op N : SDOperand) :
    Option (MatchResult OffsetOpc) := do
  let Mode ← getAddressingMode Op
  let AddSub := addSubOfMode Mode
  let imm : Option OffsetOpc :=
    match dynCastConstant N with
    | some v =>
      let Val := toInt32 v
      if Val ≥ 0 ∧ Val < 0x1000 then
        some ⟨getRegister 0,
          getTargetConstant (AM.getAM2Opc AddSub (toUInt32 Val) .no_shift)⟩
      else none
    | none => none
  match imm with
  | some r => pure (.matched r)
  | none =>
    let ShOpcVal := AM.getShiftOpcForNode N
    if ShOpcVal ≠ .no_shift then do
      let Sh ← N.getOperand 1
      match dynCastConstant Sh with
      | some v =>
        let Off ← N.getOperand 0
        pure (.matched ⟨Off, getTargetConstant (AM.getAM2Opc AddSub (v % 2 ^ 32) ShOpcVal)⟩)
      | none =>
        pure (.matched ⟨N, getTargetConstant (AM.getAM2Opc AddSub 0 .no_shift)⟩)
    else
      pure (.matched ⟨N, getTargetConstant (AM.getAM2Opc AddSub 0 ShOpcVal)⟩)

/-! ## Family B: `SelectAddrMode3` and its offset-only form -/

/-- `ARMDAGToDAGISel::SelectAddrMode3`. -/
def SelectAddrMode3 (AM : ARM_AM) (_Op N : SDOperand) :
    Option (MatchResult BaseOffsetOpc) :=
  if N.getOpcode = .SUB then do
    -- X - C  is canonicalize to X + -C, no need to handle it here.
    let Base ← N.getOperand 0
    let Offset ← N.getOperand 1
    pure (.matched ⟨Base, Offset, getTargetConstant (AM.getAM3Opc .sub 0)⟩)
  else if N.getOpcode ≠ .ADD then
    let Base :=
      match N.getOpcode with
      | .FrameIndex FI => getTargetFrameIndex FI
      | _ => N
    pure (.matched ⟨Base, getRegister 0, getTargetConstant (AM.getAM3Opc .add 0)⟩)
  else do
    let N1 ← N.getOperand 1
    let N0 ← N.getOperand 0
    -- If the RHS is ± imm8, fold into addr mode.
    let imm : Option BaseOffsetOpc :=
      match dynCastConstant N1 with
      | some v =>
        let RHSC := toInt32 v
        if RHSC ≥ 0 ∧ RHSC < 256 then
          some ⟨N0, getRegister 0, getTargetConstant (AM.getAM3Opc .add (toUInt32 RHSC))⟩
        else if RHSC < 0 ∧ RHSC > -256 then
          some ⟨N0, getRegister 0, getTargetConstant (AM.getAM3Opc .sub (toUInt32 (-RHSC)))⟩
        else none
      | none => none
    match imm with
    | some r => pure (.matched r)
    | none => pure (.matched ⟨N0, N1, getTargetConstant (AM.getAM3Opc .add 0)⟩)

/-- `ARMDAGToDAGISel::SelectAddrMode3Offset`. -/
def SelectAddrMode3Offset (AM : ARM_AM) (Op N : SDOperand) :
    Option (MatchResult OffsetOpc) := do
  let Mode ← getAddressingMode Op
  let AddSub := addSubOfMode Mode
  let imm : Option OffsetOpc :=
    match dynCastConstant N with
    | some v =>
      let Val := toInt32 v
      if Val ≥ 0 ∧ Val < 256 then
        some ⟨getRegister 0, getTargetConstant (AM.getAM3Opc AddSub (toUInt32 Val))⟩
      else none
    | none => none
  match imm with
  | some r => pure (.matched r)
  | none => pure (.matched ⟨N, getTargetConstant (AM.getAM3Opc AddSub 0)⟩)

/-! ## Family C: `SelectAddrMode5` -/

/-- `ARMDAGToDAGISel::SelectAddrMode5`. -/
def SelectAddrMode5 (AM : ARM_AM) (_Op N : SDOperand) :
    Option (MatchResult BaseOffset) :=
  if N.getOpcode ≠ .ADD then do
    let Base ←
      match N.getOpcode with
      | .FrameIndex FI => some (getTargetFrameIndex FI)
      | .ARMISD_Wrapper => N.getOperand 0
      | _ => some N
    pure (.matched ⟨Base, getTargetConstant (AM.getAM5Opc .add 0)⟩)
  else do
    let N1 ← N.getOperand 1
    let N0 ← N.getOperand 0
    -- If the RHS is ± imm8, fold into addr mode.
    let imm : Option BaseOffset :=
      match dynCastConstant N1 with
      | some v =>
        let RHSC := toInt32 v
        if toUInt32 RHSC &&& 3 = 0 then  -- The constant is implicitly multiplied by 4.
          let RHSC := RHSC >>> (2 : Nat)
          if RHSC ≥ 0 ∧ RHSC < 256 then
            some ⟨N0, getTargetConstant (AM.getAM5Opc .add (toUInt32 RHSC))⟩
          else if RHSC < 0 ∧ RHSC > -256 then  -- note -256 itself is not allowed.
            some ⟨N0, getTargetConstant (AM.getAM5Opc .sub (toUInt32 (-RHSC)))⟩
          else none
        else none
      | none => none
    match imm with
    | some r => pure (.matched r)
    | none => pure (.matched ⟨N, getTargetConstant (AM.getAM5Opc .add 0)⟩)

/-! ## Family D: `SelectAddrModePC` -/

/-- Outputs `Offset`, `Label` of the PC-relative matcher. -/
structure OffsetLabel where
  Offset : SDOperand
  Label : SDOperand
deriving DecidableEq

/-- `ARMDAGToDAGISel::SelectAddrModePC`; `cast<ConstantSDNode>(N1)` asserts when
operand 1 is not a constant. -/
def SelectAddrModePC (CurDAG : SelectionDAG) (_Op N : SDOperand) :
    Option (MatchResult OffsetLabel) :=
  if N.getOpcode = .ARMISD_PIC_ADD ∧ CurDAG.hasOneUse N = true then do
    let Offset ← N.getOperand 0
    let N1 ← N.getOperand 1
    let v ← dynCastConstant N1
    pure (.matched ⟨Offset, getTargetConstant v⟩)
  else pure .declined

/-! ## Reduced-mode (Thumb) matchers -/

/-- `ARMDAGToDAGISel::SelectThumbAddrModeRR`; the zero offset is a fresh `tMOVri8`
machine node. -/
def SelectThumbAddrModeRR (_Op N : SDOperand) : Option (MatchResult BaseOffset) :=
  if N.getOpcode ≠ .ADD then
    pure (.matched ⟨N, .mk (.Machine .tMOVri8) [getTargetConstant 0] 0⟩)
  else do
    let Base ← N.getOperand 0
    let Offset ← N.getOperand 1
    pure (.matched ⟨Base, Offset⟩)

/-- Outputs `Base`, `OffImm` of the stack-pointer-relative matcher. -/
structure BaseOffImm where
  Base : SDOperand
  OffImm : SDOperand
deriving DecidableEq

/-- Outputs `Base`, `Offset`, `OffImm` of the scaled 5-bit immediate matchers. -/
structure BaseOffsetOffImm where
  Base : SDOperand
  Offset : SDOperand
  OffImm : SDOperand
deriving DecidableEq

/-- Conversion of an `int` to the `uint64_t` parameter of `getTargetConstant`. -/
def toUInt64 (i : Int) : Nat := (i % 2 ^ 64).toNat

/-- `ARMDAGToDAGISel::SelectThumbAddrModeSP`. -/
def SelectThumbAddrModeSP (_Op N : SDOperand) : Option (MatchResult BaseOffImm) :=
  match N.getOpcode with
  | .FrameIndex FI => pure (.matched ⟨getTargetFrameIndex FI, getTargetConstant 0⟩)
  | .ADD => do
    let N0 ← N.getOperand 0
    match N0.getOpcode with
    | .FrameIndex FI =>
      -- If the RHS is + imm8 * scale, fold into addr mode.
      let N1 ← N.getOperand 1
      match dynCastConstant N1 with
      | some v =>
        let RHSC := toInt32 v
        if toUInt32 RHSC &&& 3 = 0 then  -- The constant is implicitly multiplied.
          let RHSC := RHSC >>> (2 : Nat)
          if RHSC ≥ 0 ∧ RHSC < 256 then
            pure (.matched ⟨getTargetFrameIndex FI, getTargetConstant (toUInt64 RHSC)⟩)
          else pure .declined
        else pure .declined
      | none => pure .declined
    | _ => pure .declined
  | _ => pure .declined

/-- Lines 371-395 of `SelectThumbAddrModeRI5`, past the stack-pointer check.
`Scale` is an `unsigned`: the mask `Scale-1` wraps, and `RHSC /= Scale` divides in
unsigned 32-bit arithmetic before the quotient is stored back into the `int`;
division by a zero `Scale` is undefined and is treated like a failed assertion. -/
def SelectThumbAddrModeRI5.rest (N : SDOperand) (Scale : Nat) :
    Option (MatchResult BaseOffsetOffImm) :=
  if N.getOpcode ≠ .ADD then do
    let Base ←
      match N.getOpcode with
      | .ARMISD_Wrapper => N.getOperand 0
      | _ => some N
    pure (.matched ⟨Base, getRegister 0, getTargetConstant 0⟩)
  else do
    let N1 ← N.getOperand 1
    let N0 ← N.getOperand 0
    -- If the RHS is + imm5 * scale, fold into addr mode.
    let imm : Option BaseOffsetOffImm ←
      match dynCastConstant N1 with
      | some v =>
        let RHSC := toInt32 v
        if toUInt32 RHSC &&& ((Scale + 2 ^ 32 - 1) % 2 ^ 32) = 0 then
          -- The constant is implicitly multiplied.
          if Scale = 0 then none
          else
            let RHSC := toInt32 (toUInt32 RHSC / Scale)
            if RHSC ≥ 0 ∧ RHSC < 32 then
              some (some ⟨N0, getRegister 0, getTargetConstant (toUInt64 RHSC)⟩)
            else some none
        else some none
      | none => some none
    match imm with
    | some r => pure (.matched r)
    | none => pure (.matched ⟨N0, N1, getTargetConstant 0⟩)

/-- `ARMDAGToDAGISel::SelectThumbAddrModeRI5`: for `Scale == 4` the stack-pointer
form is tried first, and the matcher declines when it matches. -/
def SelectThumbAddrModeRI5 (Op N : SDOperand) (Scale : Nat) :
    Option (MatchResult BaseOffsetOffImm) := do
  let sp ←
    if Scale = 4 then
      match SelectThumbAddrModeSP Op N with
      | some (.matched _) => some true
      | some .declined => some false
      | none => none
    else some false
  if sp = true then
    pure .declined  -- We want to select tLDRspi / tSTRspi instead.
  else SelectThumbAddrModeRI5.rest N Scale

/-- `ARMDAGToDAGISel::SelectThumbAddrModeS1`. -/
def SelectThumbAddrModeS1 (Op N : SDOperand) : Option (MatchResult BaseOffsetOffImm) :=
  SelectThumbAddrModeRI5 Op N 1

/-- `ARMDAGToDAGISel::SelectThumbAddrModeS2`. -/
def SelectThumbAddrModeS2 (Op N : SDOperand) : Option (MatchResult BaseOffsetOffImm) :=
  SelectThumbAddrModeRI5 Op N 2

/-- `ARMDAGToDAGISel::SelectThumbAddrModeS4`. -/
def SelectThumbAddrModeS4 (Op N : SDOperand) : Option (MatchResult BaseOffsetOffImm) :=
  SelectThumbAddrModeRI5 Op N 4

/-! ## Shifter operand -/

/-- Outputs `BaseReg`, `ShReg`, `Opc` of the shifter-operand matcher. -/
structure BaseRegShRegOpc where
  BaseReg : SDOperand
  ShReg : SDOperand
  Opc : SDOperand
deriving DecidableEq

/-- `ARMDAGToDAGISel::SelectShifterOperandReg`. -/
def SelectShifterOperandReg (AM : ARM_AM) (_Op N : SDOperand) :
    Option (MatchResult BaseRegShRegOpc) :=
  let ShOpcVal := AM.getShiftOpcForNode N
  -- Do not match base register only case.
  if ShOpcVal = .no_shift then pure .declined
  else do
    let BaseReg ← N.getOperand 0
    let N1 ← N.getOperand 1
    match dynCastConstant N1 with
    | some v =>
      pure (.matched ⟨BaseReg, getRegister 0,
        getTargetConstant (AM.getSORegOpc ShOpcVal ((v &&& 31) % 2 ^ 32))⟩)
    | none =>
      pure (.matched ⟨BaseReg, N1, getTargetConstant (AM.getSORegOpc ShOpcVal 0)⟩)

/-! ## `Select` -/

/-- Modelled from the spec: `isPowerOf2_32` of `llvm/Support/MathExtras.h`, which
is outside this file; the spec's "is a power of two", for a 32-bit value. -/
def isPowerOf2_32 (Value : Nat) : Bool :=
  (List.range 32).any (fun n => Value == 2 ^ n)

/-- Modelled from the spec: `Log2_32` of `llvm/Support/MathExtras.h`, which is
outside this file; the spec's "log2": the position of the highest set bit of a
32-bit value. -/
def Log2_32 (Value : Nat) : Nat :=
  ((List.range 32).reverse.find? (fun n => 2 ^ n ≤ Value)).getD 0

/-- `CurDAG->getTargetConstantPool(ConstantInt::get(Type::Int32Ty, Val), ...)`. -/
def getTargetConstantPool (Val : Nat) : SDOperand := .mk (.TargetConstantPool Val) [] 0

/-- `CurDAG->getEntryNode()`. -/
def getEntryNode : SDOperand := .mk .EntryToken [] 0

/-- What `Select` hands back to the driver. -/
inductive SelectReturn where
  /-- `return NULL`. -/
  | null
  /-- A node built or morphed by `Select`. -/
  | node (N : SDNode)
  /-- `return SelectCode(Op)`: whatever the generic matcher returns. -/
  | selectCode (Op : SDOperand)
deriving DecidableEq

/-- Everything one call of `Select` does to the graph, and its return value. -/
structure SelectEffect where
  /-- Nodes built with `CurDAG->getTargetNode`. -/
  created : List SDNode
  /-- `CurDAG->SelectNodeTo(N, Opc, ..., Ops)`: the node is morphed in place. -/
  morphed : Option (ARMInstr × List SDOperand)
  /-- `ReplaceUses(F, T)`. -/
  replaced : Option (SDOperand × SDOperand)
  /-- Arguments of `AddToISelQueue`, in call order. -/
  queued : List SDOperand
  ret : SelectReturn
deriving DecidableEq

/-- The generic matcher takes over: `return SelectCode(Op)`. -/
def SelectCode (Op : SDOperand) : SelectEffect :=
  ⟨[], none, none, [], .selectCode Op⟩

/-- `CurDAG->SelectNodeTo(N, Opc, MVT::i32, Ops)` after queueing `Queued`. -/
def SelectNodeTo (Opc : ARMInstr) (Ops Queued : List SDOperand) : SelectEffect :=
  ⟨[], some (Opc, Ops), none, Queued, .node ⟨.Machine Opc, Ops⟩⟩

/-- `return CurDAG->getTargetNode(Opc, ..., Ops)` after queueing `Queued`. -/
def ReturnTargetNode (Opc : ARMInstr) (Ops Queued : List SDOperand) : SelectEffect :=
  ⟨[⟨.Machine Opc, Ops⟩], none, none, Queued, .node ⟨.Machine Opc, Ops⟩⟩

/-- `case ISD::Constant` of `Select`, lines 479-508. -/
def Select.constant (AM : ARM_AM) (isThumb : Bool) (Op : SDOperand) (value : Nat) :
    SelectEffect :=
  let Val := value % 2 ^ 32
  let notVal := 2 ^ 32 - 1 - Val
  let UseCP : Bool :=
    if isThumb then
      Val > 255 ∧ notVal > 255 ∧ AM.isThumbImmShiftedVal Val = false
    else
      AM.getSOImmVal Val = -1 ∧ AM.getSOImmVal notVal = -1 ∧
        AM.isSOImmTwoPartVal Val = false
  if UseCP then
    let CPIdx := getTargetConstantPool Val
    let Ops := [CPIdx, getRegister 0, getTargetConstant 0, getEntryNode]
    let ResNode : SDNode := ⟨.Machine .LDR, Ops⟩
    ⟨[ResNode], none, some (Op, ResNode.result 0), [], .null⟩
  else
    -- Other cases are autogenerated.
    SelectCode Op

/-- `case ISD::MUL` of `Select`, lines 517-542. -/
def Select.mul (AM : ARM_AM) (isThumb : Bool) (Op : SDOperand) : Option SelectEffect :=
  if isThumb then pure (SelectCode Op)
  else do
    let N1 ← Op.getOperand 1
    match dynCastConstant N1 with
    | some v =>
      let RHSV := v % 2 ^ 32
      if RHSV = 0 then pure (SelectCode Op)
      else if isPowerOf2_32 (RHSV - 1) = true then do  -- 2^n+1?
        let V ← Op.getOperand 0
        let ShImm := AM.getSORegOpc .lsl (Log2_32 (RHSV - 1))
        pure (SelectNodeTo .ADDrs [V, V, getRegister 0, getTargetConstant ShImm] [V])
      else if isPowerOf2_32 ((RHSV + 1) % 2 ^ 32) = true then do  -- 2^n-1?
        let V ← Op.getOperand 0
        let ShImm := AM.getSORegOpc .lsl (Log2_32 ((RHSV + 1) % 2 ^ 32))
        pure (SelectNodeTo .RSBrs [V, V, getRegister 0, getTargetConstant ShImm] [V])
      else pure (SelectCode Op)
    | none => pure (SelectCode Op)

/-- `case ISD::LOAD` of `Select`, lines 557-603.  The chain, base pointer and
offset of a `LoadSDNode` are its operands 0, 1 and 2. -/
def Select.load (AM : ARM_AM) (Op : SDOperand) (Mode : MemIndexedMode)
    (LoadedVT : ValueType) (Ext : LoadExtType) : Option SelectEffect := do
  if Mode ≠ .UNINDEXED then
    let isPre : Bool := Mode = .PRE_INC ∨ Mode = .PRE_DEC
    let sel : Option (ARMInstr × OffsetOpc) ←
      if LoadedVT = .i32 then do
        let Off ← Op.getOperand 2
        match ← SelectAddrMode2Offset AM Op Off with
        | .matched r => pure (some ((if isPre then ARMInstr.LDR_PRE else .LDR_POST), r))
        | .declined => pure none
      else if LoadedVT = .i16 then do
        let Off ← Op.getOperand 2
        match ← SelectAddrMode3Offset AM Op Off with
        | .matched r =>
          pure (some ((if Ext = .SEXTLOAD
            then (if isPre then ARMInstr.LDRSH_PRE else .LDRSH_POST)
            else (if isPre then ARMInstr.LDRH_PRE else .LDRH_POST)), r))
        | .declined => pure none
      else if LoadedVT = .i8 ∨ LoadedVT = .i1 then do
        let Off ← Op.getOperand 2
        if Ext = .SEXTLOAD then
          match ← SelectAddrMode3Offset AM Op Off with
          | .matched r => pure (some ((if isPre then ARMInstr.LDRSB_PRE else .LDRSB_POST), r))
          | .declined => pure none
        else
          match ← SelectAddrMode2Offset AM Op Off with
          | .matched r => pure (some ((if isPre then ARMInstr.LDRB_PRE else .LDRB_POST), r))
          | .declined => pure none
      else pure none
    match sel with
    | some (Opcode, r) =>
      let Chain ← Op.getOperand 0
      let Base ← Op.getOperand 1
      pure (ReturnTargetNode Opcode [Base, r.Offset, r.Opc, Chain] [Chain, Base, r.Offset])
    | none => pure (SelectCode Op)  -- Other cases are autogenerated.
  else pure (SelectCode Op)

/-- `ARMDAGToDAGISel::Select`; `isThumb` is `Subtarget->isThumb()`. -/
def Select (AM : ARM_AM) (isThumb : Bool) (Op : SDOperand) : Option SelectEffect :=
  match Op.getOpcode with
  | .Machine _ => pure ⟨[], none, none, [], .null⟩  -- Already selected.
  | .Constant value => pure (Select.constant AM isThumb Op value)
  | .FrameIndex FI =>
    -- Selects to ADDri FI, 0 which in turn will become ADDri SP, imm.
    let Opc := if isThumb then ARMInstr.tADDrSPi else ARMInstr.ADDri
    pure (SelectNodeTo Opc [getTargetFrameIndex FI, getTargetConstant 0] [])
  | .MUL => Select.mul AM isThumb Op
  | .ARMISD_FMRRD => do
    let N0 ← Op.getOperand 0
    pure (ReturnTargetNode .FMRRD [N0] [N0])
  | .ARMISD_MULHILOU => do
    let N0 ← Op.getOperand 0
    let N1 ← Op.getOperand 1
    pure (ReturnTargetNode .UMULL [N0, N1] [N0, N1])
  | .ARMISD_MULHILOS => do
    let N0 ← Op.getOperand 0
    let N1 ← Op.getOperand 1
    pure (ReturnTargetNode .SMULL [N0, N1] [N0, N1])
  | .LOAD Mode LoadedVT Ext => Select.load AM Op Mode LoadedVT Ext
  | _ => pure (SelectCode Op)

/-! ## A concrete instance of the encoders -/

/-- Numeric value of a shift kind in the sample encoding. -/
def ShiftOpc.toNat : ShiftOpc → Nat
  | .no_shift => 0
  | .asr => 1
  | .lsl => 2
  | .lsr => 3
  | .ror => 4
  | .rrx => 5

/-- Numeric value of a direction in the sample encoding. -/
def AddrOpc.toNat : AddrOpc → Nat
  | .add => 0
  | .sub => 1

/-- Rotate a 32-bit value left. -/
def rotl32 (v r : Nat) : Nat :=
  ((v % 2 ^ 32) * 2 ^ (r % 32)) % 2 ^ 32 + (v % 2 ^ 32) / 2 ^ (32 - r % 32)

/-- A concrete instance of the encoders, used to run the matchers on examples:
shift nodes are `SHL`, `SRL`, `SRA` and `ROTR`; an immediate is a shifter-operand
immediate when an even left rotation brings it below 256. -/
def sampleAM : ARM_AM where
  getShiftOpcForNode N :=
    match N.getOpcode with
    | .SHL => .lsl
    | .SRL => .lsr
    | .SRA => .asr
    | .ROTR => .ror
    | _ => .no_shift
  getAM2Opc Opc Imm12 SO := Imm12 + Opc.toNat * 2 ^ 12 + SO.toNat * 2 ^ 13
  getAM3Opc Opc Offset := Opc.toNat * 2 ^ 8 + Offset
  getAM5Opc Opc Offset := Opc.toNat * 2 ^ 8 + Offset
  getSORegOpc ShOp Imm := ShOp.toNat + Imm * 2 ^ 3
  getSOImmVal Arg :=
    match (List.range 16).find? (fun r => rotl32 Arg (2 * r) < 256) with
    | some r => (rotl32 Arg (2 * r) + r * 2 ^ 8 : Nat)
    | none => -1
  isSOImmTwoPartVal V :=
    (List.range 16).any (fun r =>
      (List.range 16).any (fun q =>
        rotl32 V (2 * r) % 2 ^ 32 / 2 ^ 8 ≠ 0 ∧
        rotl32 (rotl32 V (2 * r) / 2 ^ 8 * 2 ^ 8) (2 * q) < 256))
  isThumbImmShiftedVal V :=
    (List.range 32).any (fun sh => V % 2 ^ sh = 0 ∧ V / 2 ^ sh < 256)

/-! ## Use replacement in the graph -/

mutual
/-- Modelled from the spec: redirection of references inside a value.  The spec's
"replacement = redirect index references": wherever the value `F` is referenced,
the reference becomes `T`; other nodes keep their kind and have their operands
redirected in turn. -/
def SDOperand.replaceUses (F T : SDOperand) : SDOperand → SDOperand
  | .mk k ops r =>
    if SDOperand.mk k ops r = F then T else .mk k (SDOperand.replaceUsesList F T ops) r
/-- Modelled from the spec: `SDOperand.replaceUses` along an operand list. -/
def SDOperand.replaceUsesList (F T : SDOperand) : List SDOperand → List SDOperand
  | [] => []
  | x :: xs => SDOperand.replaceUses F T x :: SDOperand.replaceUsesList F T xs
end

/-- Modelled from the spec: `ReplaceUses(F, T)`, defined with the generic matcher
outside this file; the spec's "replace all uses of node X with node Y": every
operand slot of every node of the graph that references `F` is made to reference
`T`. -/
def SelectionDAG.ReplaceUses (G : SelectionDAG) (F T : SDOperand) : SelectionDAG :=
  ⟨G.AllNodes.map fun n => ⟨n.kind, SDOperand.replaceUsesList F T n.ops⟩⟩

/-- Modelled from the spec: the graph after the node creations and the use
replacement recorded in an effect of `Select` (nodes are created first, then uses
are replaced). -/
def SelectionDAG.afterCreateAndReplace (G : SelectionDAG) (E : SelectEffect) :
    SelectionDAG :=
  let G1 : SelectionDAG := ⟨G.AllNodes ++ E.created⟩
  match E.replaced with
  | some (F, T) => G1.ReplaceUses F T
  | none => G1

/-! ## Value of the multiply rewrites -/

/-- Modelled from the spec: the 32-bit value of the rewrite "(operand shifted left
by n) + operand", which is what the `ADDrs` node built by `Select` stands for; the
instruction itself is defined outside this file. -/
def addShiftedValue (x n : Nat) : Nat :=
  ((x <<< n) % 2 ^ 32 + x % 2 ^ 32) % 2 ^ 32

/-- Modelled from the spec: the 32-bit value of the rewrite "(operand shifted left
by n) − operand", which is what the `RSBrs` node built by `Select` stands for; the
instruction itself is defined outside this file. -/
def rsbShiftedValue (x n : Nat) : Nat :=
  ((x <<< n) % 2 ^ 32 + 2 ^ 32 - x % 2 ^ 32) % 2 ^ 32

/-! ## Well-formed inputs of the matchers -/

/-- Operand counts the matchers rely on through `getOperand`: an `ADD` or `SUB` node
has its two operands and a `Wrapper` node has its operand. -/
def OperandsWellFormed (N : SDOperand) : Bool :=
  match N.getOpcode with
  | .ADD => N.operands.length == 2
  | .SUB => N.operands.length == 2
  | .ARMISD_Wrapper => decide (1 ≤ N.operands.length)
  | _ => true

/-- A node the encoders call a shift carries its input and its amount as operands 0
and 1. -/
def ShiftWellFormed (AM : ARM_AM) (V : SDOperand) : Bool :=
  decide (AM.getShiftOpcForNode V = .no_shift) || decide (2 ≤ V.operands.length)

/-- A well-formed address for `SelectAddrMode2`: operand counts as above, and the
operands of an `ADD` or `SUB` are well-formed shifts when they are shifts. -/
def AddrWellFormed (AM : ARM_AM) (N : SDOperand) : Bool :=
  OperandsWellFormed N &&
    (match N.getOpcode with
    | .ADD => N.operands.all (ShiftWellFormed AM)
    | .SUB => N.operands.all (ShiftWellFormed AM)
    | _ => true)

/-! ## Theorems -/

/-- An `int` in `[0, 2^32)` converts to `unsigned` unchanged. -/
theorem toUInt32_of_nonneg (i : Int) (h0 : 0 ≤ i) (h1 : i < 2 ^ 32) :
    toUInt32 i = i.toNat := by
  unfold toUInt32
  rw [Int.emod_eq_of_lt h0 h1]

/-- C1: for `N = add(X, Constant c)`, with `c` read as a signed 32-bit integer,
`SelectAddrMode2` matches with `Base = X`, `Offset` the null register and
`Opc = getAM2Opc(add, c, no_shift)` when `0 ≤ c < 4096`, and with
`Opc = getAM2Opc(sub, -c, no_shift)` when `-4096 < c < 0`, whatever `X` is. -/
theorem SelectAddrMode2_add_imm12 (AM : ARM_AM) (Op X R : SDOperand) (r c : Nat)
    (hR : R.getOpcode = .Constant c) :
    (0 ≤ toInt32 c ∧ toInt32 c < 4096 →
      SelectAddrMode2 AM Op (.mk .ADD [X, R] r) =
        some (.matched ⟨X, getRegister 0,
          getTargetConstant (AM.getAM2Opc .add (toInt32 c).toNat .no_shift)⟩)) ∧
    (-4096 < toInt32 c ∧ toInt32 c < 0 →
      SelectAddrMode2 AM Op (.mk .ADD [X, R] r) =
        some (.matched ⟨X, getRegister 0,
          getTargetConstant (AM.getAM2Opc .sub (-(toInt32 c)).toNat .no_shift)⟩)) := by
  have hdc : dynCastConstant R = some c := by simp [dynCastConstant, hR]
  constructor
  · rintro ⟨h0, h1⟩
    have hu : toUInt32 (toInt32 c) = (toInt32 c).toNat :=
      toUInt32_of_nonneg _ h0 (by omega)
    simp [SelectAddrMode2, SDOperand.getOpcode, SDOperand.getOperand, SDOperand.operands,
      SelectAddrMode2.imm12, hdc, h0, h1, hu]
  · rintro ⟨h0, h1⟩
    have hu : toUInt32 (-(toInt32 c)) = (-(toInt32 c)).toNat :=
      toUInt32_of_nonneg _ (by omega) (by omega)
    have hn : ¬ (0 ≤ toInt32 c) := by omega
    simp [SelectAddrMode2, SDOperand.getOpcode, SDOperand.getOperand, SDOperand.operands,
      SelectAddrMode2.imm12, hdc, h0, h1, hu, hn]

/-- Witness for C1: `add(r1, 5)` folds as `(add, 5)` and `add(r1, -8)` as `(sub, 8)`. -/
theorem SelectAddrMode2_add_imm12_witness :
    SelectAddrMode2 sampleAM (getRegister 1)
        (.mk .ADD [getRegister 1, .mk (.Constant 5) [] 0] 0) =
      some (.matched ⟨getRegister 1, getRegister 0,
        getTargetConstant (sampleAM.getAM2Opc .add (toInt32 5).toNat .no_shift)⟩) ∧
    SelectAddrMode2 sampleAM (getRegister 1)
        (.mk .ADD [getRegister 1, .mk (.Constant 4294967288) [] 0] 0) =
      some (.matched ⟨getRegister 1, getRegister 0,
        getTargetConstant
          (sampleAM.getAM2Opc .sub (-(toInt32 4294967288)).toNat .no_shift)⟩) :=
  ⟨(SelectAddrMode2_add_imm12 sampleAM (getRegister 1) (getRegister 1)
      (.mk (.Constant 5) [] 0) 0 5 rfl).1 (by decide),
   (SelectAddrMode2_add_imm12 sampleAM (getRegister 1) (getRegister 1)
      (.mk (.Constant 4294967288) [] 0) 0 4294967288 rfl).2 (by decide)⟩

/-- The immediate form of `SelectAddrMode2` encodes no shift. -/
theorem imm12_shape (AM : ARM_AM) (N0 N1 : SDOperand) (out : BaseOffsetOpc)
    (h : SelectAddrMode2.imm12 AM N0 N1 = some out) :
    ∃ dir amt, out = ⟨N0, getRegister 0,
      getTargetConstant (AM.getAM2Opc dir amt .no_shift)⟩ := by
  unfold SelectAddrMode2.imm12 at h
  split at h
  · dsimp only at h
    split at h
    · exact ⟨.add, _, (Option.some.inj h).symm⟩
    · split at h
      · exact ⟨.sub, _, (Option.some.inj h).symm⟩
      · cases h
  · cases h

/-- What the right-operand step of `SelectAddrMode2` can produce. -/
theorem foldRHS_shape (AM : ARM_AM) (N N0 N1 : SDOperand) (s : AM2RegForm)
    (h : SelectAddrMode2.foldRHS AM N N0 N1 = some s) :
    s.Base = N0 ∧ s.AddSub = (if N.getOpcode = .ADD then AddrOpc.add else AddrOpc.sub) ∧
    ((s.ShOpcVal = .no_shift ∧ s.ShAmt = 0 ∧ s.Offset = N1) ∨
     (s.ShOpcVal ≠ .no_shift ∧ AM.getShiftOpcForNode N1 = s.ShOpcVal ∧
      ∃ Sh v, N1.getOperand 1 = some Sh ∧ dynCastConstant Sh = some v ∧
        s.ShAmt = v % 2 ^ 32 ∧ N1.getOperand 0 = some s.Offset)) := by
  unfold SelectAddrMode2.foldRHS at h
  dsimp only at h
  split at h
  · rename_i hk
    cases h1 : N1.getOperand 1 with
    | none => simp [h1] at h
    | some Sh =>
      cases hc : dynCastConstant Sh with
      | none =>
        simp [h1, hc] at h
        subst h; simp
      | some v =>
        cases h0 : N1.getOperand 0 with
        | none => simp [h1, hc, h0] at h
        | some Off =>
          simp [h1, hc, h0] at h
          subst h
          exact ⟨rfl, rfl, Or.inr ⟨hk, rfl, Sh, v, rfl, hc, rfl, rfl⟩⟩
  · rename_i hk
    simp at h hk
    subst h
    exact ⟨rfl, rfl, Or.inl ⟨hk, rfl, rfl⟩⟩

/-- What the left-operand step of `SelectAddrMode2` can produce. -/
theorem foldLHS_shape (AM : ARM_AM) (N N0 N1 : SDOperand) (s1 s : AM2RegForm)
    (h : SelectAddrMode2.foldLHS AM N N0 N1 s1 = some s) :
    s.AddSub = s1.AddSub ∧
    ((s = s1 ∧ ¬ (N.getOpcode = .ADD ∧ s1.ShOpcVal = .no_shift)) ∨
     (N.getOpcode = .ADD ∧ s1.ShOpcVal = .no_shift ∧
      ((s.ShOpcVal = .no_shift ∧ s.Base = s1.Base ∧ s.Offset = s1.Offset ∧
          s.ShAmt = s1.ShAmt ∧
          (AM.getShiftOpcForNode N0 = .no_shift ∨
            ∃ Sh, N0.getOperand 1 = some Sh ∧ dynCastConstant Sh = none)) ∨
       (s.ShOpcVal ≠ .no_shift ∧ AM.getShiftOpcForNode N0 = s.ShOpcVal ∧ s.Base = N1 ∧
        ∃ Sh v, N0.getOperand 1 = some Sh ∧ dynCastConstant Sh = some v ∧
          s.ShAmt = v % 2 ^ 32 ∧ N0.getOperand 0 = some s.Offset)))) := by
  unfold SelectAddrMode2.foldLHS at h
  split at h
  · rename_i hc
    dsimp only at h
    split at h
    · rename_i hk
      cases h1 : N0.getOperand 1 with
      | none => simp [h1] at h
      | some Sh =>
        cases hd : dynCastConstant Sh with
        | none =>
          simp [h1, hd] at h
          subst h
          exact ⟨rfl, Or.inr ⟨hc.1, hc.2, Or.inl ⟨rfl, rfl, rfl, rfl, Or.inr ⟨Sh, rfl, hd⟩⟩⟩⟩
        | some v =>
          cases h0 : N0.getOperand 0 with
          | none => simp [h1, hd, h0] at h
          | some Off =>
            simp [h1, hd, h0] at h
            subst h
            exact ⟨rfl, Or.inr ⟨hc.1, hc.2, Or.inr ⟨hk, rfl, rfl, Sh, v, rfl, hd, rfl, rfl⟩⟩⟩
    · rename_i hk
      simp at h hk
      subst h
      exact ⟨rfl, Or.inr ⟨hc.1, hc.2, Or.inl ⟨hk, rfl, rfl, rfl, Or.inl hk⟩⟩⟩
  · rename_i hc
    simp at h
    subst h
    exact ⟨rfl, Or.inl ⟨rfl, by simpa using hc⟩⟩

/-- `SelectAddrMode2` on a two-operand add or subtract. -/
theorem SelectAddrMode2_addsub (AM : ARM_AM) (Op N0 N1 : SDOperand) (k : NodeKind)
    (r : Nat) (hk : k = .ADD ∨ k = .SUB) :
    SelectAddrMode2 AM Op (.mk k [N0, N1] r) =
      match (if k = .ADD then SelectAddrMode2.imm12 AM N0 N1 else none) with
      | some x => some (.matched x)
      | none =>
        (SelectAddrMode2.regForm AM (.mk k [N0, N1] r) N0 N1).map fun s =>
          .matched ⟨s.Base, s.Offset,
            getTargetConstant (AM.getAM2Opc s.AddSub s.ShAmt s.ShOpcVal)⟩ := by
  rcases hk with rfl | rfl
  · simp [SelectAddrMode2, SDOperand.getOpcode, SDOperand.getOperand, SDOperand.operands]
    cases SelectAddrMode2.imm12 AM N0 N1 with
    | some x => simp
    | none =>
      cases SelectAddrMode2.regForm AM (SDOperand.mk NodeKind.ADD [N0, N1] r) N0 N1 <;> simp
  · simp [SelectAddrMode2, SDOperand.getOpcode, SDOperand.getOperand, SDOperand.operands]
    cases SelectAddrMode2.regForm AM (SDOperand.mk NodeKind.SUB [N0, N1] r) N0 N1 <;> simp

/-- In the sample encoding a shift node is never a constant node. -/
theorem sampleAM_shift_not_constant (V : SDOperand) :
    sampleAM.getShiftOpcForNode V ≠ .no_shift → dynCastConstant V = none := by
  cases V with
  | mk k ops r => cases k <;> simp [sampleAM, dynCastConstant, SDOperand.getOpcode]

/-- The right-operand step does not fail on a well-formed shift node. -/
theorem foldRHS_total (AM : ARM_AM) (N N0 N1 : SDOperand)
    (hwf : AM.getShiftOpcForNode N1 ≠ .no_shift →
      ∃ x y, N1.getOperand 0 = some x ∧ N1.getOperand 1 = some y) :
    ∃ s, SelectAddrMode2.foldRHS AM N N0 N1 = some s := by
  unfold SelectAddrMode2.foldRHS
  dsimp only
  split
  · rename_i hk
    obtain ⟨x, y, hx, hy⟩ := hwf hk
    cases hd : dynCastConstant y <;> simp [hx, hy, hd]
  · exact ⟨_, rfl⟩

/-- The left-operand step does not fail on a well-formed shift node. -/
theorem foldLHS_total (AM : ARM_AM) (N N0 N1 : SDOperand) (s1 : AM2RegForm)
    (hwf : AM.getShiftOpcForNode N0 ≠ .no_shift →
      ∃ x y, N0.getOperand 0 = some x ∧ N0.getOperand 1 = some y) :
    ∃ s, SelectAddrMode2.foldLHS AM N N0 N1 s1 = some s := by
  unfold SelectAddrMode2.foldLHS
  split
  · dsimp only
    split
    · rename_i hk
      obtain ⟨x, y, hx, hy⟩ := hwf hk
      cases hd : dynCastConstant y <;> simp [hx, hy, hd]
    · exact ⟨_, rfl⟩
  · exact ⟨_, rfl⟩

/-- The register form is the two folding steps in sequence. -/
theorem regForm_eq_some (AM : ARM_AM) (N N0 N1 : SDOperand) (s : AM2RegForm)
    (h : SelectAddrMode2.regForm AM N N0 N1 = some s) :
    ∃ s1, SelectAddrMode2.foldRHS AM N N0 N1 = some s1 ∧
      SelectAddrMode2.foldLHS AM N N0 N1 s1 = some s := by
  unfold SelectAddrMode2.regForm at h
  cases h1 : SelectAddrMode2.foldRHS AM N N0 N1 with
  | none => simp [h1] at h
  | some s1 => exact ⟨s1, rfl, by simpa [h1] using h⟩

/-- A shift kind in the register form comes from a constant-amount shift node. -/
theorem regForm_fold (AM : ARM_AM) (N N0 N1 : SDOperand) (s : AM2RegForm)
    (h : SelectAddrMode2.regForm AM N N0 N1 = some s) (hs : s.ShOpcVal ≠ .no_shift) :
    ∃ S Sh v, (S = N0 ∨ S = N1) ∧ AM.getShiftOpcForNode S = s.ShOpcVal ∧
      S.getOperand 1 = some Sh ∧ dynCastConstant Sh = some v ∧
      s.ShAmt = v % 2 ^ 32 ∧ S.getOperand 0 = some s.Offset := by
  obtain ⟨s1, h1, h2⟩ := regForm_eq_some AM N N0 N1 s h
  obtain ⟨-, -, hR⟩ := foldRHS_shape AM N N0 N1 s1 h1
  obtain ⟨-, hL⟩ := foldLHS_shape AM N N0 N1 s1 s h2
  rcases hL with ⟨rfl, -⟩ | ⟨-, -, hL⟩
  · rcases hR with ⟨h0, -⟩ | ⟨-, hk, Sh, v, a, b, c, d⟩
    · exact absurd h0 hs
    · exact ⟨N1, Sh, v, Or.inr rfl, hk, a, b, c, d⟩
  · rcases hL with ⟨h0, -⟩ | ⟨-, hk, -, Sh, v, a, b, c, d⟩
    · exact absurd h0 hs
    · exact ⟨N0, Sh, v, Or.inl rfl, hk, a, b, c, d⟩

/-- C2: `SelectAddrMode2` never folds a shift whose amount is not a constant.  For
`N = add(N0, N1)` or `sub(N0, N1)`: (a) a match is either the immediate form, whose
`Opc` encodes `no_shift`, or the register form whose `Opc` is `getAM2Opc` of the
state computed by lines 142-177, and when that state carries a shift kind other
than `no_shift` the folded operand is a shift node whose operand 1 is a constant
equal to the encoded amount and `Offset` is that node's operand 0; (b) an operand
that is a shift node with a non-constant amount is itself returned as `Base` or
`Offset`; (c) with `N1` a shift by a non-constant amount and `N0` not a shift node
the result is `Base = N0`, `Offset = N1`, `Opc = getAM2Opc(dir, 0, no_shift)`.
The hypothesis on the encoder says that a shift node is never a constant node. -/
theorem SelectAddrMode2_folds_only_constant_shifts (AM : ARM_AM) (Op N0 N1 : SDOperand)
    (k : NodeKind) (r : Nat) (hk : k = .ADD ∨ k = .SUB)
    (hsh : ∀ V, AM.getShiftOpcForNode V ≠ .no_shift → dynCastConstant V = none) :
    (∀ out, SelectAddrMode2 AM Op (.mk k [N0, N1] r) = some (.matched out) →
      (∃ dir amt, out = ⟨N0, getRegister 0,
          getTargetConstant (AM.getAM2Opc dir amt .no_shift)⟩) ∨
      (∃ s, SelectAddrMode2.regForm AM (.mk k [N0, N1] r) N0 N1 = some s ∧
        out = ⟨s.Base, s.Offset,
          getTargetConstant (AM.getAM2Opc s.AddSub s.ShAmt s.ShOpcVal)⟩ ∧
        (s.ShOpcVal ≠ .no_shift →
          ∃ S Sh v, (S = N0 ∨ S = N1) ∧ AM.getShiftOpcForNode S = s.ShOpcVal ∧
            S.getOperand 1 = some Sh ∧ dynCastConstant Sh = some v ∧
            s.ShAmt = v % 2 ^ 32 ∧ S.getOperand 0 = some out.Offset))) ∧
    (∀ S Sh, (S = N0 ∨ S = N1) → AM.getShiftOpcForNode S ≠ .no_shift →
      S.getOperand 1 = some Sh → dynCastConstant Sh = none →
      (∀ V, (V = N0 ∨ V = N1) → AM.getShiftOpcForNode V ≠ .no_shift →
        ∃ x y, V.getOperand 0 = some x ∧ V.getOperand 1 = some y) →
      ∃ out, SelectAddrMode2 AM Op (.mk k [N0, N1] r) = some (.matched out) ∧
        (out.Base = S ∨ out.Offset = S)) ∧
    (∀ Sh, AM.getShiftOpcForNode N0 = .no_shift → AM.getShiftOpcForNode N1 ≠ .no_shift →
      N1.getOperand 1 = some Sh → dynCastConstant Sh = none →
      SelectAddrMode2 AM Op (.mk k [N0, N1] r) =
        some (.matched ⟨N0, N1,
          getTargetConstant
            (AM.getAM2Opc (if k = .ADD then .add else .sub) 0 .no_shift)⟩)) := by
  rw [SelectAddrMode2_addsub AM Op N0 N1 k r hk]
  refine ⟨?_, ?_, ?_⟩
  · intro out h
    cases hi : (if k = .ADD then SelectAddrMode2.imm12 AM N0 N1 else none) with
    | some x =>
      rw [hi] at h
      simp only [Option.some.injEq, MatchResult.matched.injEq] at h
      subst h
      have hx : SelectAddrMode2.imm12 AM N0 N1 = some x := by
        by_cases hA : k = .ADD
        · simpa [hA] using hi
        · simp [hA] at hi
      exact Or.inl (imm12_shape AM N0 N1 x hx)
    | none =>
      rw [hi] at h
      cases hr : SelectAddrMode2.regForm AM (.mk k [N0, N1] r) N0 N1 with
      | none => simp [hr] at h
      | some s =>
        simp only [hr, Option.map_some', Option.some.injEq, MatchResult.matched.injEq] at h
        subst h
        exact Or.inr ⟨s, rfl, rfl, fun hs => regForm_fold AM _ N0 N1 s hr hs⟩
  · intro S Sh hS hSk hSh hSc hwf
    obtain ⟨s1, h1⟩ := foldRHS_total AM (.mk k [N0, N1] r) N0 N1 (hwf N1 (Or.inr rfl))
    obtain ⟨s, h2⟩ := foldLHS_total AM (.mk k [N0, N1] r) N0 N1 s1 (hwf N0 (Or.inl rfl))
    have hreg : SelectAddrMode2.regForm AM (.mk k [N0, N1] r) N0 N1 = some s := by
      simp [SelectAddrMode2.regForm, h1, h2]
    obtain ⟨hB1, -, hR⟩ := foldRHS_shape AM _ N0 N1 s1 h1
    obtain ⟨-, hL⟩ := foldLHS_shape AM _ N0 N1 s1 s h2
    cases hi : (if k = .ADD then SelectAddrMode2.imm12 AM N0 N1 else none) with
    | some x =>
      have hx : SelectAddrMode2.imm12 AM N0 N1 = some x := by
        by_cases hA : k = .ADD
        · simpa [hA] using hi
        · simp [hA] at hi
      obtain ⟨dir, amt, rfl⟩ := imm12_shape AM N0 N1 x hx
      refine ⟨_, rfl, ?_⟩
      rcases hS with rfl | rfl
      · exact Or.inl rfl
      · have := hsh _ hSk
        simp [SelectAddrMode2.imm12, this] at hx
    | none =>
      refine ⟨⟨s.Base, s.Offset,
        getTargetConstant (AM.getAM2Opc s.AddSub s.ShAmt s.ShOpcVal)⟩, by simp [hreg], ?_⟩
      dsimp only
      rcases hS with rfl | rfl
      · -- the shift node is operand 0: it stays the base
        left
        rcases hL with ⟨rfl, -⟩ | ⟨-, -, hL⟩
        · exact hB1
        · rcases hL with ⟨-, hb, -⟩ | ⟨-, -, -, Sh2, v, a, b, -⟩
          · rw [hb, hB1]
          · rw [hSh] at a
            cases a
            rw [hSc] at b
            cases b
      · -- the shift node is operand 1
        have hO1 : s1.Offset = S ∧ s1.ShOpcVal = .no_shift := by
          rcases hR with ⟨a, -, c⟩ | ⟨-, -, Sh2, v, a, b, -⟩
          · exact ⟨c, a⟩
          · rw [hSh] at a
            cases a
            rw [hSc] at b
            cases b
        rcases hL with ⟨rfl, -⟩ | ⟨-, -, hL⟩
        · exact Or.inr hO1.1
        · rcases hL with ⟨-, -, ho, -⟩ | ⟨-, -, hb, -⟩
          · exact Or.inr (ho.trans hO1.1)
          · exact Or.inl hb
  · intro Sh h0 h1 hSh hc
    have hN1 : dynCastConstant N1 = none := hsh N1 h1
    have himm : SelectAddrMode2.imm12 AM N0 N1 = none := by
      simp [SelectAddrMode2.imm12, hN1]
    have hreg : SelectAddrMode2.regForm AM (.mk k [N0, N1] r) N0 N1 =
        some ⟨N0, N1, (if k = .ADD then .add else .sub), 0, .no_shift⟩ := by
      simp [SelectAddrMode2.regForm, SelectAddrMode2.foldRHS, SelectAddrMode2.foldLHS,
        h0, h1, hSh, hc, SDOperand.getOpcode]
    simp [himm, hreg]

/-- Witness for C2: in `sub(r1, shl(r2, r3))` the shift amount is a register, so the
shift node itself is the offset and no shift is encoded. -/
theorem SelectAddrMode2_folds_only_constant_shifts_witness :
    SelectAddrMode2 sampleAM (getRegister 1)
        (.mk .SUB [getRegister 1, .mk .SHL [getRegister 2, getRegister 3] 0] 0) =
      some (.matched ⟨getRegister 1, .mk .SHL [getRegister 2, getRegister 3] 0,
        getTargetConstant (sampleAM.getAM2Opc .sub 0 .no_shift)⟩) :=
  (SelectAddrMode2_folds_only_constant_shifts sampleAM (getRegister 1) (getRegister 1)
    (.mk .SHL [getRegister 2, getRegister 3] 0) .SUB 0 (Or.inr rfl)
    sampleAM_shift_not_constant).2.2 (getRegister 3) (by decide) (by decide) rfl rfl

/-- `isPowerOf2_32` holds exactly of the powers of two below `2^32`. -/
theorem isPowerOf2_32_iff (v : Nat) : isPowerOf2_32 v = true ↔ ∃ n, n < 32 ∧ v = 2 ^ n := by
  simp [isPowerOf2_32, List.any_eq_true, List.mem_range]

/-- For a 32-bit value, being a power of two is what `isPowerOf2_32` decides. -/
theorem exists_pow_two_iff (v : Nat) (hv : v < 2 ^ 32) :
    (∃ m, v = 2 ^ m) ↔ isPowerOf2_32 v = true := by
  rw [isPowerOf2_32_iff]
  constructor
  · rintro ⟨m, hm⟩
    refine ⟨m, ?_, hm⟩
    by_contra hcon
    have : 2 ^ 32 ≤ 2 ^ m := Nat.pow_le_pow_right (by norm_num) (by omega)
    omega
  · rintro ⟨m, -, hm⟩
    exact ⟨m, hm⟩

/-- `Log2_32` inverts the powers of two below `2^32`. -/
theorem Log2_32_two_pow (n : Nat) (h : n < 32) : Log2_32 (2 ^ n) = n := by
  interval_cases n <;> decide

/-- C3: in full mode, for `mul(V, Constant k)` with 32-bit `k ≠ 0`: if `k - 1` is a
power of two `2^n`, `Select` morphs the node into `ADDrs` with operands
`[V, V, null register, getSORegOpc(lsl, n)]`; otherwise, if `k + 1` is a power of
two `2^n` (a 32-bit one), into `RSBrs` with the same operand shape. -/
theorem Select_mul_strength_reduce (AM : ARM_AM) (V R : SDOperand) (r k : Nat)
    (hR : R.getOpcode = .Constant k) (hk : k < 2 ^ 32) (hk0 : k ≠ 0) :
    (∀ n, k - 1 = 2 ^ n →
      Select AM false (.mk .MUL [V, R] r) =
        some (SelectNodeTo .ADDrs
          [V, V, getRegister 0, getTargetConstant (AM.getSORegOpc .lsl n)] [V])) ∧
    (∀ n, (¬ ∃ m, k - 1 = 2 ^ m) → n < 32 → k + 1 = 2 ^ n →
      Select AM false (.mk .MUL [V, R] r) =
        some (SelectNodeTo .RSBrs
          [V, V, getRegister 0, getTargetConstant (AM.getSORegOpc .lsl n)] [V])) := by
  have hdc : dynCastConstant R = some k := by simp [dynCastConstant, hR]
  have hmod : k % 4294967296 = k := Nat.mod_eq_of_lt hk
  constructor
  · intro n hn
    have hn32 : n < 32 := by
      by_contra hcon
      have : 2 ^ 32 ≤ 2 ^ n := Nat.pow_le_pow_right (by norm_num) (by omega)
      omega
    have hp : isPowerOf2_32 (k - 1) = true := (isPowerOf2_32_iff _).2 ⟨n, hn32, hn⟩
    have hl : Log2_32 (k - 1) = n := by rw [hn]; exact Log2_32_two_pow n hn32
    simp [Select, Select.mul, SDOperand.getOpcode, SDOperand.getOperand, SDOperand.operands,
      hdc, hmod, hk0, hp, hl]
  · intro n hnot hn32 hn
    have hp1 : isPowerOf2_32 (k - 1) = false := by
      rw [Bool.eq_false_iff]
      intro h
      obtain ⟨m, -, hm⟩ := (isPowerOf2_32_iff _).1 h
      exact hnot ⟨m, hm⟩
    have hlt : k + 1 < 2 ^ 32 := by
      have : 2 ^ n < 2 ^ 32 := Nat.pow_lt_pow_right (by norm_num) hn32
      omega
    have hmod1 : (k + 1) % 4294967296 = k + 1 := Nat.mod_eq_of_lt hlt
    have hp : isPowerOf2_32 (k + 1) = true := (isPowerOf2_32_iff _).2 ⟨n, hn32, hn⟩
    have hl : Log2_32 (k + 1) = n := by rw [hn]; exact Log2_32_two_pow n hn32
    simp [Select, Select.mul, SDOperand.getOpcode, SDOperand.getOperand, SDOperand.operands,
      hdc, hmod, hk0, hp1, hmod1, hp, hl]

/-- Witness for C3: `k = 9` gives `ADDrs` with shift 3 and `k = 7` gives `RSBrs` with
shift 3. -/
theorem Select_mul_strength_reduce_witness :
    Select sampleAM false (.mk .MUL [getRegister 1, .mk (.Constant 9) [] 0] 0) =
      some (SelectNodeTo .ADDrs [getRegister 1, getRegister 1, getRegister 0,
        getTargetConstant (sampleAM.getSORegOpc .lsl 3)] [getRegister 1]) ∧
    Select sampleAM false (.mk .MUL [getRegister 1, .mk (.Constant 7) [] 0] 0) =
      some (SelectNodeTo .RSBrs [getRegister 1, getRegister 1, getRegister 0,
        getTargetConstant (sampleAM.getSORegOpc .lsl 3)] [getRegister 1]) :=
  ⟨(Select_mul_strength_reduce sampleAM (getRegister 1) (.mk (.Constant 9) [] 0) 0 9 rfl
      (by decide) (by decide)).1 3 (by decide),
   (Select_mul_strength_reduce sampleAM (getRegister 1) (.mk (.Constant 7) [] 0) 0 7 rfl
      (by decide) (by decide)).2 3 (by rw [exists_pow_two_iff _ (by decide)]; decide)
      (by decide) (by decide)⟩
/-- C4: the multiply strength reducer declines, handing the node unchanged to the
generic matcher with nothing created or morphed: in reduced (Thumb) mode for every
multiply; in full mode when the constant operand is 0; and in full mode when
neither `k - 1` nor `k + 1` is a (32-bit) power of two. -/
theorem Select_mul_declines (AM : ARM_AM) :
    (∀ Op : SDOperand, Op.getOpcode = .MUL →
      Select AM true Op = some ⟨[], none, none, [], .selectCode Op⟩) ∧
    (∀ (V R : SDOperand) (r : Nat), R.getOpcode = .Constant 0 →
      Select AM false (.mk .MUL [V, R] r) =
        some ⟨[], none, none, [], .selectCode (.mk .MUL [V, R] r)⟩) ∧
    (∀ (V R : SDOperand) (r k : Nat), R.getOpcode = .Constant k → k < 2 ^ 32 →
      (¬ ∃ m, k - 1 = 2 ^ m) → (¬ ∃ m, m < 32 ∧ k + 1 = 2 ^ m) →
      Select AM false (.mk .MUL [V, R] r) =
        some ⟨[], none, none, [], .selectCode (.mk .MUL [V, R] r)⟩) := by
  refine ⟨?_, ?_, ?_⟩
  · intro Op hOp
    simp [Select, hOp, Select.mul, SelectCode]
  · intro V R r hR
    have hdc : dynCastConstant R = some 0 := by simp [dynCastConstant, hR]
    simp [Select, Select.mul, SDOperand.getOpcode, SDOperand.getOperand, SDOperand.operands,
      hdc, SelectCode]
  · intro V R r k hR hk h1 h2
    have hdc : dynCastConstant R = some k := by simp [dynCastConstant, hR]
    have hmod : k % 4294967296 = k := Nat.mod_eq_of_lt hk
    have hp1 : isPowerOf2_32 (k - 1) = false := by
      rw [Bool.eq_false_iff]
      intro h
      obtain ⟨m, -, hm⟩ := (isPowerOf2_32_iff _).1 h
      exact h1 ⟨m, hm⟩
    have hp2 : isPowerOf2_32 ((k + 1) % 4294967296) = false := by
      rw [Bool.eq_false_iff]
      intro h
      obtain ⟨m, hm32, hm⟩ := (isPowerOf2_32_iff _).1 h
      by_cases hlt : k + 1 < 4294967296
      · rw [Nat.mod_eq_of_lt hlt] at hm
        exact h2 ⟨m, hm32, hm⟩
      · have hk1 : k + 1 = 4294967296 := by omega
        rw [hk1] at hm
        have : 0 < 2 ^ m := Nat.two_pow_pos m
        norm_num at hm
        omega
    by_cases hk0 : k = 0
    · subst hk0
      simp [Select, Select.mul, SDOperand.getOpcode, SDOperand.getOperand,
        SDOperand.operands, hdc, SelectCode]
    · simp [Select, Select.mul, SDOperand.getOpcode, SDOperand.getOperand,
        SDOperand.operands, hdc, hmod, hk0, hp1, hp2, SelectCode]

/-- Witness for C4: multiplication by 6 in full mode is left to the generic matcher. -/
theorem Select_mul_declines_witness :
    Select sampleAM false (.mk .MUL [getRegister 1, .mk (.Constant 6) [] 0] 0) =
      some ⟨[], none, none, [],
        .selectCode (.mk .MUL [getRegister 1, .mk (.Constant 6) [] 0] 0)⟩ :=
  (Select_mul_declines sampleAM).2.2 (getRegister 1) (.mk (.Constant 6) [] 0) 0 6 rfl
    (by decide) (by rw [exists_pow_two_iff _ (by decide)]; decide)
    (by rw [← isPowerOf2_32_iff]; decide)

/-- Replacement along a list is the pointwise replacement. -/
theorem replaceUsesList_eq_map (F T : SDOperand) (xs : List SDOperand) :
    SDOperand.replaceUsesList F T xs = xs.map (SDOperand.replaceUses F T) := by
  induction xs with
  | nil => simp [SDOperand.replaceUsesList]
  | cons x xs ih => simp [SDOperand.replaceUsesList, ih]

/-- Replacing a value replaces it where it is referenced. -/
theorem replaceUses_self (F T : SDOperand) : SDOperand.replaceUses F T F = T := by
  cases F with
  | mk k ops r => simp [SDOperand.replaceUses]

/-- After replacing a leaf value `F` by a different value, no reference is `F`. -/
theorem replaceUses_ne (F T V : SDOperand) (hF : F.operands = []) (hT : T ≠ F) :
    SDOperand.replaceUses F T V ≠ F := by
  cases V with
  | mk k ops r =>
    unfold SDOperand.replaceUses
    split
    · exact hT
    · rename_i hne
      intro h
      apply hne
      cases F with
      | mk kF opsF rF =>
        simp only [SDOperand.operands] at hF
        subst hF
        simp only [SDOperand.mk.injEq] at h ⊢
        obtain ⟨h1, h2, h3⟩ := h
        refine ⟨h1, ?_, h3⟩
        cases ops with
        | nil => rfl
        | cons x xs => simp [SDOperand.replaceUsesList] at h2

/-- After `ReplaceUses(F, T)` of a leaf value by a different value, `F` has no use. -/
theorem useCount_ReplaceUses (G : SelectionDAG) (F T : SDOperand) (hF : F.operands = [])
    (hT : T ≠ F) : (G.ReplaceUses F T).useCount F = 0 := by
  unfold SelectionDAG.useCount SelectionDAG.ReplaceUses
  apply List.sum_eq_zero
  intro c hc
  simp only [List.map_map, List.mem_map, Function.comp] at hc
  obtain ⟨n, -, rfl⟩ := hc
  rw [List.count_eq_zero, replaceUsesList_eq_map]
  intro hmem
  obtain ⟨V, -, hV⟩ := List.mem_map.1 hmem
  exact replaceUses_ne F T V hF hT hV

/-- `ReplaceUses` keeps every node in place and redirects its operands. -/
theorem ReplaceUses_getElem (G : SelectionDAG) (F T : SDOperand) (j : Nat) (n : SDNode)
    (hj : G.AllNodes[j]? = some n) :
    (G.ReplaceUses F T).AllNodes[j]? =
      some ⟨n.kind, n.ops.map (SDOperand.replaceUses F T)⟩ := by
  simp [SelectionDAG.ReplaceUses, hj, replaceUsesList_eq_map]

/-- Appending nodes to a list keeps the nodes already there in place. -/
theorem getElem_append_some (xs ys : List SDNode) (j : Nat) (n : SDNode)
    (hj : xs[j]? = some n) : (xs ++ ys)[j]? = some n := by
  have hlt : j < xs.length := by
    by_contra hcon
    rw [List.getElem?_eq_none (by omega)] at hj
    cases hj
  rw [List.getElem?_append_left hlt, hj]

/-- C5: constant materialization in full mode.  For a `Constant` node with 32-bit
value `v`, `Select` creates a literal-pool load exactly when `getSOImmVal(v) = -1`,
`getSOImmVal(~v) = -1` and `isSOImmTwoPartVal(v)` is false.  Then the one node
created is `LDR [constant-pool entry for v, null register, target constant 0, entry
node]`, `ReplaceUses` redirects the constant to result 0 of the load, `Select`
returns no node, and in the graph so updated every operand slot that referenced the
constant references result 0 of the load and the constant has zero uses.
Otherwise nothing is created and the constant goes to the generic matcher. -/
theorem Select_constant_full_mode (AM : ARM_AM) (G : SelectionDAG) (v r : Nat)
    (hv : v < 2 ^ 32) :
    (AM.getSOImmVal v = -1 ∧ AM.getSOImmVal (2 ^ 32 - 1 - v) = -1 ∧
        AM.isSOImmTwoPartVal v = false →
      ∃ E, Select AM false (.mk (.Constant v) [] r) = some E ∧
        E.created = [⟨.Machine .LDR,
          [getTargetConstantPool v, getRegister 0, getTargetConstant 0, getEntryNode]⟩] ∧
        E.morphed = none ∧
        E.replaced = some (.mk (.Constant v) [] r,
          .mk (.Machine .LDR)
            [getTargetConstantPool v, getRegister 0, getTargetConstant 0, getEntryNode] 0) ∧
        E.ret = .null ∧
        (G.afterCreateAndReplace E).useCount (.mk (.Constant v) [] r) = 0 ∧
        (∀ (j : Nat) (n : SDNode), G.AllNodes[j]? = some n →
          ∃ n2 : SDNode, (G.afterCreateAndReplace E).AllNodes[j]? = some n2 ∧ n2.kind = n.kind ∧
            ∀ i : Nat, n.ops[i]? = some (.mk (.Constant v) [] r) →
              n2.ops[i]? = some (.mk (.Machine .LDR)
                [getTargetConstantPool v, getRegister 0, getTargetConstant 0,
                  getEntryNode] 0))) ∧
    (¬ (AM.getSOImmVal v = -1 ∧ AM.getSOImmVal (2 ^ 32 - 1 - v) = -1 ∧
        AM.isSOImmTwoPartVal v = false) →
      Select AM false (.mk (.Constant v) [] r) =
        some ⟨[], none, none, [], .selectCode (.mk (.Constant v) [] r)⟩) := by
  have hmod : v % 4294967296 = v := Nat.mod_eq_of_lt hv
  constructor
  · intro hc
    refine ⟨_, by
      simp only [Select, SDOperand.getOpcode, Select.constant]
      norm_num [hmod]
      rw [if_pos (by simpa using hc)], rfl, rfl, rfl, rfl, ?_, ?_⟩
    · simp only [SelectionDAG.afterCreateAndReplace, SDNode.result]
      exact useCount_ReplaceUses _ _ _ rfl (by simp)
    · intro j n hj
      simp only [SelectionDAG.afterCreateAndReplace, SDNode.result]
      refine ⟨_, ReplaceUses_getElem _ _ _ j n (getElem_append_some _ _ j n hj), rfl, ?_⟩
      intro i hi
      simp only [List.getElem?_map, hi, Option.map_some', replaceUses_self]
  · intro hc
    simp only [Select, SDOperand.getOpcode, Select.constant]
    norm_num [hmod]
    rw [if_neg (by simpa using hc)]
    rfl

/-- Witness for C5: `0x12345678` is no shifter-operand immediate, nor is its
complement, nor does it split in two; it is loaded from the literal pool and its
use by an `add` is left with no reference to the constant. -/
theorem Select_constant_full_mode_witness :
    ∃ E, Select sampleAM false (.mk (.Constant 305419896) [] 0) = some E ∧
      E.ret = .null ∧
      (SelectionDAG.afterCreateAndReplace
        ⟨[⟨.ADD, [getRegister 1, .mk (.Constant 305419896) [] 0]⟩]⟩ E).useCount
          (.mk (.Constant 305419896) [] 0) = 0 :=
  match (Select_constant_full_mode sampleAM
      ⟨[⟨.ADD, [getRegister 1, .mk (.Constant 305419896) [] 0]⟩]⟩ 305419896 0
      (by decide)).1 (by decide) with
  | ⟨E, h1, _, _, _, h5, h6, _⟩ => ⟨E, h1, h5, h6⟩

/-- C6: constant materialization in reduced (Thumb) mode.  For a 32-bit constant
`v` a literal-pool load is emitted exactly when `v > 255`, the 32-bit complement of
`v` is `> 255` (both unsigned) and `isThumbImmShiftedVal(v)` is false; so a value
that fits 8 bits, a value whose complement fits 8 bits, and a shifted small
immediate all go to the generic matcher with no load created. -/
theorem Select_constant_thumb_mode (AM : ARM_AM) (v r : Nat) (hv : v < 2 ^ 32) :
    (v > 255 ∧ 2 ^ 32 - 1 - v > 255 ∧ AM.isThumbImmShiftedVal v = false →
      Select AM true (.mk (.Constant v) [] r) =
        some ⟨[⟨.Machine .LDR,
            [getTargetConstantPool v, getRegister 0, getTargetConstant 0, getEntryNode]⟩],
          none,
          some (.mk (.Constant v) [] r,
            .mk (.Machine .LDR)
              [getTargetConstantPool v, getRegister 0, getTargetConstant 0, getEntryNode] 0),
          [], .null⟩) ∧
    (¬ (v > 255 ∧ 2 ^ 32 - 1 - v > 255 ∧ AM.isThumbImmShiftedVal v = false) →
      Select AM true (.mk (.Constant v) [] r) =
        some ⟨[], none, none, [], .selectCode (.mk (.Constant v) [] r)⟩) ∧
    (v ≤ 255 ∨ 2 ^ 32 - 1 - v ≤ 255 ∨ AM.isThumbImmShiftedVal v = true →
      Select AM true (.mk (.Constant v) [] r) =
        some ⟨[], none, none, [], .selectCode (.mk (.Constant v) [] r)⟩) := by
  have hmod : v % 4294967296 = v := Nat.mod_eq_of_lt hv
  have hneg : ¬ (v > 255 ∧ 2 ^ 32 - 1 - v > 255 ∧ AM.isThumbImmShiftedVal v = false) →
      Select AM true (.mk (.Constant v) [] r) =
        some ⟨[], none, none, [], .selectCode (.mk (.Constant v) [] r)⟩ := by
    intro hc
    simp only [Select, SDOperand.getOpcode, Select.constant]
    norm_num [hmod]
    rw [if_neg (by simpa using hc)]
    rfl
  refine ⟨?_, hneg, ?_⟩
  · intro hc
    simp only [Select, SDOperand.getOpcode, Select.constant]
    norm_num [hmod]
    rw [if_pos (by simpa using hc)]
    rfl
  · intro h
    apply hneg
    rintro ⟨h1, h2, h3⟩
    rcases h with h | h | h
    · omega
    · omega
    · rw [h3] at h
      cases h

/-- Witness for C6: `0xFFFFFF00`, whose complement `0xFF` fits 8 bits, is not sent to
the literal pool in Thumb mode, while `0x12345678` is. -/
theorem Select_constant_thumb_mode_witness :
    Select sampleAM true (.mk (.Constant 4294967040) [] 0) =
      some ⟨[], none, none, [], .selectCode (.mk (.Constant 4294967040) [] 0)⟩ ∧
    Select sampleAM true (.mk (.Constant 305419896) [] 0) =
      some ⟨[⟨.Machine .LDR,
          [getTargetConstantPool 305419896, getRegister 0, getTargetConstant 0,
            getEntryNode]⟩],
        none,
        some (.mk (.Constant 305419896) [] 0,
          .mk (.Machine .LDR)
            [getTargetConstantPool 305419896, getRegister 0, getTargetConstant 0,
              getEntryNode] 0),
        [], .null⟩ :=
  ⟨(Select_constant_thumb_mode sampleAM 4294967040 0 (by decide)).2.2
      (Or.inr (Or.inl (by decide))),
   (Select_constant_thumb_mode sampleAM 305419896 0 (by decide)).1 (by decide)⟩

/-- Reading a value as `int` and converting back to `unsigned` keeps the low 32 bits. -/
theorem toUInt32_toInt32 (c : Nat) : toUInt32 (toInt32 c) = c % 2 ^ 32 := by
  unfold toUInt32 toInt32
  have h : c % 2 ^ 32 < 2 ^ 32 := Nat.mod_lt _ (by norm_num)
  split <;> omega

/-- The test `(RHSC & 3) == 0` is divisibility of the signed value by 4. -/
theorem and_three_eq_zero_iff (c : Nat) :
    toUInt32 (toInt32 c) &&& 3 = 0 ↔ toInt32 c % 4 = 0 := by
  rw [toUInt32_toInt32]
  have h3 : (c % 2 ^ 32) &&& 3 = (c % 2 ^ 32) % 4 :=
    Nat.and_pow_two_sub_one_eq_mod (c % 2 ^ 32) 2
  rw [h3]
  unfold toInt32
  split <;> omega

/-- The arithmetic shift `RHSC >>= 2` is the floor division by 4. -/
theorem shiftRight_two (i : Int) : i >>> (2 : Nat) = i / 4 := by
  rw [Int.shiftRight_eq_div_pow]; norm_num

/-- `SelectAddrMode5` on a two-operand add. -/
theorem SelectAddrMode5_add (AM : ARM_AM) (Op X R : SDOperand) (r : Nat) :
    SelectAddrMode5 AM Op (.mk .ADD [X, R] r) =
      some (.matched
        (match dynCastConstant R with
        | some v =>
          if toInt32 v % 4 = 0 then
            if 0 ≤ toInt32 v / 4 ∧ toInt32 v / 4 < 256 then
              ⟨X, getTargetConstant (AM.getAM5Opc .add (toUInt32 (toInt32 v / 4)))⟩
            else if toInt32 v / 4 < 0 ∧ -256 < toInt32 v / 4 then
              ⟨X, getTargetConstant (AM.getAM5Opc .sub (toUInt32 (-(toInt32 v / 4))))⟩
            else ⟨.mk .ADD [X, R] r, getTargetConstant (AM.getAM5Opc .add 0)⟩
          else ⟨.mk .ADD [X, R] r, getTargetConstant (AM.getAM5Opc .add 0)⟩
        | none => ⟨.mk .ADD [X, R] r, getTargetConstant (AM.getAM5Opc .add 0)⟩)) := by
  simp only [SelectAddrMode5, SDOperand.getOpcode, SDOperand.getOperand, SDOperand.operands]
  cases hd : dynCastConstant R with
  | none => simp [hd]
  | some v =>
    simp only [and_three_eq_zero_iff, shiftRight_two]
    by_cases h4 : (4 : Int) ∣ toInt32 v
    · by_cases h1 : 0 ≤ toInt32 v / 4 ∧ toInt32 v / 4 < 256
      · simp [hd, h4, h1]
      · by_cases h2 : toInt32 v / 4 < 0 ∧ -256 < toInt32 v / 4
        · simp [hd, h4, h1, h2]
        · simp [hd, h4, h1, h2]
    · simp [hd, h4]

/-- C7: `SelectAddrMode5` rejects a constant offset that is not a multiple of 4, even
one inside `(-1024, 1024)`, and has no register-offset form: for `N = add(X, R)` with
`R` such a constant, or `R` not a constant at all, the match is the bare-base form
`Base = N` (the whole add), `Offset = getAM5Opc(add, 0)`. -/
theorem SelectAddrMode5_rejects_unaligned (AM : ARM_AM) (Op X R : SDOperand) (r : Nat) :
    (∀ c, R.getOpcode = .Constant c → toInt32 c % 4 ≠ 0 →
      SelectAddrMode5 AM Op (.mk .ADD [X, R] r) =
        some (.matched ⟨.mk .ADD [X, R] r, getTargetConstant (AM.getAM5Opc .add 0)⟩)) ∧
    (dynCastConstant R = none →
      SelectAddrMode5 AM Op (.mk .ADD [X, R] r) =
        some (.matched ⟨.mk .ADD [X, R] r, getTargetConstant (AM.getAM5Opc .add 0)⟩)) := by
  constructor
  · intro c hR h4
    have hdc : dynCastConstant R = some c := by simp [dynCastConstant, hR]
    rw [SelectAddrMode5_add, hdc]
    simp only [if_neg h4]
  · intro hdc
    rw [SelectAddrMode5_add, hdc]

/-- Witness for C7: the offset 6 is in range but not a multiple of 4, and a register
offset is no constant; both give the bare-base form. -/
theorem SelectAddrMode5_rejects_unaligned_witness :
    SelectAddrMode5 sampleAM (getRegister 1)
        (.mk .ADD [getRegister 1, .mk (.Constant 6) [] 0] 0) =
      some (.matched ⟨.mk .ADD [getRegister 1, .mk (.Constant 6) [] 0] 0,
        getTargetConstant (sampleAM.getAM5Opc .add 0)⟩) ∧
    SelectAddrMode5 sampleAM (getRegister 1)
        (.mk .ADD [getRegister 1, getRegister 2] 0) =
      some (.matched ⟨.mk .ADD [getRegister 1, getRegister 2] 0,
        getTargetConstant (sampleAM.getAM5Opc .add 0)⟩) :=
  ⟨(SelectAddrMode5_rejects_unaligned sampleAM (getRegister 1) (getRegister 1)
      (.mk (.Constant 6) [] 0) 0).1 6 rfl (by decide),
   (SelectAddrMode5_rejects_unaligned sampleAM (getRegister 1) (getRegister 1)
      (getRegister 2) 0).2 rfl⟩

/-- C8: the scaled-immediate path of `SelectAddrMode5`.  For `N = add(X, Constant c)`
with `c` (signed 32-bit) a multiple of 4: if `0 ≤ c/4 < 256` the result is `Base = X`,
`Offset = getAM5Opc(add, c/4)`; if `-256 < c/4 < 0` it is `Base = X`,
`Offset = getAM5Opc(sub, -(c/4))`; from `c/4 = 256` up and from `c/4 = -256` down
(so at `c = 1024` and `c = -1024`) nothing is folded and the result is the bare-base
form `Base = N`, `Offset = getAM5Opc(add, 0)`. -/
theorem SelectAddrMode5_scaled_imm (AM : ARM_AM) (Op X R : SDOperand) (r c : Nat)
    (hR : R.getOpcode = .Constant c) (h4 : toInt32 c % 4 = 0) :
    (0 ≤ toInt32 c / 4 ∧ toInt32 c / 4 < 256 →
      SelectAddrMode5 AM Op (.mk .ADD [X, R] r) =
        some (.matched ⟨X,
          getTargetConstant (AM.getAM5Opc .add (toInt32 c / 4).toNat)⟩)) ∧
    (-256 < toInt32 c / 4 ∧ toInt32 c / 4 < 0 →
      SelectAddrMode5 AM Op (.mk .ADD [X, R] r) =
        some (.matched ⟨X,
          getTargetConstant (AM.getAM5Opc .sub (-(toInt32 c / 4)).toNat)⟩)) ∧
    (256 ≤ toInt32 c / 4 ∨ toInt32 c / 4 ≤ -256 →
      SelectAddrMode5 AM Op (.mk .ADD [X, R] r) =
        some (.matched ⟨.mk .ADD [X, R] r, getTargetConstant (AM.getAM5Opc .add 0)⟩)) := by
  have hdc : dynCastConstant R = some c := by simp [dynCastConstant, hR]
  rw [SelectAddrMode5_add, hdc]
  simp only [if_pos h4]
  refine ⟨?_, ?_, ?_⟩
  · intro h
    rw [if_pos h, toUInt32_of_nonneg _ h.1 (by omega)]
  · intro h
    rw [if_neg (by omega), if_pos ⟨h.2, h.1⟩, toUInt32_of_nonneg _ (by omega) (by omega)]
  · intro h
    rw [if_neg (by omega), if_neg (by omega)]

/-- Witness for C8: `c = 8` folds as `(add, 2)`, `c = -8` as `(sub, 2)`, and the
boundary values `c = 1024` and `c = -1024` give the bare-base form. -/
theorem SelectAddrMode5_scaled_imm_witness :
    SelectAddrMode5 sampleAM (getRegister 1)
        (.mk .ADD [getRegister 1, .mk (.Constant 8) [] 0] 0) =
      some (.matched ⟨getRegister 1,
        getTargetConstant (sampleAM.getAM5Opc .add (toInt32 8 / 4).toNat)⟩) ∧
    SelectAddrMode5 sampleAM (getRegister 1)
        (.mk .ADD [getRegister 1, .mk (.Constant 4294967288) [] 0] 0) =
      some (.matched ⟨getRegister 1,
        getTargetConstant (sampleAM.getAM5Opc .sub (-(toInt32 4294967288 / 4)).toNat)⟩) ∧
    SelectAddrMode5 sampleAM (getRegister 1)
        (.mk .ADD [getRegister 1, .mk (.Constant 1024) [] 0] 0) =
      some (.matched ⟨.mk .ADD [getRegister 1, .mk (.Constant 1024) [] 0] 0,
        getTargetConstant (sampleAM.getAM5Opc .add 0)⟩) ∧
    SelectAddrMode5 sampleAM (getRegister 1)
        (.mk .ADD [getRegister 1, .mk (.Constant 4294966272) [] 0] 0) =
      some (.matched ⟨.mk .ADD [getRegister 1, .mk (.Constant 4294966272) [] 0] 0,
        getTargetConstant (sampleAM.getAM5Opc .add 0)⟩) :=
  ⟨(SelectAddrMode5_scaled_imm sampleAM (getRegister 1) (getRegister 1)
      (.mk (.Constant 8) [] 0) 0 8 rfl (by decide)).1 (by decide),
   (SelectAddrMode5_scaled_imm sampleAM (getRegister 1) (getRegister 1)
      (.mk (.Constant 4294967288) [] 0) 0 4294967288 rfl (by decide)).2.1 (by decide),
   (SelectAddrMode5_scaled_imm sampleAM (getRegister 1) (getRegister 1)
      (.mk (.Constant 1024) [] 0) 0 1024 rfl (by decide)).2.2 (Or.inl (by decide)),
   (SelectAddrMode5_scaled_imm sampleAM (getRegister 1) (getRegister 1)
      (.mk (.Constant 4294966272) [] 0) 0 4294966272 rfl (by decide)).2.2
      (Or.inr (by decide))⟩

/-- C9: `SelectAddrModePC` matches exactly a `PIC_ADD` node that has exactly one use.
On a match `Offset` is operand 0 of the node and `Label` is a target constant holding
the value of its constant operand 1; a `PIC_ADD` with two or more uses, and every
node that is not a `PIC_ADD`, is declined.  A `PIC_ADD` node is taken well-formed:
it has operands 0 and 1, and operand 1 is a constant. -/
theorem SelectAddrModePC_iff (CurDAG : SelectionDAG) (Op N : SDOperand)
    (hwf : N.getOpcode = .ARMISD_PIC_ADD →
      ∃ X L v, N.getOperand 0 = some X ∧ N.getOperand 1 = some L ∧
        dynCastConstant L = some v) :
    ((∃ out, SelectAddrModePC CurDAG Op N = some (.matched out)) ↔
      (N.getOpcode = .ARMISD_PIC_ADD ∧ CurDAG.useCount N = 1)) ∧
    (∀ X L v, N.getOpcode = .ARMISD_PIC_ADD → CurDAG.useCount N = 1 →
      N.getOperand 0 = some X → N.getOperand 1 = some L → dynCastConstant L = some v →
      SelectAddrModePC CurDAG Op N = some (.matched ⟨X, getTargetConstant v⟩)) ∧
    (N.getOpcode = .ARMISD_PIC_ADD → 2 ≤ CurDAG.useCount N →
      SelectAddrModePC CurDAG Op N = some .declined) ∧
    (N.getOpcode ≠ .ARMISD_PIC_ADD → SelectAddrModePC CurDAG Op N = some .declined) := by
  have hmatch : ∀ X L v, N.getOpcode = .ARMISD_PIC_ADD → CurDAG.useCount N = 1 →
      N.getOperand 0 = some X → N.getOperand 1 = some L → dynCastConstant L = some v →
      SelectAddrModePC CurDAG Op N = some (.matched ⟨X, getTargetConstant v⟩) := by
    intro X L v hk hu h0 h1 hv
    simp [SelectAddrModePC, SelectionDAG.hasOneUse, hk, hu, h0, h1, hv]
  have hdecl : ¬ (N.getOpcode = .ARMISD_PIC_ADD ∧ CurDAG.useCount N = 1) →
      SelectAddrModePC CurDAG Op N = some .declined := by
    intro h
    simp only [SelectAddrModePC, SelectionDAG.hasOneUse, decide_eq_true_eq]
    rw [if_neg h]
    rfl
  refine ⟨⟨?_, ?_⟩, hmatch, ?_, ?_⟩
  · rintro ⟨out, hout⟩
    by_contra hcon
    rw [hdecl hcon] at hout
    cases hout
  · rintro ⟨hk, hu⟩
    obtain ⟨X, L, v, h0, h1, hv⟩ := hwf hk
    exact ⟨_, hmatch X L v hk hu h0 h1 hv⟩
  · intro _ hu
    exact hdecl (by omega)
  · intro hk
    exact hdecl (fun h => hk h.1)

/-- Witness for C9: a `PIC_ADD` used once, by a load, is matched. -/
theorem SelectAddrModePC_iff_witness :
    SelectAddrModePC
        ⟨[⟨.LOAD .UNINDEXED .i32 .NON_EXTLOAD,
          [getEntryNode, .mk .ARMISD_PIC_ADD [getRegister 1, .mk (.Constant 7) [] 0] 0,
            getRegister 0]⟩]⟩
        (getRegister 1) (.mk .ARMISD_PIC_ADD [getRegister 1, .mk (.Constant 7) [] 0] 0) =
      some (.matched ⟨getRegister 1, getTargetConstant 7⟩) :=
  (SelectAddrModePC_iff
    ⟨[⟨.LOAD .UNINDEXED .i32 .NON_EXTLOAD,
      [getEntryNode, .mk .ARMISD_PIC_ADD [getRegister 1, .mk (.Constant 7) [] 0] 0,
        getRegister 0]⟩]⟩
    (getRegister 1) (.mk .ARMISD_PIC_ADD [getRegister 1, .mk (.Constant 7) [] 0] 0)
    (fun _ => ⟨getRegister 1, .mk (.Constant 7) [] 0, 7, rfl, rfl, rfl⟩)).2.1
    (getRegister 1) (.mk (.Constant 7) [] 0) 7 rfl (by decide) rfl rfl rfl
/-- Past the stack-pointer check, `SelectThumbAddrModeRI5` never returns false. -/
theorem RI5_rest_ne_declined (N : SDOperand) (Scale : Nat) :
    SelectThumbAddrModeRI5.rest N Scale ≠ some .declined := by
  unfold SelectThumbAddrModeRI5.rest
  intro h
  split at h
  · split at h
    · cases h0 : N.getOperand 0 <;> simp [h0] at h
    · simp at h
  · cases h1 : N.getOperand 1 with
    | none => simp [h1] at h
    | some N1 =>
      cases h0 : N.getOperand 0 with
      | none => simp [h1, h0] at h
      | some N0 =>
        simp only [h1, h0, Option.bind_eq_bind, Option.some_bind, Option.pure_def] at h
        split at h
        · split at h
          · split at h
            · simp at h
            · split at h <;> simp at h
          · simp at h
        · simp at h

/-- C10: stack-pointer priority in reduced mode.  For every address `N` the generic
scale-4 matcher `SelectThumbAddrModeS4` declines exactly when
`SelectThumbAddrModeSP` matches `N`.  In particular, for a bare frame reference and
for `add(FrameIndex, Constant c)` with `c` a multiple of 4 and `0 ≤ c < 1024`, the SP
form matches and the scale-4 form declines. -/
theorem SelectThumbAddrModeS4_declines_iff_SP (Op N : SDOperand) :
    (SelectThumbAddrModeS4 Op N = some .declined ↔
      ∃ out, SelectThumbAddrModeSP Op N = some (.matched out)) ∧
    (∀ FI, N.getOpcode = .FrameIndex FI →
      SelectThumbAddrModeSP Op N =
        some (.matched ⟨getTargetFrameIndex FI, getTargetConstant 0⟩) ∧
      SelectThumbAddrModeS4 Op N = some .declined) ∧
    (∀ (F R : SDOperand) (FI : Int) (c r : Nat), N = .mk .ADD [F, R] r →
      F.getOpcode = .FrameIndex FI → R.getOpcode = .Constant c →
      toInt32 c % 4 = 0 → 0 ≤ toInt32 c → toInt32 c < 1024 →
      SelectThumbAddrModeSP Op N =
        some (.matched ⟨getTargetFrameIndex FI,
          getTargetConstant (toInt32 c / 4).toNat⟩) ∧
      SelectThumbAddrModeS4 Op N = some .declined) := by
  have hS4 : ∀ out, SelectThumbAddrModeSP Op N = some (.matched out) →
      SelectThumbAddrModeS4 Op N = some .declined := by
    intro out h
    simp [SelectThumbAddrModeS4, SelectThumbAddrModeRI5, h]
  refine ⟨⟨?_, ?_⟩, ?_, ?_⟩
  · intro h
    cases hsp : SelectThumbAddrModeSP Op N with
    | none => simp [SelectThumbAddrModeS4, SelectThumbAddrModeRI5, hsp] at h
    | some res =>
      cases res with
      | matched out => exact ⟨out, rfl⟩
      | declined =>
        simp only [SelectThumbAddrModeS4, SelectThumbAddrModeRI5, hsp] at h
        exact absurd (by simpa using h) (RI5_rest_ne_declined N 4)
  · rintro ⟨out, h⟩
    exact hS4 out h
  · intro FI hk
    have hsp : SelectThumbAddrModeSP Op N =
        some (.matched ⟨getTargetFrameIndex FI, getTargetConstant 0⟩) := by
      simp [SelectThumbAddrModeSP, hk]
    exact ⟨hsp, hS4 _ hsp⟩
  · intro F R FI c r hN hF hR h4 h0 h1
    subst hN
    have hdc : dynCastConstant R = some c := by simp [dynCastConstant, hR]
    have hdiv : (4 : Int) ∣ toInt32 c := Int.dvd_of_emod_eq_zero h4
    have hsp : SelectThumbAddrModeSP Op (.mk .ADD [F, R] r) =
        some (.matched ⟨getTargetFrameIndex FI,
          getTargetConstant (toInt32 c / 4).toNat⟩) := by
      have hq0 : 0 ≤ toInt32 c / 4 := by omega
      have hq1 : toInt32 c / 4 < 256 := by omega
      have hu : toUInt64 (toInt32 c / 4) = (toInt32 c / 4).toNat := by
        unfold toUInt64
        rw [Int.emod_eq_of_lt hq0 (by omega)]
      have hNk : (SDOperand.mk .ADD [F, R] r).getOpcode = .ADD := rfl
      have hN0 : (SDOperand.mk .ADD [F, R] r).getOperand 0 = some F := rfl
      have hN1 : (SDOperand.mk .ADD [F, R] r).getOperand 1 = some R := rfl
      simp [SelectThumbAddrModeSP, hNk, hN0, hN1, hF, hdc, and_three_eq_zero_iff,
        shiftRight_two, hdiv, hq0, hq1, hu]
    exact ⟨hsp, hS4 _ hsp⟩

/-- Witness for C10: for `add(FrameIndex 2, 8)` the SP form matches with `OffImm = 2`
and the generic scale-4 form declines. -/
theorem SelectThumbAddrModeS4_declines_iff_SP_witness :
    SelectThumbAddrModeSP (getRegister 1)
        (.mk .ADD [.mk (.FrameIndex 2) [] 0, .mk (.Constant 8) [] 0] 0) =
      some (.matched ⟨getTargetFrameIndex 2, getTargetConstant (toInt32 8 / 4).toNat⟩) ∧
    SelectThumbAddrModeS4 (getRegister 1)
        (.mk .ADD [.mk (.FrameIndex 2) [] 0, .mk (.Constant 8) [] 0] 0) =
      some .declined :=
  (SelectThumbAddrModeS4_declines_iff_SP (getRegister 1)
    (.mk .ADD [.mk (.FrameIndex 2) [] 0, .mk (.Constant 8) [] 0] 0)).2.2
    (.mk (.FrameIndex 2) [] 0) (.mk (.Constant 8) [] 0) 2 8 0 rfl rfl rfl
    (by decide) (by decide) (by decide)

/-- `SelectThumbAddrModeSP` on an add whose operands 0 and 1 are `F` and `R`. -/
theorem SelectThumbAddrModeSP_add (Op N F R : SDOperand) (hk : N.getOpcode = .ADD)
    (h0 : N.getOperand 0 = some F) (h1 : N.getOperand 1 = some R) :
    SelectThumbAddrModeSP Op N =
      some (match F.getOpcode with
        | .FrameIndex FI =>
          match dynCastConstant R with
          | some v =>
            if toInt32 v % 4 = 0 ∧ 0 ≤ toInt32 v / 4 ∧ toInt32 v / 4 < 256 then
              .matched ⟨getTargetFrameIndex FI, getTargetConstant (toInt32 v / 4).toNat⟩
            else .declined
          | none => .declined
        | _ => .declined) := by
  simp only [SelectThumbAddrModeSP, hk, h0, h1, Option.bind_eq_bind, Option.some_bind,
    Option.pure_def]
  split
  · cases hd : dynCastConstant R with
    | none => rfl
    | some v =>
      simp only [and_three_eq_zero_iff, shiftRight_two]
      by_cases h4 : toInt32 v % 4 = 0
      · by_cases hr : 0 ≤ toInt32 v / 4 ∧ toInt32 v / 4 < 256
        · have hu : toUInt64 (toInt32 v / 4) = (toInt32 v / 4).toNat := by
            unfold toUInt64
            rw [Int.emod_eq_of_lt hr.1 (by omega)]
          rw [if_pos h4, if_pos (by exact hr), if_pos ⟨h4, hr⟩, hu]
        · rw [if_pos h4, if_neg (by exact hr), if_neg (fun h => hr h.2)]
      · rw [if_neg h4, if_neg (fun h => h4 h.1)]
  · rfl

/-- `SelectThumbAddrModeSP` declines a node that is neither a frame index nor an add. -/
theorem SelectThumbAddrModeSP_other (Op N : SDOperand)
    (hFI : ∀ FI, N.getOpcode ≠ .FrameIndex FI) (hA : N.getOpcode ≠ .ADD) :
    SelectThumbAddrModeSP Op N = some .declined := by
  unfold SelectThumbAddrModeSP
  split
  · rename_i FI hk
    exact absurd hk (hFI FI)
  · rename_i hk
    exact absurd hk hA
  · rfl

/-- `SelectThumbAddrModeSP` declines an add whose operand 0 is no frame index. -/
theorem SelectThumbAddrModeSP_add_nonframe (Op N F : SDOperand) (hk : N.getOpcode = .ADD)
    (h0 : N.getOperand 0 = some F) (hF : ∀ FI, F.getOpcode ≠ .FrameIndex FI) :
    SelectThumbAddrModeSP Op N = some .declined := by
  simp only [SelectThumbAddrModeSP, hk, h0, Option.bind_eq_bind, Option.some_bind]
  rfl

/-- C11: `SelectThumbAddrModeSP` matches exactly (a) a bare `FrameIndex fi`, giving
`Base` = target frame index `fi` and `OffImm = 0`, and (b) `add(FrameIndex fi, c)`
with `c` a constant, `(c & 3) = 0` and `0 ≤ c < 1024` (signed 32-bit), giving `Base` =
target frame index `fi` and `OffImm = c/4`; every emitted `OffImm` is below 256.
Every other input whose add has its two operands is declined. -/
theorem SelectThumbAddrModeSP_exact (Op N : SDOperand) :
    (∀ FI, N.getOpcode = .FrameIndex FI →
      SelectThumbAddrModeSP Op N =
        some (.matched ⟨getTargetFrameIndex FI, getTargetConstant 0⟩)) ∧
    (∀ F R FI c, N.getOpcode = .ADD → N.getOperand 0 = some F → N.getOperand 1 = some R →
      F.getOpcode = .FrameIndex FI → dynCastConstant R = some c →
      toInt32 c % 4 = 0 → 0 ≤ toInt32 c → toInt32 c < 1024 →
      SelectThumbAddrModeSP Op N =
        some (.matched ⟨getTargetFrameIndex FI,
          getTargetConstant (toInt32 c / 4).toNat⟩) ∧
      (toInt32 c / 4).toNat < 256) ∧
    ((∃ out, SelectThumbAddrModeSP Op N = some (.matched out)) ↔
      ((∃ FI, N.getOpcode = .FrameIndex FI) ∨
       (∃ F R FI c, N.getOpcode = .ADD ∧ N.getOperand 0 = some F ∧
          N.getOperand 1 = some R ∧ F.getOpcode = .FrameIndex FI ∧
          dynCastConstant R = some c ∧ toInt32 c % 4 = 0 ∧ 0 ≤ toInt32 c ∧
          toInt32 c < 1024))) ∧
    ((N.getOpcode = .ADD → ∃ F R, N.getOperand 0 = some F ∧ N.getOperand 1 = some R) →
      ¬ ((∃ FI, N.getOpcode = .FrameIndex FI) ∨
       (∃ F R FI c, N.getOpcode = .ADD ∧ N.getOperand 0 = some F ∧
          N.getOperand 1 = some R ∧ F.getOpcode = .FrameIndex FI ∧
          dynCastConstant R = some c ∧ toInt32 c % 4 = 0 ∧ 0 ≤ toInt32 c ∧
          toInt32 c < 1024)) →
      SelectThumbAddrModeSP Op N = some .declined) ∧
    (∀ out, SelectThumbAddrModeSP Op N = some (.matched out) →
      ∃ v, out.OffImm = getTargetConstant v ∧ v < 256) := by
  have hbare : ∀ FI, N.getOpcode = .FrameIndex FI →
      SelectThumbAddrModeSP Op N =
        some (.matched ⟨getTargetFrameIndex FI, getTargetConstant 0⟩) := by
    intro FI hk
    simp [SelectThumbAddrModeSP, hk]
  have hadd : ∀ F R FI c, N.getOpcode = .ADD → N.getOperand 0 = some F →
      N.getOperand 1 = some R → F.getOpcode = .FrameIndex FI → dynCastConstant R = some c →
      toInt32 c % 4 = 0 → 0 ≤ toInt32 c → toInt32 c < 1024 →
      SelectThumbAddrModeSP Op N =
        some (.matched ⟨getTargetFrameIndex FI,
          getTargetConstant (toInt32 c / 4).toNat⟩) ∧
      (toInt32 c / 4).toNat < 256 := by
    intro F R FI c hk h0 h1 hF hc h4 hlo hhi
    rw [SelectThumbAddrModeSP_add Op N F R hk h0 h1, hF, hc]
    have hr : toInt32 c % 4 = 0 ∧ 0 ≤ toInt32 c / 4 ∧ toInt32 c / 4 < 256 :=
      ⟨h4, by omega, by omega⟩
    exact ⟨by simp only [if_pos hr], by omega⟩
  -- every match comes from one of the two shapes, with a small immediate
  have hshape : ∀ out, SelectThumbAddrModeSP Op N = some (.matched out) →
      ((∃ FI, N.getOpcode = .FrameIndex FI) ∨
       (∃ F R FI c, N.getOpcode = .ADD ∧ N.getOperand 0 = some F ∧
          N.getOperand 1 = some R ∧ F.getOpcode = .FrameIndex FI ∧
          dynCastConstant R = some c ∧ toInt32 c % 4 = 0 ∧ 0 ≤ toInt32 c ∧
          toInt32 c < 1024)) ∧
      ∃ v, out.OffImm = getTargetConstant v ∧ v < 256 := by
    intro out h
    by_cases hFI : ∃ FI, N.getOpcode = .FrameIndex FI
    · obtain ⟨FI, hk⟩ := hFI
      rw [hbare FI hk] at h
      simp only [Option.some.injEq, MatchResult.matched.injEq] at h
      subst h
      exact ⟨Or.inl ⟨FI, hk⟩, 0, rfl, by norm_num⟩
    · have hFI2 : ∀ FI, N.getOpcode ≠ .FrameIndex FI := fun FI hk => hFI ⟨FI, hk⟩
      by_cases hA : N.getOpcode = .ADD
      · cases h0 : N.getOperand 0 with
        | none => simp [SelectThumbAddrModeSP, hA, h0] at h
        | some F =>
          by_cases hF : ∃ FI, F.getOpcode = .FrameIndex FI
          · obtain ⟨FI, hFk⟩ := hF
            cases h1 : N.getOperand 1 with
            | none => simp [SelectThumbAddrModeSP, hA, h0, h1, hFk] at h
            | some R =>
              rw [SelectThumbAddrModeSP_add Op N F R hA h0 h1, hFk] at h
              cases hc : dynCastConstant R with
              | none => simp [hc] at h
              | some c =>
                simp only [hc] at h
                by_cases hr : toInt32 c % 4 = 0 ∧ 0 ≤ toInt32 c / 4 ∧ toInt32 c / 4 < 256
                · rw [if_pos hr] at h
                  simp only [Option.some.injEq, MatchResult.matched.injEq] at h
                  subst h
                  refine ⟨Or.inr ⟨F, R, FI, c, hA, rfl, rfl, hFk, hc, hr.1, by omega,
                    by omega⟩, _, rfl, by omega⟩
                · rw [if_neg hr] at h
                  simp at h
          · rw [SelectThumbAddrModeSP_add_nonframe Op N F hA h0
              (fun FI hk => hF ⟨FI, hk⟩)] at h
            simp at h
      · rw [SelectThumbAddrModeSP_other Op N hFI2 hA] at h
        simp at h
  have hdecl : (N.getOpcode = .ADD →
        ∃ F R, N.getOperand 0 = some F ∧ N.getOperand 1 = some R) →
      ¬ ((∃ FI, N.getOpcode = .FrameIndex FI) ∨
       (∃ F R FI c, N.getOpcode = .ADD ∧ N.getOperand 0 = some F ∧
          N.getOperand 1 = some R ∧ F.getOpcode = .FrameIndex FI ∧
          dynCastConstant R = some c ∧ toInt32 c % 4 = 0 ∧ 0 ≤ toInt32 c ∧
          toInt32 c < 1024)) →
      SelectThumbAddrModeSP Op N = some .declined := by
    intro hwf hnot
    have hFI2 : ∀ FI, N.getOpcode ≠ .FrameIndex FI := fun FI hk => hnot (Or.inl ⟨FI, hk⟩)
    by_cases hA : N.getOpcode = .ADD
    · obtain ⟨F, R, h0, h1⟩ := hwf hA
      rw [SelectThumbAddrModeSP_add Op N F R hA h0 h1]
      split
      · rename_i FI hFk
        cases hc : dynCastConstant R with
        | none => rfl
        | some c =>
          simp only
          rw [if_neg]
          rintro ⟨h4, hlo, hhi⟩
          exact hnot (Or.inr ⟨F, R, FI, c, hA, h0, h1, hFk, hc, h4, by omega, by omega⟩)
      · rfl
    · exact SelectThumbAddrModeSP_other Op N hFI2 hA
  refine ⟨hbare, hadd, ⟨?_, ?_⟩, hdecl, fun out h => (hshape out h).2⟩
  · rintro ⟨out, h⟩
    exact (hshape out h).1
  · rintro (⟨FI, hk⟩ | ⟨F, R, FI, c, hk, h0, h1, hF, hc, h4, hlo, hhi⟩)
    · exact ⟨_, hbare FI hk⟩
    · exact ⟨_, (hadd F R FI c hk h0 h1 hF hc h4 hlo hhi).1⟩

/-- Witness for C11: `add(FrameIndex 3, 12)` matches with `OffImm = 3`, while
`add(FrameIndex 3, 1024)` is declined. -/
theorem SelectThumbAddrModeSP_exact_witness :
    SelectThumbAddrModeSP (getRegister 1)
        (.mk .ADD [.mk (.FrameIndex 3) [] 0, .mk (.Constant 12) [] 0] 0) =
      some (.matched ⟨getTargetFrameIndex 3, getTargetConstant (toInt32 12 / 4).toNat⟩) ∧
    SelectThumbAddrModeSP (getRegister 1)
        (.mk .ADD [.mk (.FrameIndex 3) [] 0, .mk (.Constant 1024) [] 0] 0) =
      some .declined :=
  ⟨((SelectThumbAddrModeSP_exact (getRegister 1)
      (.mk .ADD [.mk (.FrameIndex 3) [] 0, .mk (.Constant 12) [] 0] 0)).2.1
      (.mk (.FrameIndex 3) [] 0) (.mk (.Constant 12) [] 0) 3 12 rfl rfl rfl rfl rfl
      (by decide) (by decide) (by decide)).1,
   (SelectThumbAddrModeSP_exact (getRegister 1)
      (.mk .ADD [.mk (.FrameIndex 3) [] 0, .mk (.Constant 1024) [] 0] 0)).2.2.2.1
      (fun _ => ⟨_, _, rfl, rfl⟩)
      (by
        rintro (⟨FI, h⟩ | ⟨F, R, FI, c, -, -, h1, -, hc, -, -, hhi⟩)
        · cases h
        · cases h1
          cases hc
          exact absurd hhi (by decide))⟩

/-- C12: selecting an already-selected node is a no-op.  For every node whose opcode
is a machine instruction (the range `[ISD::BUILTIN_OP_END, ARMISD::FIRST_NUMBER)`),
in either subtarget mode, `Select` returns NULL without reaching any bespoke rule or
the generic matcher: no node is created or morphed, no use is replaced, nothing is
queued, and the graph is left as it was. -/
theorem Select_already_selected (AM : ARM_AM) (isThumb : Bool) (Op : SDOperand)
    (opc : ARMInstr) (G : SelectionDAG) (h : Op.getOpcode = .Machine opc) :
    ∃ E, Select AM isThumb Op = some E ∧ E.created = [] ∧ E.morphed = none ∧
      E.replaced = none ∧ E.queued = [] ∧ E.ret = .null ∧
      E.ret ≠ .selectCode Op ∧ G.afterCreateAndReplace E = G := by
  refine ⟨⟨[], none, none, [], .null⟩, ?_, rfl, rfl, rfl, rfl, rfl, ?_, ?_⟩
  · simp [Select, h]
  · intro hc
    cases hc
  · simp [SelectionDAG.afterCreateAndReplace]

/-- Witness for C12: an `ADDri` machine node with operands, in full mode and in
Thumb mode. -/
theorem Select_already_selected_witness :
    (∃ E, Select sampleAM false
        (.mk (.Machine .ADDri) [getTargetFrameIndex 1, getTargetConstant 0] 0) = some E ∧
      E.created = [] ∧ E.ret = .null) ∧
    (∃ E, Select sampleAM true
        (.mk (.Machine .ADDri) [getTargetFrameIndex 1, getTargetConstant 0] 0) = some E ∧
      E.created = [] ∧ E.ret = .null) :=
  ⟨match Select_already_selected sampleAM false
      (.mk (.Machine .ADDri) [getTargetFrameIndex 1, getTargetConstant 0] 0) .ADDri ⟨[]⟩
      rfl with
    | ⟨E, h1, h2, _, _, _, h6, _⟩ => ⟨E, h1, h2, h6⟩,
   match Select_already_selected sampleAM true
      (.mk (.Machine .ADDri) [getTargetFrameIndex 1, getTargetConstant 0] 0) .ADDri ⟨[]⟩
      rfl with
    | ⟨E, h1, h2, _, _, _, h6, _⟩ => ⟨E, h1, h2, h6⟩⟩

/-- C13, as stated, fails: on the bare frame reference `FrameIndex 2` the reduced-mode
matchers `SelectThumbAddrModeRR`, `SelectThumbAddrModeS1` and `SelectThumbAddrModeS2`
match with `Base` the raw `FrameIndex` node, which is not the target frame index. -/
theorem thumb_matchers_keep_raw_FrameIndex :
    SelectThumbAddrModeRR (getRegister 1) (.mk (.FrameIndex 2) [] 0) =
      some (.matched ⟨.mk (.FrameIndex 2) [] 0,
        .mk (.Machine .tMOVri8) [getTargetConstant 0] 0⟩) ∧
    SelectThumbAddrModeS1 (getRegister 1) (.mk (.FrameIndex 2) [] 0) =
      some (.matched ⟨.mk (.FrameIndex 2) [] 0, getRegister 0, getTargetConstant 0⟩) ∧
    SelectThumbAddrModeS2 (getRegister 1) (.mk (.FrameIndex 2) [] 0) =
      some (.matched ⟨.mk (.FrameIndex 2) [] 0, getRegister 0, getTargetConstant 0⟩) ∧
    (SDOperand.mk (.FrameIndex 2) [] 0) ≠ getTargetFrameIndex 2 := by
  refine ⟨by decide, by decide, by decide, by decide⟩

/-- C13, amended: on a bare `FrameIndex` node for slot `FI`, Families A, B, C and the
reduced-mode SP form return `Base` = the target frame index of `FI`; the scale-4 form
S4 declines (the SP form takes the node); the reduced-mode RR, S1 and S2 forms match
with `Base` = the `FrameIndex` node itself, which `Select` in turn morphs into
`tADDrSPi`/`ADDri` of the target frame index. -/
theorem FrameIndex_base_of_matchers (AM : ARM_AM) (Op : SDOperand) (FI : Int)
    (ops : List SDOperand) (r : Nat) (isThumb : Bool) :
    SelectAddrMode2 AM Op (.mk (.FrameIndex FI) ops r) =
      some (.matched ⟨getTargetFrameIndex FI, getRegister 0,
        getTargetConstant (AM.getAM2Opc .add 0 .no_shift)⟩) ∧
    SelectAddrMode3 AM Op (.mk (.FrameIndex FI) ops r) =
      some (.matched ⟨getTargetFrameIndex FI, getRegister 0,
        getTargetConstant (AM.getAM3Opc .add 0)⟩) ∧
    SelectAddrMode5 AM Op (.mk (.FrameIndex FI) ops r) =
      some (.matched ⟨getTargetFrameIndex FI, getTargetConstant (AM.getAM5Opc .add 0)⟩) ∧
    SelectThumbAddrModeSP Op (.mk (.FrameIndex FI) ops r) =
      some (.matched ⟨getTargetFrameIndex FI, getTargetConstant 0⟩) ∧
    SelectThumbAddrModeS4 Op (.mk (.FrameIndex FI) ops r) = some .declined ∧
    SelectThumbAddrModeRR Op (.mk (.FrameIndex FI) ops r) =
      some (.matched ⟨.mk (.FrameIndex FI) ops r,
        .mk (.Machine .tMOVri8) [getTargetConstant 0] 0⟩) ∧
    SelectThumbAddrModeS1 Op (.mk (.FrameIndex FI) ops r) =
      some (.matched ⟨.mk (.FrameIndex FI) ops r, getRegister 0, getTargetConstant 0⟩) ∧
    SelectThumbAddrModeS2 Op (.mk (.FrameIndex FI) ops r) =
      some (.matched ⟨.mk (.FrameIndex FI) ops r, getRegister 0, getTargetConstant 0⟩) ∧
    Select AM isThumb (.mk (.FrameIndex FI) ops r) =
      some (SelectNodeTo (if isThumb then ARMInstr.tADDrSPi else ARMInstr.ADDri)
        [getTargetFrameIndex FI, getTargetConstant 0] []) := by
  refine ⟨?_, ?_, ?_, ?_, ?_, ?_, ?_, ?_, ?_⟩
  · simp [SelectAddrMode2, SDOperand.getOpcode]
  · simp [SelectAddrMode3, SDOperand.getOpcode]
  · simp [SelectAddrMode5, SDOperand.getOpcode]
  · simp [SelectThumbAddrModeSP, SDOperand.getOpcode]
  · simp [SelectThumbAddrModeS4, SelectThumbAddrModeRI5, SelectThumbAddrModeSP,
      SDOperand.getOpcode]
  · simp [SelectThumbAddrModeRR, SDOperand.getOpcode]
  · simp [SelectThumbAddrModeS1, SelectThumbAddrModeRI5, SelectThumbAddrModeRI5.rest,
      SDOperand.getOpcode]
  · simp [SelectThumbAddrModeS2, SelectThumbAddrModeRI5, SelectThumbAddrModeRI5.rest,
      SDOperand.getOpcode]
  · simp [Select, SDOperand.getOpcode]

/-- C14: out-of-range constants are rejected, not clamped, by `SelectAddrMode2`.  For
`N = add(X, Constant c)` with `c ≥ 4096` or `c ≤ -4096` (signed 32-bit) and `X` not a
shift node, the match is the register-offset form `Base = X`, `Offset` = the constant
node itself, `Opc = getAM2Opc(add, 0, no_shift)`.  The hypothesis on the encoder says
that a shift node is never a constant node. -/
theorem SelectAddrMode2_out_of_range (AM : ARM_AM) (Op X R : SDOperand) (r c : Nat)
    (hR : R.getOpcode = .Constant c) (hX : AM.getShiftOpcForNode X = .no_shift)
    (hsh : ∀ V, AM.getShiftOpcForNode V ≠ .no_shift → dynCastConstant V = none)
    (hc : 4096 ≤ toInt32 c ∨ toInt32 c ≤ -4096) :
    SelectAddrMode2 AM Op (.mk .ADD [X, R] r) =
      some (.matched ⟨X, R, getTargetConstant (AM.getAM2Opc .add 0 .no_shift)⟩) := by
  have hdc : dynCastConstant R = some c := by simp [dynCastConstant, hR]
  have hRs : AM.getShiftOpcForNode R = .no_shift := by
    by_contra hcon
    have := hsh R hcon
    rw [hdc] at this
    cases this
  have himm : SelectAddrMode2.imm12 AM X R = none := by
    simp only [SelectAddrMode2.imm12, hdc]
    rw [if_neg (by omega), if_neg (by omega)]
  have hreg : SelectAddrMode2.regForm AM (.mk .ADD [X, R] r) X R =
      some ⟨X, R, .add, 0, .no_shift⟩ := by
    simp [SelectAddrMode2.regForm, SelectAddrMode2.foldRHS, SelectAddrMode2.foldLHS,
      hX, hRs, SDOperand.getOpcode]
  rw [SelectAddrMode2_addsub AM Op X R .ADD r (Or.inl rfl)]
  simp [himm, hreg]

/-- Witness for C14: `c = 4096` and `c = -4096` both give the register-offset form
with the constant node as offset. -/
theorem SelectAddrMode2_out_of_range_witness :
    SelectAddrMode2 sampleAM (getRegister 1)
        (.mk .ADD [getRegister 1, .mk (.Constant 4096) [] 0] 0) =
      some (.matched ⟨getRegister 1, .mk (.Constant 4096) [] 0,
        getTargetConstant (sampleAM.getAM2Opc .add 0 .no_shift)⟩) ∧
    SelectAddrMode2 sampleAM (getRegister 1)
        (.mk .ADD [getRegister 1, .mk (.Constant 4294963200) [] 0] 0) =
      some (.matched ⟨getRegister 1, .mk (.Constant 4294963200) [] 0,
        getTargetConstant (sampleAM.getAM2Opc .add 0 .no_shift)⟩) :=
  ⟨SelectAddrMode2_out_of_range sampleAM (getRegister 1) (getRegister 1)
      (.mk (.Constant 4096) [] 0) 0 4096 rfl (by decide) sampleAM_shift_not_constant
      (Or.inl (by decide)),
   SelectAddrMode2_out_of_range sampleAM (getRegister 1) (getRegister 1)
      (.mk (.Constant 4294963200) [] 0) 0 4294963200 rfl (by decide)
      sampleAM_shift_not_constant (Or.inr (by decide))⟩

/-- `SelectAddrMode3` on a two-operand add. -/
theorem SelectAddrMode3_add (AM : ARM_AM) (Op X R : SDOperand) (r : Nat) :
    SelectAddrMode3 AM Op (.mk .ADD [X, R] r) =
      some (.matched
        (match dynCastConstant R with
        | some v =>
          if 0 ≤ toInt32 v ∧ toInt32 v < 256 then
            ⟨X, getRegister 0, getTargetConstant (AM.getAM3Opc .add (toUInt32 (toInt32 v)))⟩
          else if toInt32 v < 0 ∧ -256 < toInt32 v then
            ⟨X, getRegister 0,
              getTargetConstant (AM.getAM3Opc .sub (toUInt32 (-(toInt32 v))))⟩
          else ⟨X, R, getTargetConstant (AM.getAM3Opc .add 0)⟩
        | none => ⟨X, R, getTargetConstant (AM.getAM3Opc .add 0)⟩)) := by
  simp only [SelectAddrMode3, SDOperand.getOpcode, SDOperand.getOperand, SDOperand.operands]
  cases hd : dynCastConstant R with
  | none => simp [hd]
  | some v =>
    by_cases h1 : 0 ≤ toInt32 v ∧ toInt32 v < 256
    · simp [hd, h1]
    · by_cases h2 : toInt32 v < 0 ∧ -256 < toInt32 v
      · simp [hd, h1, h2]
      · simp [hd, h1, h2]

/-- C15: the immediate range of `SelectAddrMode3` is exactly `(-256, 256)`.  For
`N = add(X, R)`: with `R` a constant `c`, `0 ≤ c < 256` gives `(X, null register,
getAM3Opc(add, c))` and `-256 < c < 0` gives `(X, null register, getAM3Opc(sub, -c))`;
every other `c` (so `c = 256` and `c = -256`) and every non-constant `R` give
`(X, R, getAM3Opc(add, 0))`.  No shift is folded: `Base` is always `X` and `Offset`
is `R` itself or the null register, whatever the encoders call a shift node. -/
theorem SelectAddrMode3_add_imm8 (AM : ARM_AM) (Op X R : SDOperand) (r : Nat) :
    (∀ c, R.getOpcode = .Constant c → 0 ≤ toInt32 c → toInt32 c < 256 →
      SelectAddrMode3 AM Op (.mk .ADD [X, R] r) =
        some (.matched ⟨X, getRegister 0,
          getTargetConstant (AM.getAM3Opc .add (toInt32 c).toNat)⟩)) ∧
    (∀ c, R.getOpcode = .Constant c → -256 < toInt32 c → toInt32 c < 0 →
      SelectAddrMode3 AM Op (.mk .ADD [X, R] r) =
        some (.matched ⟨X, getRegister 0,
          getTargetConstant (AM.getAM3Opc .sub (-(toInt32 c)).toNat)⟩)) ∧
    (∀ c, R.getOpcode = .Constant c → 256 ≤ toInt32 c ∨ toInt32 c ≤ -256 →
      SelectAddrMode3 AM Op (.mk .ADD [X, R] r) =
        some (.matched ⟨X, R, getTargetConstant (AM.getAM3Opc .add 0)⟩)) ∧
    (dynCastConstant R = none →
      SelectAddrMode3 AM Op (.mk .ADD [X, R] r) =
        some (.matched ⟨X, R, getTargetConstant (AM.getAM3Opc .add 0)⟩)) ∧
    (∃ out, SelectAddrMode3 AM Op (.mk .ADD [X, R] r) = some (.matched out) ∧
      out.Base = X ∧ (out.Offset = R ∨ out.Offset = getRegister 0)) := by
  have hdc : ∀ c, R.getOpcode = .Constant c → dynCastConstant R = some c := by
    intro c hR
    simp [dynCastConstant, hR]
  rw [SelectAddrMode3_add]
  refine ⟨?_, ?_, ?_, ?_, ?_⟩
  · intro c hR h0 h1
    rw [hdc c hR]
    simp only [if_pos (And.intro h0 h1), toUInt32_of_nonneg _ h0 (by omega)]
  · intro c hR h0 h1
    rw [hdc c hR]
    simp only
    rw [if_neg (by omega), if_pos ⟨h1, h0⟩, toUInt32_of_nonneg _ (by omega) (by omega)]
  · intro c hR h
    rw [hdc c hR]
    simp only
    rw [if_neg (by omega), if_neg (by omega)]
  · intro h
    rw [h]
  · refine ⟨_, rfl, ?_⟩
    cases dynCastConstant R with
    | none => exact ⟨rfl, Or.inl rfl⟩
    | some v =>
      simp only
      split
      · exact ⟨rfl, Or.inr rfl⟩
      · split
        · exact ⟨rfl, Or.inr rfl⟩
        · exact ⟨rfl, Or.inl rfl⟩

/-- Witness for C15: `c = 255` and `c = -255` fold, `c = 256` and `c = -256` do not. -/
theorem SelectAddrMode3_add_imm8_witness :
    SelectAddrMode3 sampleAM (getRegister 1)
        (.mk .ADD [getRegister 1, .mk (.Constant 255) [] 0] 0) =
      some (.matched ⟨getRegister 1, getRegister 0,
        getTargetConstant (sampleAM.getAM3Opc .add (toInt32 255).toNat)⟩) ∧
    SelectAddrMode3 sampleAM (getRegister 1)
        (.mk .ADD [getRegister 1, .mk (.Constant 4294967041) [] 0] 0) =
      some (.matched ⟨getRegister 1, getRegister 0,
        getTargetConstant (sampleAM.getAM3Opc .sub (-(toInt32 4294967041)).toNat)⟩) ∧
    SelectAddrMode3 sampleAM (getRegister 1)
        (.mk .ADD [getRegister 1, .mk (.Constant 256) [] 0] 0) =
      some (.matched ⟨getRegister 1, .mk (.Constant 256) [] 0,
        getTargetConstant (sampleAM.getAM3Opc .add 0)⟩) ∧
    SelectAddrMode3 sampleAM (getRegister 1)
        (.mk .ADD [getRegister 1, .mk (.Constant 4294967040) [] 0] 0) =
      some (.matched ⟨getRegister 1, .mk (.Constant 4294967040) [] 0,
        getTargetConstant (sampleAM.getAM3Opc .add 0)⟩) :=
  ⟨(SelectAddrMode3_add_imm8 sampleAM (getRegister 1) (getRegister 1)
      (.mk (.Constant 255) [] 0) 0).1 255 rfl (by decide) (by decide),
   (SelectAddrMode3_add_imm8 sampleAM (getRegister 1) (getRegister 1)
      (.mk (.Constant 4294967041) [] 0) 0).2.1 4294967041 rfl (by decide) (by decide),
   (SelectAddrMode3_add_imm8 sampleAM (getRegister 1) (getRegister 1)
      (.mk (.Constant 256) [] 0) 0).2.2.1 256 rfl (Or.inl (by decide)),
   (SelectAddrMode3_add_imm8 sampleAM (getRegister 1) (getRegister 1)
      (.mk (.Constant 4294967040) [] 0) 0).2.2.1 4294967040 rfl (Or.inr (by decide))⟩

/-- C16: `SelectAddrMode2Offset` on an indexed load or store `Op` and offset `N`.  The
direction `dir` encoded in `Opc` is `add` when the addressing mode of `Op` is
`PRE_INC` or `POST_INC` and `sub` when it is `PRE_DEC` or `POST_DEC`, whatever `N`
is.  If `N` is a constant `c` with `0 ≤ c < 4096`, `Offset` is the null register and
`Opc = getAM2Opc(dir, c, no_shift)`; otherwise, if `N` is a shift node with constant
amount `s`, `Offset` is operand 0 of `N` and `Opc = getAM2Opc(dir, s, kind of N)`;
otherwise `Offset = N` and `Opc = getAM2Opc(dir, 0, no_shift)`. -/
theorem SelectAddrMode2Offset_cases (AM : ARM_AM) (Op N : SDOperand)
    (Mode : MemIndexedMode) (dir : AddrOpc) (hOp : getAddressingMode Op = some Mode)
    (hdir : ((Mode = .PRE_INC ∨ Mode = .POST_INC) ∧ dir = .add) ∨
      ((Mode = .PRE_DEC ∨ Mode = .POST_DEC) ∧ dir = .sub)) :
    (∀ c, dynCastConstant N = some c → 0 ≤ toInt32 c → toInt32 c < 4096 →
      SelectAddrMode2Offset AM Op N =
        some (.matched ⟨getRegister 0,
          getTargetConstant (AM.getAM2Opc dir (toInt32 c).toNat .no_shift)⟩)) ∧
    (¬ (∃ c, dynCastConstant N = some c ∧ 0 ≤ toInt32 c ∧ toInt32 c < 4096) →
      (∀ X Sh s, AM.getShiftOpcForNode N ≠ .no_shift → N.getOperand 0 = some X →
        N.getOperand 1 = some Sh → dynCastConstant Sh = some s →
        SelectAddrMode2Offset AM Op N =
          some (.matched ⟨X,
            getTargetConstant
              (AM.getAM2Opc dir (s % 2 ^ 32) (AM.getShiftOpcForNode N))⟩)) ∧
      (AM.getShiftOpcForNode N = .no_shift ∨
          (∃ Sh, N.getOperand 1 = some Sh ∧ dynCastConstant Sh = none) →
        SelectAddrMode2Offset AM Op N =
          some (.matched ⟨N, getTargetConstant (AM.getAM2Opc dir 0 .no_shift)⟩))) := by
  have hd : addSubOfMode Mode = dir := by
    rcases hdir with ⟨hm, rfl⟩ | ⟨hm, rfl⟩
    · rcases hm with rfl | rfl <;> rfl
    · rcases hm with rfl | rfl <;> rfl
  constructor
  · intro c hc h0 h1
    have hu : toUInt32 (toInt32 c) = (toInt32 c).toNat :=
      toUInt32_of_nonneg _ h0 (by omega)
    simp [SelectAddrMode2Offset, hOp, hd, hc, h0, h1, hu]
  · intro hnc
    have himm : (match dynCastConstant N with
        | some v =>
          if toInt32 v ≥ 0 ∧ toInt32 v < 0x1000 then
            some (OffsetOpc.mk (getRegister 0)
              (getTargetConstant (AM.getAM2Opc dir (toUInt32 (toInt32 v)) .no_shift)))
          else none
        | none => none) = none := by
      cases hc : dynCastConstant N with
      | none => rfl
      | some v =>
        simp only
        rw [if_neg]
        rintro ⟨h0, h1⟩
        exact hnc ⟨v, hc, h0, by omega⟩
    constructor
    · intro X Sh s hk h0 h1 hs
      simp only [SelectAddrMode2Offset, hOp, hd, Option.bind_eq_bind, Option.some_bind,
        himm]
      simp [hk, h0, h1, hs]
    · intro h
      simp only [SelectAddrMode2Offset, hOp, hd, Option.bind_eq_bind, Option.some_bind,
        himm]
      rcases h with hk | ⟨Sh, h1, hs⟩
      · simp [hk]
      · by_cases hk : AM.getShiftOpcForNode N = .no_shift
        · simp [hk]
        · simp [hk, h1, hs]

/-- Witness for C16: a pre-decrement load with offset `shl(r2, 3)` encodes
`(sub, 3, lsl)` with offset register `r2`; a post-increment load with offset
`sub(r2, r3)` encodes `add` and keeps the subtract node as offset. -/
theorem SelectAddrMode2Offset_cases_witness :
    SelectAddrMode2Offset sampleAM
        (.mk (.LOAD .PRE_DEC .i32 .NON_EXTLOAD)
          [getEntryNode, getRegister 1, .mk .SHL [getRegister 2, .mk (.Constant 3) [] 0] 0]
          0)
        (.mk .SHL [getRegister 2, .mk (.Constant 3) [] 0] 0) =
      some (.matched ⟨getRegister 2,
        getTargetConstant (sampleAM.getAM2Opc .sub (3 % 2 ^ 32)
          (sampleAM.getShiftOpcForNode
            (.mk .SHL [getRegister 2, .mk (.Constant 3) [] 0] 0)))⟩) ∧
    SelectAddrMode2Offset sampleAM
        (.mk (.LOAD .POST_INC .i32 .NON_EXTLOAD)
          [getEntryNode, getRegister 1, .mk .SUB [getRegister 2, getRegister 3] 0] 0)
        (.mk .SUB [getRegister 2, getRegister 3] 0) =
      some (.matched ⟨.mk .SUB [getRegister 2, getRegister 3] 0,
        getTargetConstant (sampleAM.getAM2Opc .add 0 .no_shift)⟩) :=
  ⟨((SelectAddrMode2Offset_cases sampleAM
      (.mk (.LOAD .PRE_DEC .i32 .NON_EXTLOAD)
        [getEntryNode, getRegister 1, .mk .SHL [getRegister 2, .mk (.Constant 3) [] 0] 0]
        0)
      (.mk .SHL [getRegister 2, .mk (.Constant 3) [] 0] 0) .PRE_DEC .sub rfl
      (Or.inr ⟨Or.inl rfl, rfl⟩)).2
      (by rintro ⟨c, hc, -⟩; cases hc)).1
      (getRegister 2) (.mk (.Constant 3) [] 0) 3 (by decide) rfl rfl rfl,
   ((SelectAddrMode2Offset_cases sampleAM
      (.mk (.LOAD .POST_INC .i32 .NON_EXTLOAD)
        [getEntryNode, getRegister 1, .mk .SUB [getRegister 2, getRegister 3] 0] 0)
      (.mk .SUB [getRegister 2, getRegister 3] 0) .POST_INC .add rfl
      (Or.inl ⟨Or.inr rfl, rfl⟩)).2
      (by rintro ⟨c, hc, -⟩; cases hc)).2 (Or.inl (by decide))⟩

/-- `SelectAddrMode3Offset` matches every offset of a load or store. -/
theorem SelectAddrMode3Offset_matched (AM : ARM_AM) (Op N : SDOperand)
    (Mode : MemIndexedMode) (hOp : getAddressingMode Op = some Mode) :
    ∃ m, SelectAddrMode3Offset AM Op N = some (.matched m) := by
  simp only [SelectAddrMode3Offset, hOp, Option.bind_eq_bind, Option.some_bind]
  split
  · exact ⟨_, rfl⟩
  · exact ⟨_, rfl⟩

/-- `SelectAddrMode2Offset` matches every offset of a load or store in which a shift
node carries its two operands. -/
theorem SelectAddrMode2Offset_matched (AM : ARM_AM) (Op N : SDOperand)
    (Mode : MemIndexedMode) (hOp : getAddressingMode Op = some Mode)
    (hwf : AM.getShiftOpcForNode N ≠ .no_shift →
      ∃ x y, N.getOperand 0 = some x ∧ N.getOperand 1 = some y) :
    ∃ m, SelectAddrMode2Offset AM Op N = some (.matched m) := by
  simp only [SelectAddrMode2Offset, hOp, Option.bind_eq_bind, Option.some_bind]
  split
  · exact ⟨_, rfl⟩
  · split
    · rename_i hk
      obtain ⟨x, y, hx, hy⟩ := hwf hk
      cases hd : dynCastConstant y <;> simp [hx, hy, hd]
    · exact ⟨_, rfl⟩

/-- C17: selection of an indexed load.  For a load `Op` with chain, base pointer and
offset as operands 0, 1, 2 and an addressing mode other than `UNINDEXED`, `Select`
returns a fresh machine node whose operands are `[base, Offset, Opc, chain]` with
`Offset`, `Opc` from the offset-only matcher: `i32` uses `SelectAddrMode2Offset` and
`LDR_PRE/POST`; `i16` uses `SelectAddrMode3Offset` and `LDRSH_PRE/POST` when
sign-extending, else `LDRH_PRE/POST`; `i8` and `i1` use `SelectAddrMode3Offset` and
`LDRSB_PRE/POST` when sign-extending, else `SelectAddrMode2Offset` and
`LDRB_PRE/POST`.  The `_PRE` opcode is chosen exactly for `PRE_INC`/`PRE_DEC`. -/
theorem Select_indexed_load (AM : ARM_AM) (isThumb : Bool) (Op Chain Base Off : SDOperand)
    (Mode : MemIndexedMode) (VT : ValueType) (Ext : LoadExtType) (r : Nat)
    (hOp : Op = .mk (.LOAD Mode VT Ext) [Chain, Base, Off] r)
    (hM : Mode ≠ .UNINDEXED)
    (hwf : AM.getShiftOpcForNode Off ≠ .no_shift →
      ∃ x y, Off.getOperand 0 = some x ∧ Off.getOperand 1 = some y) :
    (VT = .i32 →
      ∃ m, SelectAddrMode2Offset AM Op Off = some (.matched m) ∧
        Select AM isThumb Op =
          some (ReturnTargetNode
            (if Mode = .PRE_INC ∨ Mode = .PRE_DEC then .LDR_PRE else .LDR_POST)
            [Base, m.Offset, m.Opc, Chain] [Chain, Base, m.Offset])) ∧
    (VT = .i16 →
      ∃ m, SelectAddrMode3Offset AM Op Off = some (.matched m) ∧
        Select AM isThumb Op =
          some (ReturnTargetNode
            (if Ext = .SEXTLOAD
              then (if Mode = .PRE_INC ∨ Mode = .PRE_DEC then .LDRSH_PRE else .LDRSH_POST)
              else (if Mode = .PRE_INC ∨ Mode = .PRE_DEC then .LDRH_PRE else .LDRH_POST))
            [Base, m.Offset, m.Opc, Chain] [Chain, Base, m.Offset])) ∧
    (VT = .i8 ∨ VT = .i1 → Ext = .SEXTLOAD →
      ∃ m, SelectAddrMode3Offset AM Op Off = some (.matched m) ∧
        Select AM isThumb Op =
          some (ReturnTargetNode
            (if Mode = .PRE_INC ∨ Mode = .PRE_DEC then .LDRSB_PRE else .LDRSB_POST)
            [Base, m.Offset, m.Opc, Chain] [Chain, Base, m.Offset])) ∧
    (VT = .i8 ∨ VT = .i1 → Ext ≠ .SEXTLOAD →
      ∃ m, SelectAddrMode2Offset AM Op Off = some (.matched m) ∧
        Select AM isThumb Op =
          some (ReturnTargetNode
            (if Mode = .PRE_INC ∨ Mode = .PRE_DEC then .LDRB_PRE else .LDRB_POST)
            [Base, m.Offset, m.Opc, Chain] [Chain, Base, m.Offset])) := by
  have hmode : getAddressingMode Op = some Mode := by
    rw [hOp]; rfl
  have hk : Op.getOpcode = .LOAD Mode VT Ext := by rw [hOp]; rfl
  have h0 : Op.getOperand 0 = some Chain := by rw [hOp]; rfl
  have h1 : Op.getOperand 1 = some Base := by rw [hOp]; rfl
  have h2 : Op.getOperand 2 = some Off := by rw [hOp]; rfl
  obtain ⟨m2, hm2⟩ := SelectAddrMode2Offset_matched AM Op Off Mode hmode hwf
  obtain ⟨m3, hm3⟩ := SelectAddrMode3Offset_matched AM Op Off Mode hmode
  refine ⟨?_, ?_, ?_, ?_⟩
  · intro hVT
    refine ⟨m2, hm2, ?_⟩
    simp [Select, hk, Select.load, hM, hVT, h0, h1, h2, hm2]
  · intro hVT
    refine ⟨m3, hm3, ?_⟩
    simp [Select, hk, Select.load, hM, hVT, h0, h1, h2, hm3]
  · intro hVT hE
    refine ⟨m3, hm3, ?_⟩
    rcases hVT with hVT | hVT <;>
      simp [Select, hk, Select.load, hM, hVT, hE, h0, h1, h2, hm3]
  · intro hVT hE
    refine ⟨m2, hm2, ?_⟩
    rcases hVT with hVT | hVT <;>
      simp [Select, hk, Select.load, hM, hVT, hE, h0, h1, h2, hm2]

/-- Witness for C17: a sign-extending pre-increment halfword load with offset 4
becomes `LDRSH_PRE`, and a zero-extending post-decrement byte load `LDRB_POST`. -/
theorem Select_indexed_load_witness :
    (∃ m, SelectAddrMode3Offset sampleAM
          (.mk (.LOAD .PRE_INC .i16 .SEXTLOAD)
            [getEntryNode, getRegister 1, .mk (.Constant 4) [] 0] 0)
          (.mk (.Constant 4) [] 0) = some (.matched m) ∧
        Select sampleAM false
          (.mk (.LOAD .PRE_INC .i16 .SEXTLOAD)
            [getEntryNode, getRegister 1, .mk (.Constant 4) [] 0] 0) =
          some (ReturnTargetNode .LDRSH_PRE
            [getRegister 1, m.Offset, m.Opc, getEntryNode]
            [getEntryNode, getRegister 1, m.Offset])) ∧
    (∃ m, SelectAddrMode2Offset sampleAM
          (.mk (.LOAD .POST_DEC .i8 .ZEXTLOAD)
            [getEntryNode, getRegister 1, getRegister 2] 0)
          (getRegister 2) = some (.matched m) ∧
        Select sampleAM false
          (.mk (.LOAD .POST_DEC .i8 .ZEXTLOAD)
            [getEntryNode, getRegister 1, getRegister 2] 0) =
          some (ReturnTargetNode .LDRB_POST
            [getRegister 1, m.Offset, m.Opc, getEntryNode]
            [getEntryNode, getRegister 1, m.Offset])) :=
  ⟨(Select_indexed_load sampleAM false _ getEntryNode (getRegister 1)
      (.mk (.Constant 4) [] 0) .PRE_INC .i16 .SEXTLOAD 0 rfl (by decide)
      (fun h => absurd rfl h)).2.1 rfl,
   (Select_indexed_load sampleAM false _ getEntryNode (getRegister 1)
      (getRegister 2) .POST_DEC .i8 .ZEXTLOAD 0 rfl (by decide)
      (fun h => absurd rfl h)).2.2.2 (Or.inl rfl) (by decide)⟩

/-- Masking a shift amount with 31 keeps it modulo 32. -/
theorem and_31_mod (v : Nat) : (v &&& 31) % 2 ^ 32 = v % 32 := by
  have h : v &&& 31 = v % 32 := Nat.and_pow_two_sub_one_eq_mod v 5
  rw [h]
  omega

/-- C18: `SelectShifterOperandReg` declines exactly when `getShiftOpcForNode(N)` is
`no_shift`.  Otherwise `BaseReg` is operand 0 of `N`; if the shift amount (operand 1)
is a constant `s`, `ShReg` is the null register and `Opc = getSORegOpc(kind, s mod 32)`,
an amount in `[0, 32)`; if it is not a constant, `ShReg` is operand 1 and
`Opc = getSORegOpc(kind, 0)`. -/
theorem SelectShifterOperandReg_cases (AM : ARM_AM) (Op N : SDOperand) :
    (SelectShifterOperandReg AM Op N = some .declined ↔
      AM.getShiftOpcForNode N = .no_shift) ∧
    (∀ X Sh s, AM.getShiftOpcForNode N ≠ .no_shift → N.getOperand 0 = some X →
      N.getOperand 1 = some Sh → dynCastConstant Sh = some s →
      SelectShifterOperandReg AM Op N =
        some (.matched ⟨X, getRegister 0,
          getTargetConstant (AM.getSORegOpc (AM.getShiftOpcForNode N) (s % 32))⟩) ∧
      s % 32 < 32) ∧
    (∀ X Sh, AM.getShiftOpcForNode N ≠ .no_shift → N.getOperand 0 = some X →
      N.getOperand 1 = some Sh → dynCastConstant Sh = none →
      SelectShifterOperandReg AM Op N =
        some (.matched ⟨X, Sh,
          getTargetConstant (AM.getSORegOpc (AM.getShiftOpcForNode N) 0)⟩)) := by
  refine ⟨⟨?_, ?_⟩, ?_, ?_⟩
  · intro h
    by_contra hk
    simp only [SelectShifterOperandReg, if_neg hk] at h
    cases h0 : N.getOperand 0 with
    | none => simp [h0] at h
    | some X =>
      cases h1 : N.getOperand 1 with
      | none => simp [h0, h1] at h
      | some Sh =>
        cases hs : dynCastConstant Sh <;> simp [h0, h1, hs] at h
  · intro hk
    simp [SelectShifterOperandReg, hk]
  · intro X Sh s hk h0 h1 hs
    refine ⟨?_, Nat.mod_lt _ (by norm_num)⟩
    simp only [SelectShifterOperandReg, if_neg hk, h0, h1, hs, Option.bind_eq_bind,
      Option.some_bind, and_31_mod]
    rfl
  · intro X Sh hk h0 h1 hs
    simp only [SelectShifterOperandReg, if_neg hk, h0, h1, hs, Option.bind_eq_bind,
      Option.some_bind]
    rfl

/-- Witness for C18: `shl(r1, 35)` folds the amount `35 mod 32 = 3`, and `srl(r1, r2)`
passes the amount register through. -/
theorem SelectShifterOperandReg_cases_witness :
    SelectShifterOperandReg sampleAM (getRegister 1)
        (.mk .SHL [getRegister 1, .mk (.Constant 35) [] 0] 0) =
      some (.matched ⟨getRegister 1, getRegister 0,
        getTargetConstant (sampleAM.getSORegOpc
          (sampleAM.getShiftOpcForNode
            (.mk .SHL [getRegister 1, .mk (.Constant 35) [] 0] 0)) (35 % 32))⟩) ∧
    SelectShifterOperandReg sampleAM (getRegister 1)
        (.mk .SRL [getRegister 1, getRegister 2] 0) =
      some (.matched ⟨getRegister 1, getRegister 2,
        getTargetConstant (sampleAM.getSORegOpc
          (sampleAM.getShiftOpcForNode (.mk .SRL [getRegister 1, getRegister 2] 0)) 0)⟩) :=
  ⟨((SelectShifterOperandReg_cases sampleAM (getRegister 1)
      (.mk .SHL [getRegister 1, .mk (.Constant 35) [] 0] 0)).2.1
      (getRegister 1) (.mk (.Constant 35) [] 0) 35 (by decide) rfl rfl rfl).1,
   (SelectShifterOperandReg_cases sampleAM (getRegister 1)
      (.mk .SRL [getRegister 1, getRegister 2] 0)).2.2
      (getRegister 1) (getRegister 2) (by decide) rfl rfl rfl⟩

/-- C19: shift-folding order of `SelectAddrMode2` on `N = add(N0, N1)` or
`sub(N0, N1)`.  (1) When the right operand is a shift by a constant `s`, it is
folded, `Base = N0`, `Offset` = the right shift's input,
`Opc = getAM2Opc(dir, s, kind)`, even when the left operand is also a constant-amount
shift.  (2) A left-operand shift by a constant is folded when `N` is an add and the
right operand gave neither an immediate nor a foldable shift, and then the operands
swap roles: `Base = N1`, `Offset` = the left shift's input.  (3) For a sub whose right
operand gives no foldable shift the result is `Base = N0`, `Offset = N1`,
`Opc = getAM2Opc(sub, 0, no_shift)` whatever the left operand is: a shift there is
never folded.  The hypothesis on the encoder says that a shift node is never a
constant node. -/
theorem SelectAddrMode2_shift_order (AM : ARM_AM) (Op N0 N1 : SDOperand) (r : Nat)
    (hsh : ∀ V, AM.getShiftOpcForNode V ≠ .no_shift → dynCastConstant V = none) :
    (∀ (k : NodeKind) (X Sh : SDOperand) (s : Nat), k = .ADD ∨ k = .SUB →
      AM.getShiftOpcForNode N1 ≠ .no_shift → N1.getOperand 0 = some X →
      N1.getOperand 1 = some Sh → dynCastConstant Sh = some s →
      SelectAddrMode2 AM Op (.mk k [N0, N1] r) =
        some (.matched ⟨N0, X,
          getTargetConstant (AM.getAM2Opc (if k = .ADD then .add else .sub)
            (s % 2 ^ 32) (AM.getShiftOpcForNode N1))⟩)) ∧
    (∀ (X Sh : SDOperand) (s : Nat),
      (¬ ∃ c, dynCastConstant N1 = some c ∧ -4096 < toInt32 c ∧ toInt32 c < 4096) →
      (AM.getShiftOpcForNode N1 = .no_shift ∨
        ∃ Sh1, N1.getOperand 1 = some Sh1 ∧ dynCastConstant Sh1 = none) →
      AM.getShiftOpcForNode N0 ≠ .no_shift → N0.getOperand 0 = some X →
      N0.getOperand 1 = some Sh → dynCastConstant Sh = some s →
      SelectAddrMode2 AM Op (.mk .ADD [N0, N1] r) =
        some (.matched ⟨N1, X,
          getTargetConstant
            (AM.getAM2Opc .add (s % 2 ^ 32) (AM.getShiftOpcForNode N0))⟩)) ∧
    ((AM.getShiftOpcForNode N1 = .no_shift ∨
        ∃ Sh1, N1.getOperand 1 = some Sh1 ∧ dynCastConstant Sh1 = none) →
      SelectAddrMode2 AM Op (.mk .SUB [N0, N1] r) =
        some (.matched ⟨N0, N1, getTargetConstant (AM.getAM2Opc .sub 0 .no_shift)⟩)) := by
  refine ⟨?_, ?_, ?_⟩
  · intro k X Sh s hk hs1 h0 h1 hc
    have hN1 : dynCastConstant N1 = none := hsh N1 hs1
    have himm : SelectAddrMode2.imm12 AM N0 N1 = none := by
      simp [SelectAddrMode2.imm12, hN1]
    have hreg : SelectAddrMode2.regForm AM (.mk k [N0, N1] r) N0 N1 =
        some ⟨N0, X, (if k = .ADD then .add else .sub), s % 2 ^ 32,
          AM.getShiftOpcForNode N1⟩ := by
      simp [SelectAddrMode2.regForm, SelectAddrMode2.foldRHS, SelectAddrMode2.foldLHS,
        hs1, h0, h1, hc, SDOperand.getOpcode]
    rw [SelectAddrMode2_addsub AM Op N0 N1 k r hk]
    simp [himm, hreg]
  · intro X Sh s hnimm hR hs0 h0 h1 hc
    have himm : SelectAddrMode2.imm12 AM N0 N1 = none := by
      unfold SelectAddrMode2.imm12
      cases hd : dynCastConstant N1 with
      | none => rfl
      | some c =>
        simp only
        rw [if_neg, if_neg]
        · rintro ⟨ha, hb⟩
          exact hnimm ⟨c, hd, hb, by omega⟩
        · rintro ⟨ha, hb⟩
          exact hnimm ⟨c, hd, by omega, by omega⟩
    have hreg : SelectAddrMode2.regForm AM (.mk .ADD [N0, N1] r) N0 N1 =
        some ⟨N1, X, .add, s % 2 ^ 32, AM.getShiftOpcForNode N0⟩ := by
      rcases hR with hR | ⟨Sh1, hS1, hS1c⟩
      · simp [SelectAddrMode2.regForm, SelectAddrMode2.foldRHS, SelectAddrMode2.foldLHS,
          hR, hs0, h0, h1, hc, SDOperand.getOpcode]
      · by_cases hR : AM.getShiftOpcForNode N1 = .no_shift
        · simp [SelectAddrMode2.regForm, SelectAddrMode2.foldRHS,
            SelectAddrMode2.foldLHS, hR, hs0, h0, h1, hc, SDOperand.getOpcode]
        · simp [SelectAddrMode2.regForm, SelectAddrMode2.foldRHS,
            SelectAddrMode2.foldLHS, hR, hS1, hS1c, hs0, h0, h1, hc, SDOperand.getOpcode]
    rw [SelectAddrMode2_addsub AM Op N0 N1 .ADD r (Or.inl rfl)]
    simp [himm, hreg]
  · intro hR
    have hreg : SelectAddrMode2.regForm AM (.mk .SUB [N0, N1] r) N0 N1 =
        some ⟨N0, N1, .sub, 0, .no_shift⟩ := by
      rcases hR with hR | ⟨Sh1, hS1, hS1c⟩
      · simp [SelectAddrMode2.regForm, SelectAddrMode2.foldRHS, SelectAddrMode2.foldLHS,
          hR, SDOperand.getOpcode]
      · by_cases hR : AM.getShiftOpcForNode N1 = .no_shift
        · simp [SelectAddrMode2.regForm, SelectAddrMode2.foldRHS,
            SelectAddrMode2.foldLHS, hR, SDOperand.getOpcode]
        · simp [SelectAddrMode2.regForm, SelectAddrMode2.foldRHS,
            SelectAddrMode2.foldLHS, hR, hS1, hS1c, SDOperand.getOpcode]
    rw [SelectAddrMode2_addsub AM Op N0 N1 .SUB r (Or.inr rfl)]
    simp [hreg]

/-- Witness for C19: in `add(shl(r1, 2), shl(r2, 3))` the right shift is folded; in
`add(shl(r1, 2), r2)` the left one is, with the operands swapped; in
`sub(shl(r1, 2), r2)` nothing is folded. -/
theorem SelectAddrMode2_shift_order_witness :
    SelectAddrMode2 sampleAM (getRegister 1)
        (.mk .ADD [.mk .SHL [getRegister 1, .mk (.Constant 2) [] 0] 0,
          .mk .SHL [getRegister 2, .mk (.Constant 3) [] 0] 0] 0) =
      some (.matched ⟨.mk .SHL [getRegister 1, .mk (.Constant 2) [] 0] 0, getRegister 2,
        getTargetConstant (sampleAM.getAM2Opc .add (3 % 2 ^ 32) .lsl)⟩) ∧
    SelectAddrMode2 sampleAM (getRegister 1)
        (.mk .ADD [.mk .SHL [getRegister 1, .mk (.Constant 2) [] 0] 0, getRegister 2] 0) =
      some (.matched ⟨getRegister 2, getRegister 1,
        getTargetConstant (sampleAM.getAM2Opc .add (2 % 2 ^ 32) .lsl)⟩) ∧
    SelectAddrMode2 sampleAM (getRegister 1)
        (.mk .SUB [.mk .SHL [getRegister 1, .mk (.Constant 2) [] 0] 0, getRegister 2] 0) =
      some (.matched ⟨.mk .SHL [getRegister 1, .mk (.Constant 2) [] 0] 0, getRegister 2,
        getTargetConstant (sampleAM.getAM2Opc .sub 0 .no_shift)⟩) :=
  ⟨(SelectAddrMode2_shift_order sampleAM (getRegister 1)
      (.mk .SHL [getRegister 1, .mk (.Constant 2) [] 0] 0)
      (.mk .SHL [getRegister 2, .mk (.Constant 3) [] 0] 0) 0
      sampleAM_shift_not_constant).1 .ADD (getRegister 2) (.mk (.Constant 3) [] 0) 3
      (Or.inl rfl) (by decide) rfl rfl rfl,
   (SelectAddrMode2_shift_order sampleAM (getRegister 1)
      (.mk .SHL [getRegister 1, .mk (.Constant 2) [] 0] 0) (getRegister 2) 0
      sampleAM_shift_not_constant).2.1 (getRegister 1) (.mk (.Constant 2) [] 0) 2
      (by rintro ⟨c, hc, -⟩; cases hc) (Or.inl (by decide)) (by decide) rfl rfl rfl,
   (SelectAddrMode2_shift_order sampleAM (getRegister 1)
      (.mk .SHL [getRegister 1, .mk (.Constant 2) [] 0] 0) (getRegister 2) 0
      sampleAM_shift_not_constant).2.2 (Or.inl (by decide))⟩

/-- C20: `SelectAddrMode3` on a bare subtract.  For every `N = sub(X, Y)`, whatever `Y`
is (a constant inside `(-256, 256)` included), the result is `Base = X`, `Offset = Y`,
`Opc = getAM3Opc(sub, 0)`. -/
theorem SelectAddrMode3_sub (AM : ARM_AM) (Op X Y : SDOperand) (r : Nat) :
    SelectAddrMode3 AM Op (.mk .SUB [X, Y] r) =
      some (.matched ⟨X, Y, getTargetConstant (AM.getAM3Opc .sub 0)⟩) := by
  simp [SelectAddrMode3, SDOperand.getOpcode, SDOperand.getOperand, SDOperand.operands]

/-- `SelectThumbAddrModeRI5.rest` on `add(X, R)` with `R` a constant. -/
theorem RI5_rest_add_const (X R : SDOperand) (r v Scale : Nat)
    (hd : dynCastConstant R = some v) (hS : Scale ≠ 0) :
    SelectThumbAddrModeRI5.rest (.mk .ADD [X, R] r) Scale =
      some (.matched
        (if toUInt32 (toInt32 v) &&& ((Scale + 2 ^ 32 - 1) % 2 ^ 32) = 0 ∧
            0 ≤ toInt32 (toUInt32 (toInt32 v) / Scale) ∧
            toInt32 (toUInt32 (toInt32 v) / Scale) < 32 then
          ⟨X, getRegister 0,
            getTargetConstant (toUInt64 (toInt32 (toUInt32 (toInt32 v) / Scale)))⟩
        else ⟨X, R, getTargetConstant 0⟩)) := by
  by_cases hm : toUInt32 (toInt32 v) &&& ((Scale + 4294967295) % 4294967296) = 0
  · by_cases hr : 0 ≤ toInt32 (toUInt32 (toInt32 v) / Scale) ∧
        toInt32 (toUInt32 (toInt32 v) / Scale) < 32
    · simp [SelectThumbAddrModeRI5.rest, SDOperand.getOpcode, SDOperand.getOperand,
        SDOperand.operands, hd, hm, hS, hr]
    · simp [SelectThumbAddrModeRI5.rest, SDOperand.getOpcode, SDOperand.getOperand,
        SDOperand.operands, hd, hm, hS, hr]
  · simp [SelectThumbAddrModeRI5.rest, SDOperand.getOpcode, SDOperand.getOperand,
      SDOperand.operands, hd, hm]

/-- For `Scale` 1, 2 or 4 the folding test of `SelectThumbAddrModeRI5` (mask, unsigned
division, range check) holds exactly of a non-negative multiple of `Scale` below
`32 * Scale`, and the folded immediate is then the quotient. -/
theorem RI5_fold_cond (v Scale : Nat) (hS : Scale = 1 ∨ Scale = 2 ∨ Scale = 4) :
    ((toUInt32 (toInt32 v) &&& ((Scale + 2 ^ 32 - 1) % 2 ^ 32) = 0 ∧
        0 ≤ toInt32 (toUInt32 (toInt32 v) / Scale) ∧
        toInt32 (toUInt32 (toInt32 v) / Scale) < 32) ↔
      (0 ≤ toInt32 v ∧ toInt32 v % (Scale : Int) = 0 ∧ toInt32 v < 32 * (Scale : Int))) ∧
    (0 ≤ toInt32 v → toInt32 v < 32 * (Scale : Int) →
      toUInt64 (toInt32 (toUInt32 (toInt32 v) / Scale)) =
        (toInt32 v / (Scale : Int)).toNat ∧
      (toInt32 v / (Scale : Int)).toNat < 32) := by
  rw [toUInt32_toInt32]
  have hu : v % 2 ^ 32 < 2 ^ 32 := Nat.mod_lt _ (by norm_num)
  have h1 : (v % 2 ^ 32) &&& 1 = (v % 2 ^ 32) % 2 :=
    Nat.and_pow_two_sub_one_eq_mod (v % 2 ^ 32) 1
  have h3 : (v % 2 ^ 32) &&& 3 = (v % 2 ^ 32) % 4 :=
    Nat.and_pow_two_sub_one_eq_mod (v % 2 ^ 32) 2
  rcases hS with rfl | rfl | rfl
  · have hmask : (1 + 2 ^ 32 - 1) % 2 ^ 32 = 0 := by norm_num
    rw [hmask, Nat.and_zero]
    unfold toInt32 toUInt64
    constructor
    · split <;> split <;> omega
    · intro h0 h1
      split <;> split at h0 <;> omega
  · have hmask : (2 + 2 ^ 32 - 1) % 2 ^ 32 = 1 := by norm_num
    rw [hmask, h1]
    unfold toInt32 toUInt64
    constructor
    · split <;> split <;> omega
    · intro h0 h1
      split <;> split at h0 <;> omega
  · have hmask : (4 + 2 ^ 32 - 1) % 2 ^ 32 = 3 := by norm_num
    rw [hmask, h3]
    unfold toInt32 toUInt64
    constructor
    · split <;> split <;> omega
    · intro h0 h1
      split <;> split at h0 <;> omega

/-- A match of `SelectThumbAddrModeRI5` is a match of the part past the stack-pointer
check. -/
theorem RI5_matched_rest (Op N : SDOperand) (Scale : Nat) (out : BaseOffsetOffImm)
    (h : SelectThumbAddrModeRI5 Op N Scale = some (.matched out)) :
    SelectThumbAddrModeRI5.rest N Scale = some (.matched out) := by
  unfold SelectThumbAddrModeRI5 at h
  by_cases hS : Scale = 4
  · cases hsp : SelectThumbAddrModeSP Op N with
    | none => simp [hS, hsp] at h
    | some res =>
      cases res with
      | matched o => simp [hS, hsp] at h
      | declined =>
        subst hS
        simpa [hsp] using h
  · simpa [hS] using h

/-- When `SelectThumbAddrModeRI5` does not decline a two-operand add, it is the part
past the stack-pointer check. -/
theorem RI5_eq_rest_of_not_declined (Op X R : SDOperand) (r Scale : Nat)
    (hnd : SelectThumbAddrModeRI5 Op (.mk .ADD [X, R] r) Scale ≠ some .declined) :
    SelectThumbAddrModeRI5 Op (.mk .ADD [X, R] r) Scale =
      SelectThumbAddrModeRI5.rest (.mk .ADD [X, R] r) Scale := by
  by_cases hS : Scale = 4
  · subst hS
    have hsp := SelectThumbAddrModeSP_add Op (.mk .ADD [X, R] r) X R rfl rfl rfl
    unfold SelectThumbAddrModeRI5 at hnd ⊢
    generalize (match X.getOpcode with
      | .FrameIndex FI =>
        match dynCastConstant R with
        | some v =>
          if toInt32 v % 4 = 0 ∧ 0 ≤ toInt32 v / 4 ∧ toInt32 v / 4 < 256 then
            MatchResult.matched (BaseOffImm.mk (getTargetFrameIndex FI)
              (getTargetConstant (toInt32 v / 4).toNat))
          else .declined
        | none => .declined
      | _ => .declined) = res at hsp
    cases res with
    | matched o => simp [hsp] at hnd
    | declined => simp [hsp]
  · simp [SelectThumbAddrModeRI5, hS]

/-- Every immediate emitted past the stack-pointer check is below 32. -/
theorem RI5_rest_OffImm_lt (N : SDOperand) (Scale : Nat) (out : BaseOffsetOffImm)
    (h : SelectThumbAddrModeRI5.rest N Scale = some (.matched out)) :
    ∃ v, out.OffImm = getTargetConstant v ∧ v < 32 := by
  unfold SelectThumbAddrModeRI5.rest at h
  split at h
  · split at h
    · cases h0 : N.getOperand 0 with
      | none => simp [h0] at h
      | some x =>
        simp [h0] at h
        subst h
        exact ⟨0, rfl, by norm_num⟩
    · simp at h
      subst h
      exact ⟨0, rfl, by norm_num⟩
  · cases h1 : N.getOperand 1 with
    | none => simp [h1] at h
    | some N1 =>
      cases h0 : N.getOperand 0 with
      | none => simp [h1, h0] at h
      | some N0 =>
        simp only [h1, h0, Option.bind_eq_bind, Option.some_bind, Option.pure_def] at h
        split at h
        · split at h
          · split at h
            · simp at h
            · split at h
              · rename_i hr
                simp at h
                subst h
                refine ⟨_, rfl, ?_⟩
                unfold toUInt64
                omega
              · simp at h
                subst h
                exact ⟨0, rfl, by norm_num⟩
          · simp at h
            subst h
            exact ⟨0, rfl, by norm_num⟩
        · simp at h
          subst h
          exact ⟨0, rfl, by norm_num⟩

/-- C21: immediate folding of `SelectThumbAddrModeRI5`, for `Scale` 1, 2 or 4 and
`N = add(X, Constant c)` on which the matcher does not decline.  The immediate form
`Base = X`, `Offset` = null register, `OffImm = c/Scale` is produced exactly when `c`
(signed 32-bit) is non-negative, a multiple of `Scale` and below `32 * Scale`; in every
other case, so for every negative `c`, the result is `Base = X`, `Offset` = operand 1
of `N`, `OffImm = 0`.  Every `OffImm` the matcher emits, on any input, is below 32. -/
theorem SelectThumbAddrModeRI5_imm (Op X R : SDOperand) (r c Scale : Nat)
    (hS : Scale = 1 ∨ Scale = 2 ∨ Scale = 4) (hR : R.getOpcode = .Constant c)
    (hnd : SelectThumbAddrModeRI5 Op (.mk .ADD [X, R] r) Scale ≠ some .declined) :
    (SelectThumbAddrModeRI5 Op (.mk .ADD [X, R] r) Scale =
        some (.matched ⟨X, getRegister 0,
          getTargetConstant (toInt32 c / (Scale : Int)).toNat⟩) ↔
      (0 ≤ toInt32 c ∧ toInt32 c % (Scale : Int) = 0 ∧ toInt32 c < 32 * (Scale : Int))) ∧
    (¬ (0 ≤ toInt32 c ∧ toInt32 c % (Scale : Int) = 0 ∧ toInt32 c < 32 * (Scale : Int)) →
      SelectThumbAddrModeRI5 Op (.mk .ADD [X, R] r) Scale =
        some (.matched ⟨X, R, getTargetConstant 0⟩)) ∧
    (toInt32 c < 0 →
      SelectThumbAddrModeRI5 Op (.mk .ADD [X, R] r) Scale =
        some (.matched ⟨X, R, getTargetConstant 0⟩)) ∧
    (∀ (N2 : SDOperand) (out : BaseOffsetOffImm),
      SelectThumbAddrModeRI5 Op N2 Scale = some (.matched out) →
      ∃ v, out.OffImm = getTargetConstant v ∧ v < 32) := by
  have hdc : dynCastConstant R = some c := by simp [dynCastConstant, hR]
  have hS0 : Scale ≠ 0 := by rcases hS with rfl | rfl | rfl <;> norm_num
  obtain ⟨hiff, hval⟩ := RI5_fold_cond c Scale hS
  have hrest := RI5_rest_add_const X R r c Scale hdc hS0
  rw [RI5_eq_rest_of_not_declined Op X R r Scale hnd, hrest]
  have hneg : ¬ (0 ≤ toInt32 c ∧ toInt32 c % (Scale : Int) = 0 ∧
        toInt32 c < 32 * (Scale : Int)) →
      some (MatchResult.matched
        (if toUInt32 (toInt32 c) &&& ((Scale + 2 ^ 32 - 1) % 2 ^ 32) = 0 ∧
            0 ≤ toInt32 (toUInt32 (toInt32 c) / Scale) ∧
            toInt32 (toUInt32 (toInt32 c) / Scale) < 32 then
          (⟨X, getRegister 0,
            getTargetConstant (toUInt64 (toInt32 (toUInt32 (toInt32 c) / Scale)))⟩ :
              BaseOffsetOffImm)
        else ⟨X, R, getTargetConstant 0⟩)) =
      some (.matched ⟨X, R, getTargetConstant 0⟩) := by
    intro hc
    rw [if_neg (fun h => hc (hiff.1 h))]
  have hRne : R ≠ getRegister 0 := by
    intro h
    rw [h] at hR
    cases hR
  refine ⟨⟨?_, ?_⟩, hneg, ?_, ?_⟩
  · intro h
    by_contra hc
    rw [hneg hc] at h
    simp only [Option.some.injEq, MatchResult.matched.injEq, BaseOffsetOffImm.mk.injEq] at h
    exact hRne h.2.1
  · intro hc
    rw [if_pos (hiff.2 hc), (hval hc.1 hc.2.2).1]
  · intro hlt
    exact hneg (fun h => by omega)
  · intro N2 out h
    exact RI5_rest_OffImm_lt N2 Scale out (RI5_matched_rest Op N2 Scale out h)

/-- Witness for C21: with scale 2, `add(r1, 62)` folds to `OffImm = 31`, while
`add(r1, 64)`, `add(r1, 3)` and `add(r1, -2)` keep the constant as offset register. -/
theorem SelectThumbAddrModeRI5_imm_witness :
    SelectThumbAddrModeRI5 (getRegister 1)
        (.mk .ADD [getRegister 1, .mk (.Constant 62) [] 0] 0) 2 =
      some (.matched ⟨getRegister 1, getRegister 0,
        getTargetConstant (toInt32 62 / ((2 : Nat) : Int)).toNat⟩) ∧
    SelectThumbAddrModeRI5 (getRegister 1)
        (.mk .ADD [getRegister 1, .mk (.Constant 64) [] 0] 0) 2 =
      some (.matched ⟨getRegister 1, .mk (.Constant 64) [] 0, getTargetConstant 0⟩) ∧
    SelectThumbAddrModeRI5 (getRegister 1)
        (.mk .ADD [getRegister 1, .mk (.Constant 3) [] 0] 0) 2 =
      some (.matched ⟨getRegister 1, .mk (.Constant 3) [] 0, getTargetConstant 0⟩) ∧
    SelectThumbAddrModeRI5 (getRegister 1)
        (.mk .ADD [getRegister 1, .mk (.Constant 4294967294) [] 0] 0) 2 =
      some (.matched ⟨getRegister 1, .mk (.Constant 4294967294) [] 0,
        getTargetConstant 0⟩) :=
  ⟨(SelectThumbAddrModeRI5_imm (getRegister 1) (getRegister 1)
      (.mk (.Constant 62) [] 0) 0 62 2 (Or.inr (Or.inl rfl)) rfl (by decide)).1.2
      (by decide),
   (SelectThumbAddrModeRI5_imm (getRegister 1) (getRegister 1)
      (.mk (.Constant 64) [] 0) 0 64 2 (Or.inr (Or.inl rfl)) rfl (by decide)).2.1
      (by decide),
   (SelectThumbAddrModeRI5_imm (getRegister 1) (getRegister 1)
      (.mk (.Constant 3) [] 0) 0 3 2 (Or.inr (Or.inl rfl)) rfl (by decide)).2.1
      (by decide),
   (SelectThumbAddrModeRI5_imm (getRegister 1) (getRegister 1)
      (.mk (.Constant 4294967294) [] 0) 0 4294967294 2 (Or.inr (Or.inl rfl)) rfl
      (by decide)).2.2.1 (by decide)⟩

/-- In full mode a multiply by a constant `k` with `k - 1 = 2^n` is morphed to `ADDrs`
with shift `n`. -/
theorem Select_mul_add_form (AM : ARM_AM) (V R : SDOperand) (r k n : Nat)
    (hR : R.getOpcode = .Constant k) (hk : k < 2 ^ 32) (hk0 : k ≠ 0) (hn : k - 1 = 2 ^ n) :
    Select AM false (.mk .MUL [V, R] r) =
      some (SelectNodeTo .ADDrs
        [V, V, getRegister 0, getTargetConstant (AM.getSORegOpc .lsl n)] [V]) := by
  have hdc : dynCastConstant R = some k := by simp [dynCastConstant, hR]
  have hmod : k % 4294967296 = k := Nat.mod_eq_of_lt hk
  have hn32 : n < 32 := by
    by_contra hcon
    have : 2 ^ 32 ≤ 2 ^ n := Nat.pow_le_pow_right (by norm_num) (by omega)
    omega
  have hp : isPowerOf2_32 (k - 1) = true := (isPowerOf2_32_iff _).2 ⟨n, hn32, hn⟩
  have hl : Log2_32 (k - 1) = n := by rw [hn]; exact Log2_32_two_pow n hn32
  simp [Select, Select.mul, SDOperand.getOpcode, SDOperand.getOperand, SDOperand.operands,
    hdc, hmod, hk0, hp, hl]

/-- In full mode a multiply by a constant `k` with `k - 1` no power of two and `k + 1`,
computed in 32 bits, equal to `2^n` is morphed to `RSBrs` with shift `n`. -/
theorem Select_mul_sub_form (AM : ARM_AM) (V R : SDOperand) (r k n : Nat)
    (hR : R.getOpcode = .Constant k) (hk : k < 2 ^ 32) (hk0 : k ≠ 0)
    (hnot : ¬ ∃ m, k - 1 = 2 ^ m) (hn : (k + 1) % 2 ^ 32 = 2 ^ n) :
    Select AM false (.mk .MUL [V, R] r) =
      some (SelectNodeTo .RSBrs
        [V, V, getRegister 0, getTargetConstant (AM.getSORegOpc .lsl n)] [V]) := by
  have hdc : dynCastConstant R = some k := by simp [dynCastConstant, hR]
  have hmod : k % 4294967296 = k := Nat.mod_eq_of_lt hk
  have hp1 : isPowerOf2_32 (k - 1) = false := by
    rw [Bool.eq_false_iff]
    intro h
    obtain ⟨m, -, hm⟩ := (isPowerOf2_32_iff _).1 h
    exact hnot ⟨m, hm⟩
  have hlt : 2 ^ n < 2 ^ 32 := by
    rw [← hn]
    exact Nat.mod_lt _ (by norm_num)
  have hn32 : n < 32 := by
    by_contra hcon
    have : 2 ^ 32 ≤ 2 ^ n := Nat.pow_le_pow_right (by norm_num) (by omega)
    omega
  have hn2 : (k + 1) % 4294967296 = 2 ^ n := hn
  have hp : isPowerOf2_32 (2 ^ n) = true := (isPowerOf2_32_iff _).2 ⟨n, hn32, rfl⟩
  have hl : Log2_32 (2 ^ n) = n := Log2_32_two_pow n hn32
  simp [Select, Select.mul, SDOperand.getOpcode, SDOperand.getOperand, SDOperand.operands,
    hdc, hmod, hk0, hp1, hn2, hp, hl]

/-- The add rewrite computes the product: `(x << n) + x = (2^n + 1) * x` in 32 bits. -/
theorem addShiftedValue_eq (x k n : Nat) (hk0 : k ≠ 0) (hn : k - 1 = 2 ^ n) :
    addShiftedValue x n = (k * x) % 2 ^ 32 := by
  have hk : k * x = x * 2 ^ n + x := by
    have : k = 2 ^ n + 1 := by omega
    rw [this]; ring
  unfold addShiftedValue
  rw [Nat.shiftLeft_eq, hk]
  generalize x * 2 ^ n = a
  omega

/-- The subtract rewrite computes the product: `(x << n) - x = (2^n - 1) * x` in 32
bits. -/
theorem rsbShiftedValue_eq (x k n : Nat) (hk : k < 2 ^ 32) (hn : (k + 1) % 2 ^ 32 = 2 ^ n) :
    rsbShiftedValue x n = (k * x) % 2 ^ 32 := by
  have hpos : 0 < 2 ^ n := Nat.two_pow_pos n
  have hk1 : k + 1 = 2 ^ n := by
    rw [← hn]
    omega
  have hx : x * 2 ^ n = k * x + x := by
    rw [← hk1]; ring
  unfold rsbShiftedValue
  rw [Nat.shiftLeft_eq, hx]
  generalize k * x = a
  omega

/-- C22: the multiply strength reduction preserves the value computed.  In full mode,
for `mul(V, Constant k)` with 32-bit `k ≠ 0` and every `x`: if `k - 1 = 2^n`, `Select`
builds `ADDrs` with shift `n` and `((x << n) + x) mod 2^32 = (k * x) mod 2^32`; if
`k + 1`, computed in 32 bits, is `2^n`, then `((x << n) - x) mod 2^32 =
(k * x) mod 2^32`, and `Select` builds `RSBrs` with shift `n` unless the add form
applies.  Edge cases: `k = 1` gives `RSBrs` with shift 1, `k = 2` gives `ADDrs` with
shift 0, `k = 3` gives the add form with shift 1, and `k = 2^32 - 1` is not rewritten
because `k + 1` wraps to 0. -/
theorem mul_strength_reduction_preserves_value (AM : ARM_AM) (V R : SDOperand)
    (r k x : Nat) (hR : R.getOpcode = .Constant k) (hk : k < 2 ^ 32) (hk0 : k ≠ 0) :
    (∀ n, k - 1 = 2 ^ n →
      Select AM false (.mk .MUL [V, R] r) =
        some (SelectNodeTo .ADDrs
          [V, V, getRegister 0, getTargetConstant (AM.getSORegOpc .lsl n)] [V]) ∧
      addShiftedValue x n = (k * x) % 2 ^ 32) ∧
    (∀ n, (k + 1) % 2 ^ 32 = 2 ^ n →
      rsbShiftedValue x n = (k * x) % 2 ^ 32 ∧
      ((¬ ∃ m, k - 1 = 2 ^ m) →
        Select AM false (.mk .MUL [V, R] r) =
          some (SelectNodeTo .RSBrs
            [V, V, getRegister 0, getTargetConstant (AM.getSORegOpc .lsl n)] [V]))) ∧
    (k = 1 →
      Select AM false (.mk .MUL [V, R] r) =
        some (SelectNodeTo .RSBrs
          [V, V, getRegister 0, getTargetConstant (AM.getSORegOpc .lsl 1)] [V])) ∧
    (k = 2 →
      Select AM false (.mk .MUL [V, R] r) =
        some (SelectNodeTo .ADDrs
          [V, V, getRegister 0, getTargetConstant (AM.getSORegOpc .lsl 0)] [V])) ∧
    (k = 3 →
      Select AM false (.mk .MUL [V, R] r) =
        some (SelectNodeTo .ADDrs
          [V, V, getRegister 0, getTargetConstant (AM.getSORegOpc .lsl 1)] [V])) ∧
    (k = 2 ^ 32 - 1 →
      Select AM false (.mk .MUL [V, R] r) = some (SelectCode (.mk .MUL [V, R] r))) := by
  refine ⟨?_, ?_, ?_, ?_, ?_, ?_⟩
  · intro n hn
    exact ⟨Select_mul_add_form AM V R r k n hR hk hk0 hn, addShiftedValue_eq x k n hk0 hn⟩
  · intro n hn
    exact ⟨rsbShiftedValue_eq x k n hk hn,
      fun hnot => Select_mul_sub_form AM V R r k n hR hk hk0 hnot hn⟩
  · intro h1
    subst h1
    refine Select_mul_sub_form AM V R r 1 1 hR hk hk0 ?_ (by norm_num)
    rintro ⟨m, hm⟩
    have : 0 < 2 ^ m := Nat.two_pow_pos m
    omega
  · intro h2
    subst h2
    exact Select_mul_add_form AM V R r 2 0 hR hk hk0 (by norm_num)
  · intro h3
    subst h3
    exact Select_mul_add_form AM V R r 3 1 hR hk hk0 (by norm_num)
  · intro hmax
    have hdc : dynCastConstant R = some k := by simp [dynCastConstant, hR]
    subst hmax
    have hp1 : isPowerOf2_32 (2 ^ 32 - 1 - 1) = false := by decide
    have hp2 : isPowerOf2_32 ((2 ^ 32 - 1 + 1) % 2 ^ 32) = false := by decide
    norm_num at hp1 hp2
    simp [Select, Select.mul, SDOperand.getOpcode, SDOperand.getOperand,
      SDOperand.operands, hdc, hp1, hp2]

/-- Witness for C22: for `k = 9` and `x = 0xFFFFFFFF` the node is `ADDrs` with shift 3
and `(x << 3) + x` is `9 * x` in 32 bits; for `k = 7` the subtract form with shift 3
gives `7 * x`. -/
theorem mul_strength_reduction_preserves_value_witness :
    (Select sampleAM false (.mk .MUL [getRegister 1, .mk (.Constant 9) [] 0] 0) =
        some (SelectNodeTo .ADDrs [getRegister 1, getRegister 1, getRegister 0,
          getTargetConstant (sampleAM.getSORegOpc .lsl 3)] [getRegister 1]) ∧
      addShiftedValue 4294967295 3 = (9 * 4294967295) % 2 ^ 32) ∧
    rsbShiftedValue 4294967295 3 = (7 * 4294967295) % 2 ^ 32 :=
  ⟨(mul_strength_reduction_preserves_value sampleAM (getRegister 1)
      (.mk (.Constant 9) [] 0) 0 9 4294967295 rfl (by decide) (by decide)).1 3
      (by decide),
   ((mul_strength_reduction_preserves_value sampleAM (getRegister 1)
      (.mk (.Constant 7) [] 0) 0 7 4294967295 rfl (by decide) (by decide)).2.1 3
      (by decide)).1⟩

/-- A well-formed shift node has operands 0 and 1. -/
theorem ShiftWellFormed_operands (AM : ARM_AM) (V : SDOperand)
    (h : ShiftWellFormed AM V = true) (hk : AM.getShiftOpcForNode V ≠ .no_shift) :
    ∃ x y, V.getOperand 0 = some x ∧ V.getOperand 1 = some y := by
  cases V with
  | mk k ops r =>
    simp only [ShiftWellFormed, hk, decide_False, Bool.false_or, decide_eq_true_eq,
      SDOperand.operands] at h
    match ops, h with
    | x :: y :: _, _ =>
      exact ⟨x, y, by simp [SDOperand.getOperand, SDOperand.operands],
        by simp [SDOperand.getOperand, SDOperand.operands]⟩

/-- A well-formed add or subtract is built from exactly two operands. -/
theorem OperandsWellFormed_addsub (k : NodeKind) (ops : List SDOperand) (r : Nat)
    (hk : k = .ADD ∨ k = .SUB) (h : OperandsWellFormed (.mk k ops r) = true) :
    ∃ N0 N1, ops = [N0, N1] := by
  rcases hk with rfl | rfl <;>
  · simp only [OperandsWellFormed, SDOperand.getOpcode, SDOperand.operands, beq_iff_eq] at h
    match ops, h with
    | [N0, N1], _ => exact ⟨N0, N1, rfl⟩

/-- A well-formed `Wrapper` node has operand 0. -/
theorem OperandsWellFormed_wrapper (ops : List SDOperand) (r : Nat)
    (h : OperandsWellFormed (.mk .ARMISD_Wrapper ops r) = true) :
    ∃ x, (SDOperand.mk .ARMISD_Wrapper ops r).getOperand 0 = some x := by
  simp only [OperandsWellFormed, SDOperand.getOpcode, SDOperand.operands,
    decide_eq_true_eq] at h
  match ops, h with
  | x :: _, _ => exact ⟨x, by simp [SDOperand.getOperand, SDOperand.operands]⟩

/-- `SelectAddrMode2` matches every well-formed address. -/
theorem SelectAddrMode2_total (AM : ARM_AM) (Op N : SDOperand)
    (h : AddrWellFormed AM N = true) :
    ∃ out, SelectAddrMode2 AM Op N = some (.matched out) := by
  cases N with
  | mk k ops r =>
    simp only [AddrWellFormed, Bool.and_eq_true] at h
    obtain ⟨hO, hS⟩ := h
    by_cases hk : k = .ADD ∨ k = .SUB
    · obtain ⟨N0, N1, rfl⟩ := OperandsWellFormed_addsub k ops r hk hO
      have hS2 : ShiftWellFormed AM N0 = true ∧ ShiftWellFormed AM N1 = true := by
        rcases hk with rfl | rfl <;>
          simpa [SDOperand.getOpcode, SDOperand.operands] using hS
      rw [SelectAddrMode2_addsub AM Op N0 N1 k r hk]
      cases hi : (if k = .ADD then SelectAddrMode2.imm12 AM N0 N1 else none) with
      | some x => exact ⟨x, rfl⟩
      | none =>
        obtain ⟨s1, h1⟩ := foldRHS_total AM (.mk k [N0, N1] r) N0 N1
          (ShiftWellFormed_operands AM N1 hS2.2)
        obtain ⟨s, h2⟩ := foldLHS_total AM (.mk k [N0, N1] r) N0 N1 s1
          (ShiftWellFormed_operands AM N0 hS2.1)
        refine ⟨⟨s.Base, s.Offset,
          getTargetConstant (AM.getAM2Opc s.AddSub s.ShAmt s.ShOpcVal)⟩, ?_⟩
        simp [SelectAddrMode2.regForm, h1, h2]
    · have hk2 : k ≠ .ADD ∧ k ≠ .SUB := ⟨fun h => hk (Or.inl h), fun h => hk (Or.inr h)⟩
      simp only [SelectAddrMode2, SDOperand.getOpcode, hk2, ne_eq, not_false_eq_true,
        and_self, if_true]
      by_cases hW : k = .ARMISD_Wrapper
      · subst hW
        obtain ⟨x, hx⟩ := OperandsWellFormed_wrapper ops r hO
        exact ⟨⟨x, getRegister 0,
          getTargetConstant (AM.getAM2Opc .add 0 .no_shift)⟩, by simp [hx]⟩
      · cases k <;> first | exact absurd rfl hW | exact ⟨_, rfl⟩

/-- `SelectAddrMode3` matches every address with well-formed operand counts. -/
theorem SelectAddrMode3_total (AM : ARM_AM) (Op N : SDOperand)
    (h : OperandsWellFormed N = true) :
    ∃ out, SelectAddrMode3 AM Op N = some (.matched out) := by
  cases N with
  | mk k ops r =>
    by_cases hS : k = .SUB
    · obtain ⟨N0, N1, rfl⟩ := OperandsWellFormed_addsub k ops r (Or.inr hS) h
      subst hS
      exact ⟨⟨N0, N1, getTargetConstant (AM.getAM3Opc .sub 0)⟩, by
        simp [SelectAddrMode3, SDOperand.getOpcode, SDOperand.getOperand,
          SDOperand.operands]⟩
    · by_cases hA : k = .ADD
      · obtain ⟨N0, N1, rfl⟩ := OperandsWellFormed_addsub k ops r (Or.inl hA) h
        subst hA
        exact ⟨_, SelectAddrMode3_add AM Op N0 N1 r⟩
      · simp only [SelectAddrMode3, SDOperand.getOpcode, hS, hA, if_false, ne_eq,
          not_false_eq_true, if_true]
        exact ⟨_, rfl⟩

/-- `SelectAddrMode5` matches every address with well-formed operand counts. -/
theorem SelectAddrMode5_total (AM : ARM_AM) (Op N : SDOperand)
    (h : OperandsWellFormed N = true) :
    ∃ out, SelectAddrMode5 AM Op N = some (.matched out) := by
  cases N with
  | mk k ops r =>
    by_cases hA : k = .ADD
    · obtain ⟨N0, N1, rfl⟩ := OperandsWellFormed_addsub k ops r (Or.inl hA) h
      subst hA
      exact ⟨_, SelectAddrMode5_add AM Op N0 N1 r⟩
    · simp only [SelectAddrMode5, SDOperand.getOpcode, hA, ne_eq, not_false_eq_true,
        if_true]
      by_cases hW : k = .ARMISD_Wrapper
      · subst hW
        obtain ⟨x, hx⟩ := OperandsWellFormed_wrapper ops r h
        exact ⟨⟨x, getTargetConstant (AM.getAM5Opc .add 0)⟩, by simp [hx]⟩
      · cases k <;> first | exact absurd rfl hW | exact ⟨_, rfl⟩

/-- `SelectThumbAddrModeRR` matches every address with well-formed operand counts. -/
theorem SelectThumbAddrModeRR_total (Op N : SDOperand)
    (h : OperandsWellFormed N = true) :
    ∃ out, SelectThumbAddrModeRR Op N = some (.matched out) := by
  cases N with
  | mk k ops r =>
    by_cases hA : k = .ADD
    · obtain ⟨N0, N1, rfl⟩ := OperandsWellFormed_addsub k ops r (Or.inl hA) h
      subst hA
      exact ⟨⟨N0, N1⟩, by
        simp [SelectThumbAddrModeRR, SDOperand.getOpcode, SDOperand.getOperand,
          SDOperand.operands]⟩
    · simp only [SelectThumbAddrModeRR, SDOperand.getOpcode, hA, ne_eq,
        not_false_eq_true, if_true]
      exact ⟨_, rfl⟩

/-- Past the stack-pointer check, `SelectThumbAddrModeRI5` with a non-zero scale
matches every address with well-formed operand counts. -/
theorem RI5_rest_total (N : SDOperand) (Scale : Nat) (hS : Scale ≠ 0)
    (h : OperandsWellFormed N = true) :
    ∃ out, SelectThumbAddrModeRI5.rest N Scale = some (.matched out) := by
  cases N with
  | mk k ops r =>
    by_cases hA : k = .ADD
    · obtain ⟨N0, N1, rfl⟩ := OperandsWellFormed_addsub k ops r (Or.inl hA) h
      subst hA
      cases hd : dynCastConstant N1 with
      | some v => exact ⟨_, RI5_rest_add_const N0 N1 r v Scale hd hS⟩
      | none =>
        exact ⟨⟨N0, N1, getTargetConstant 0⟩, by
          simp [SelectThumbAddrModeRI5.rest, SDOperand.getOpcode, SDOperand.getOperand,
            SDOperand.operands, hd]⟩
    · simp only [SelectThumbAddrModeRI5.rest, SDOperand.getOpcode, hA, ne_eq,
        not_false_eq_true, if_true]
      by_cases hW : k = .ARMISD_Wrapper
      · subst hW
        obtain ⟨x, hx⟩ := OperandsWellFormed_wrapper ops r h
        exact ⟨⟨x, getRegister 0, getTargetConstant 0⟩, by simp [hx]⟩
      · cases k <;> first | exact absurd rfl hW | exact ⟨_, rfl⟩
/-- `SelectAddrMode3` never returns false. -/
theorem SelectAddrMode3_ne_declined (AM : ARM_AM) (Op N : SDOperand) :
    SelectAddrMode3 AM Op N ≠ some .declined := by
  intro h
  unfold SelectAddrMode3 at h
  split at h
  · simp [Option.bind_eq_some] at h
  · split at h
    · simp at h
    · simp only [Option.bind_eq_bind, Option.bind_eq_some] at h
      obtain ⟨N1, -, N0, -, h⟩ := h
      split at h <;> simp at h

/-- `SelectAddrMode5` never returns false. -/
theorem SelectAddrMode5_ne_declined (AM : ARM_AM) (Op N : SDOperand) :
    SelectAddrMode5 AM Op N ≠ some .declined := by
  intro h
  unfold SelectAddrMode5 at h
  split at h
  · simp only [Option.bind_eq_bind, Option.pure_def] at h
    split at h <;> simp [Option.bind_eq_some] at h
  · simp only [Option.bind_eq_bind, Option.bind_eq_some] at h
    obtain ⟨N1, -, N0, -, h⟩ := h
    split at h <;> simp at h

/-- `SelectThumbAddrModeRR` never returns false. -/
theorem SelectThumbAddrModeRR_ne_declined (Op N : SDOperand) :
    SelectThumbAddrModeRR Op N ≠ some .declined := by
  intro h
  unfold SelectThumbAddrModeRR at h
  split at h
  · simp at h
  · simp [Option.bind_eq_some] at h

/-- `SelectAddrMode3Offset` never returns false. -/
theorem SelectAddrMode3Offset_ne_declined (AM : ARM_AM) (Op N : SDOperand) :
    SelectAddrMode3Offset AM Op N ≠ some .declined := by
  intro h
  unfold SelectAddrMode3Offset at h
  simp only [Option.bind_eq_bind, Option.bind_eq_some] at h
  obtain ⟨Mode, -, h⟩ := h
  split at h <;> simp at h

/-- `SelectAddrMode2Offset` never returns false. -/
theorem SelectAddrMode2Offset_ne_declined (AM : ARM_AM) (Op N : SDOperand) :
    SelectAddrMode2Offset AM Op N ≠ some .declined := by
  intro h
  unfold SelectAddrMode2Offset at h
  simp only [Option.bind_eq_bind, Option.bind_eq_some] at h
  obtain ⟨Mode, -, h⟩ := h
  split at h
  · simp at h
  · split at h
    · simp only [Option.bind_eq_some] at h
      obtain ⟨Sh, -, h⟩ := h
      split at h
      · simp [Option.bind_eq_some] at h
      · simp at h
    · simp at h

/-- `SelectAddrMode2` never returns false. -/
theorem SelectAddrMode2_ne_declined (AM : ARM_AM) (Op N : SDOperand) :
    SelectAddrMode2 AM Op N ≠ some .declined := by
  intro h
  unfold SelectAddrMode2 at h
  split at h
  · simp only [Option.bind_eq_bind, Option.pure_def] at h
    split at h <;> simp [Option.bind_eq_some] at h
  · simp only [Option.bind_eq_bind, Option.bind_eq_some] at h
    obtain ⟨N1, -, N0, -, h⟩ := h
    split at h
    · simp at h
    · simp [Option.bind_eq_some] at h

/-- `SelectThumbAddrModeS1` and `SelectThumbAddrModeS2` never return false. -/
theorem SelectThumbAddrModeS1_S2_ne_declined (Op N : SDOperand) :
    SelectThumbAddrModeS1 Op N ≠ some .declined ∧
    SelectThumbAddrModeS2 Op N ≠ some .declined := by
  constructor
  · intro h
    apply RI5_rest_ne_declined N 1
    simpa [SelectThumbAddrModeS1, SelectThumbAddrModeRI5] using h
  · intro h
    apply RI5_rest_ne_declined N 2
    simpa [SelectThumbAddrModeS2, SelectThumbAddrModeRI5] using h

/-- An indexed load of width `i32`, `i16`, `i8` or `i1` is selected by the bespoke
rule of `Select`: the result is a fresh machine node, not the generic matcher. -/
theorem Select_indexed_load_bespoke (AM : ARM_AM) (isThumb : Bool)
    (Chain Base Off : SDOperand) (Mode : MemIndexedMode) (VT : ValueType)
    (Ext : LoadExtType) (r : Nat) (hM : Mode ≠ .UNINDEXED)
    (hVT : VT = .i32 ∨ VT = .i16 ∨ VT = .i8 ∨ VT = .i1)
    (hwf : ShiftWellFormed AM Off = true) :
    ∃ opc ops q,
      Select AM isThumb (.mk (.LOAD Mode VT Ext) [Chain, Base, Off] r) =
        some (ReturnTargetNode opc ops q) := by
  obtain ⟨m2, hm2⟩ := SelectAddrMode2Offset_matched AM
    (.mk (.LOAD Mode VT Ext) [Chain, Base, Off] r) Off Mode rfl
    (ShiftWellFormed_operands AM Off hwf)
  obtain ⟨m3, hm3⟩ := SelectAddrMode3Offset_matched AM
    (.mk (.LOAD Mode VT Ext) [Chain, Base, Off] r) Off Mode rfl
  rcases hVT with rfl | rfl | rfl | rfl
  · exact ⟨(if Mode = .PRE_INC ∨ Mode = .PRE_DEC then .LDR_PRE else .LDR_POST),
      [Base, m2.Offset, m2.Opc, Chain], [Chain, Base, m2.Offset], by
        simp [Select, SDOperand.getOpcode, Select.load, hM, SDOperand.getOperand,
          SDOperand.operands, hm2]⟩
  · exact ⟨(if Ext = .SEXTLOAD
        then (if Mode = .PRE_INC ∨ Mode = .PRE_DEC then .LDRSH_PRE else .LDRSH_POST)
        else (if Mode = .PRE_INC ∨ Mode = .PRE_DEC then .LDRH_PRE else .LDRH_POST)),
      [Base, m3.Offset, m3.Opc, Chain], [Chain, Base, m3.Offset], by
        simp [Select, SDOperand.getOpcode, Select.load, hM, SDOperand.getOperand,
          SDOperand.operands, hm3]⟩
  · by_cases hE : Ext = .SEXTLOAD
    · subst hE
      exact ⟨(if Mode = .PRE_INC ∨ Mode = .PRE_DEC then .LDRSB_PRE else .LDRSB_POST),
        [Base, m3.Offset, m3.Opc, Chain], [Chain, Base, m3.Offset], by
          simp [Select, SDOperand.getOpcode, Select.load, hM, SDOperand.getOperand,
            SDOperand.operands, hm3]⟩
    · exact ⟨(if Mode = .PRE_INC ∨ Mode = .PRE_DEC then .LDRB_PRE else .LDRB_POST),
        [Base, m2.Offset, m2.Opc, Chain], [Chain, Base, m2.Offset], by
          simp [Select, SDOperand.getOpcode, Select.load, hM, hE, SDOperand.getOperand,
            SDOperand.operands, hm2]⟩
  · by_cases hE : Ext = .SEXTLOAD
    · subst hE
      exact ⟨(if Mode = .PRE_INC ∨ Mode = .PRE_DEC then .LDRSB_PRE else .LDRSB_POST),
        [Base, m3.Offset, m3.Opc, Chain], [Chain, Base, m3.Offset], by
          simp [Select, SDOperand.getOpcode, Select.load, hM, SDOperand.getOperand,
            SDOperand.operands, hm3]⟩
    · exact ⟨(if Mode = .PRE_INC ∨ Mode = .PRE_DEC then .LDRB_PRE else .LDRB_POST),
        [Base, m2.Offset, m2.Opc, Chain], [Chain, Base, m2.Offset], by
          simp [Select, SDOperand.getOpcode, Select.load, hM, hE, SDOperand.getOperand,
            SDOperand.operands, hm2]⟩

/-- An indexed load of any other type goes to the generic matcher. -/
theorem Select_indexed_load_other (AM : ARM_AM) (isThumb : Bool) (Op : SDOperand)
    (Mode : MemIndexedMode) (VT : ValueType) (Ext : LoadExtType)
    (hOp : Op.getOpcode = .LOAD Mode VT Ext)
    (hVT : VT ≠ .i32 ∧ VT ≠ .i16 ∧ VT ≠ .i8 ∧ VT ≠ .i1) :
    Select AM isThumb Op = some (SelectCode Op) := by
  obtain ⟨h32, h16, h8, h1⟩ := hVT
  by_cases hM : Mode = .UNINDEXED
  · simp [Select, hOp, Select.load, hM]
  · simp [Select, hOp, Select.load, hM, h32, h16, h8, h1]

/-- C23: totality of the non-declining matchers.  `SelectAddrMode2`, `SelectAddrMode3`,
`SelectAddrMode5`, `SelectAddrMode2Offset`, `SelectAddrMode3Offset`,
`SelectThumbAddrModeRR`, `SelectThumbAddrModeS1` and `SelectThumbAddrModeS2` never
return false on any input, and on every well-formed input (an add or subtract has its
two operands, a `Wrapper` its operand, a shift node its two operands, and the
offset-only forms are asked about a load or store) they return a match carrying all
their outputs.  Consequently an indexed load of width `i32`, `i16`, `i8` or `i1` is
always turned into a fresh machine node by the bespoke rule and never handed to the
generic matcher, while an indexed load of any other type always is. -/
theorem non_declining_matchers_total (AM : ARM_AM) (Op N : SDOperand) :
    (SelectAddrMode2 AM Op N ≠ some .declined ∧
      SelectAddrMode3 AM Op N ≠ some .declined ∧
      SelectAddrMode5 AM Op N ≠ some .declined ∧
      SelectAddrMode2Offset AM Op N ≠ some .declined ∧
      SelectAddrMode3Offset AM Op N ≠ some .declined ∧
      SelectThumbAddrModeRR Op N ≠ some .declined ∧
      SelectThumbAddrModeS1 Op N ≠ some .declined ∧
      SelectThumbAddrModeS2 Op N ≠ some .declined) ∧
    (AddrWellFormed AM N = true →
      ∃ out, SelectAddrMode2 AM Op N = some (.matched out)) ∧
    (OperandsWellFormed N = true →
      (∃ out, SelectAddrMode3 AM Op N = some (.matched out)) ∧
      (∃ out, SelectAddrMode5 AM Op N = some (.matched out)) ∧
      (∃ out, SelectThumbAddrModeRR Op N = some (.matched out)) ∧
      (∃ out, SelectThumbAddrModeS1 Op N = some (.matched out)) ∧
      (∃ out, SelectThumbAddrModeS2 Op N = some (.matched out))) ∧
    (∀ Mode, getAddressingMode Op = some Mode →
      (ShiftWellFormed AM N = true →
        ∃ out, SelectAddrMode2Offset AM Op N = some (.matched out)) ∧
      (∃ out, SelectAddrMode3Offset AM Op N = some (.matched out))) ∧
    (∀ (isThumb : Bool) (Chain Base Off : SDOperand) (Mode : MemIndexedMode)
        (VT : ValueType) (Ext : LoadExtType) (r : Nat), Mode ≠ .UNINDEXED →
      (VT = .i32 ∨ VT = .i16 ∨ VT = .i8 ∨ VT = .i1 → ShiftWellFormed AM Off = true →
        ∃ opc ops q,
          Select AM isThumb (.mk (.LOAD Mode VT Ext) [Chain, Base, Off] r) =
            some (ReturnTargetNode opc ops q) ∧
          (ReturnTargetNode opc ops q).ret ≠
            .selectCode (.mk (.LOAD Mode VT Ext) [Chain, Base, Off] r)) ∧
      (VT ≠ .i32 ∧ VT ≠ .i16 ∧ VT ≠ .i8 ∧ VT ≠ .i1 →
        Select AM isThumb (.mk (.LOAD Mode VT Ext) [Chain, Base, Off] r) =
          some (SelectCode (.mk (.LOAD Mode VT Ext) [Chain, Base, Off] r)))) := by
  refine ⟨⟨SelectAddrMode2_ne_declined AM Op N, SelectAddrMode3_ne_declined AM Op N,
    SelectAddrMode5_ne_declined AM Op N, SelectAddrMode2Offset_ne_declined AM Op N,
    SelectAddrMode3Offset_ne_declined AM Op N, SelectThumbAddrModeRR_ne_declined Op N,
    (SelectThumbAddrModeS1_S2_ne_declined Op N).1,
    (SelectThumbAddrModeS1_S2_ne_declined Op N).2⟩,
    SelectAddrMode2_total AM Op N, ?_, ?_, ?_⟩
  · intro h
    refine ⟨SelectAddrMode3_total AM Op N h, SelectAddrMode5_total AM Op N h,
      SelectThumbAddrModeRR_total Op N h, ?_, ?_⟩
    · obtain ⟨out, ho⟩ := RI5_rest_total N 1 (by norm_num) h
      exact ⟨out, by simpa [SelectThumbAddrModeS1, SelectThumbAddrModeRI5] using ho⟩
    · obtain ⟨out, ho⟩ := RI5_rest_total N 2 (by norm_num) h
      exact ⟨out, by simpa [SelectThumbAddrModeS2, SelectThumbAddrModeRI5] using ho⟩
  · intro Mode hMode
    exact ⟨fun hwf => SelectAddrMode2Offset_matched AM Op N Mode hMode
        (ShiftWellFormed_operands AM N hwf),
      SelectAddrMode3Offset_matched AM Op N Mode hMode⟩
  · intro isThumb Chain Base Off Mode VT Ext r hM
    constructor
    · intro hVT hwf
      obtain ⟨opc, ops, q, h⟩ :=
        Select_indexed_load_bespoke AM isThumb Chain Base Off Mode VT Ext r hM hVT hwf
      exact ⟨opc, ops, q, h, by simp [ReturnTargetNode]⟩
    · intro hVT
      exact Select_indexed_load_other AM isThumb _ Mode VT Ext rfl hVT

/-- Witness for C23: `add(r1, shl(r2, r3))` is a well-formed address and
`SelectAddrMode2` matches it; a post-increment `i8` load is turned into a machine
node, and a post-increment `i64` load goes to the generic matcher. -/
theorem non_declining_matchers_total_witness :
    (∃ out, SelectAddrMode2 sampleAM (getRegister 1)
        (.mk .ADD [getRegister 1, .mk .SHL [getRegister 2, getRegister 3] 0] 0) =
      some (.matched out)) ∧
    (∃ opc ops q,
      Select sampleAM false
          (.mk (.LOAD .POST_INC .i8 .ZEXTLOAD)
            [getEntryNode, getRegister 1, getRegister 2] 0) =
        some (ReturnTargetNode opc ops q) ∧
      (ReturnTargetNode opc ops q).ret ≠
        .selectCode (.mk (.LOAD .POST_INC .i8 .ZEXTLOAD)
          [getEntryNode, getRegister 1, getRegister 2] 0)) ∧
    Select sampleAM false
        (.mk (.LOAD .POST_INC .i64 .NON_EXTLOAD)
          [getEntryNode, getRegister 1, getRegister 2] 0) =
      some (SelectCode (.mk (.LOAD .POST_INC .i64 .NON_EXTLOAD)
        [getEntryNode, getRegister 1, getRegister 2] 0)) :=
  ⟨(non_declining_matchers_total sampleAM (getRegister 1)
      (.mk .ADD [getRegister 1, .mk .SHL [getRegister 2, getRegister 3] 0] 0)).2.1
      (by decide),
   ((non_declining_matchers_total sampleAM (getRegister 1) (getRegister 1)).2.2.2.2
      false getEntryNode (getRegister 1) (getRegister 2) .POST_INC .i8 .ZEXTLOAD 0
      (by decide)).1 (Or.inr (Or.inr (Or.inl rfl))) (by decide),
   ((non_declining_matchers_total sampleAM (getRegister 1) (getRegister 1)).2.2.2.2
      false getEntryNode (getRegister 1) (getRegister 2) .POST_INC .i64 .NON_EXTLOAD 0
      (by decide)).2 (by decide)⟩

end ARMISel
